import Mathlib

/-!
Authenticated request gateway (`src/api/axios.js`) and the helpers around it.

A shallow embedding of the token store, the request signer and the
refresh coordinator of the Axios client, of the route guard, the kid search,
the pagination, the movie form and the watchlist normaliser, followed by the
properties established about them.

Modelling conventions.

* `localStorage` / `sessionStorage` are association lists from keys to
  string values; `getItem` answers `none` where the browser answers `null`.
* A JavaScript value that is only ever inspected for truthiness and is a
  string when present is an `Option String`; `truthy` is JavaScript
  truthiness on it (`null`, `undefined` and `""` are falsy).
* The module-level variables `isRefreshing` and `waiters` are fields of
  `State`.  Every effect on the outside world (network calls, DOM events,
  navigation, settled promises) is appended to `State.log`.
* An `async` function is split at its `await`s: the synchronous part up to
  the `await` is one transition, the continuation another.
* Objects are values: the mutation `original._retry = true`, visible through
  `error.config`, is the function `markRetry` on the error value.
* A response status is a number, and the `accessToken` / `refreshToken`
  fields of a refresh answer are strings when present.
* A JavaScript number is a double.  Where the code computes with a number
  that a URL or the backend supplies (the page of the kid search, the id of
  a watchlist movie), the embedding is over a type of numbers with the
  operations the code applies, and NaN is one of the numbers.
-/

namespace AxiosClient

/-! ## JavaScript values -/

/-- The JavaScript values that can reach `setTokens`. -/
inductive JSVal where
  | undefined
  | null
  | bool (b : Bool)
  | num (n : Int)
  | str (s : String)
deriving DecidableEq

/-- The string a value is, when `typeof v === "string"`. -/
def JSVal.asString : JSVal → Option String
  | .str s => some s
  | _ => none

/-- JavaScript truthiness of a value that is a string, `null` or `undefined`. -/
def truthy : Option String → Bool
  | some s => s != ""
  | none => false

/-- The operator `a || b` on such values. -/
def jsOr (a b : Option String) : Option String :=
  if truthy a then a else b

/-- The expression `a || ""`. -/
def orEmpty (a : Option String) : String :=
  if truthy a then a.getD "" else ""

/-- The method `s.startsWith(p)`. -/
def startsWith (s p : String) : Bool := p.toList.isPrefixOf s.toList

/-! ## Web storage -/

/-- A storage area: keys with their values, in insertion order. -/
abbrev Storage := List (String × String)

/-- Storage read: `storage.getItem(k)`. -/
def getItem : Storage → String → Option String
  | [], _ => none
  | (k', v) :: rest, k => if k' = k then some v else getItem rest k

/-- Storage write: `storage.setItem(k, v)`. -/
def setItem : Storage → String → String → Storage
  | [], k, v => [(k, v)]
  | (k', v') :: rest, k, v =>
      if k' = k then (k, v) :: rest else (k', v') :: setItem rest k v

/-- Storage delete: `storage.removeItem(k)`. -/
def removeItem : Storage → String → Storage
  | [], _ => []
  | (k', v') :: rest, k =>
      if k' = k then removeItem rest k else (k', v') :: removeItem rest k

/-! ## Tokens (access / refresh) -/

def ACCESS_KEY : String := "nc_access"
def REFRESH_KEY : String := "nc_refresh"
def LEGACY_KEYS : List String := ["token", "access_token", "jwt"]

/-- The two storage areas of the browser. -/
structure Stores where
  localStorage : Storage
  sessionStorage : Storage
deriving DecidableEq

/-- The loop of `readLegacyAccess` over the keys still to visit. -/
def readLegacyAccessFrom (st : Stores) : List String → Option String
  | [] => none
  | k :: ks =>
      let v := jsOr (getItem st.localStorage k) (getItem st.sessionStorage k)
      if truthy v then v else readLegacyAccessFrom st ks

def readLegacyAccess (st : Stores) : Option String :=
  readLegacyAccessFrom st LEGACY_KEYS

def getAccess (st : Stores) : Option String :=
  jsOr (getItem st.localStorage ACCESS_KEY) (readLegacyAccess st)

def getRefresh (st : Stores) : Option String :=
  getItem st.localStorage REFRESH_KEY

def setTokens (st : Stores) (access refresh : JSVal) : Stores :=
  let st := match access.asString with
    | some a => { st with localStorage := setItem st.localStorage ACCESS_KEY a }
    | none => st
  match refresh.asString with
    | some r => { st with localStorage := setItem st.localStorage REFRESH_KEY r }
    | none => st

/-- The `forEach` of `clearTokens` over the legacy keys. -/
def clearLegacy (st : Stores) : List String → Stores
  | [] => st
  | k :: ks =>
      clearLegacy
        { localStorage := removeItem st.localStorage k
          sessionStorage := removeItem st.sessionStorage k } ks

def clearTokens (st : Stores) : Stores :=
  let st := { st with localStorage := removeItem st.localStorage ACCESS_KEY }
  let st := { st with localStorage := removeItem st.localStorage REFRESH_KEY }
  clearLegacy st LEGACY_KEYS

/-! ## Requests, responses and errors -/

/-- Header object: property names with their values. -/
abbrev Headers := List (String × String)

/-- Property read `headers[k]`. -/
def getHeader (hs : Headers) (k : String) : Option String := getItem hs k

/-- Property assignment `headers[k] = v`. -/
def setHeader (hs : Headers) (k v : String) : Headers := setItem hs k v

/-- An Axios request config, with the fields the client reads or writes. -/
structure Config where
  baseURL : Option String
  url : Option String
  method : Option String
  data : Option String
  headers : Option Headers
  _retry : Bool
deriving DecidableEq

/-- The object literal `{}`. -/
def emptyConfig : Config :=
  { baseURL := none, url := none, method := none, data := none, headers := none,
    _retry := false }

structure Response where
  status : Nat
  data : String
deriving DecidableEq

/-- The error object a failed request rejects with. -/
structure AxiosError where
  message : String
  response : Option Response
  config : Option Config
deriving DecidableEq

/-- The body of a `POST /auth/refresh` answer. -/
structure RefreshData where
  accessToken : Option String
  refreshToken : Option String
deriving DecidableEq

/-- How `axios.post(.../auth/refresh)` settles: it throws (non-2xx, timeout,
transport error) or yields a response whose `data` may be missing. -/
inductive PostOutcome where
  | threw
  | ok (data : Option RefreshData)
deriving DecidableEq

/-- How a replayed request `axios(original)` settles. -/
inductive ReplayOutcome where
  | fulfilled (res : Response)
  | rejected (e : AxiosError)
deriving DecidableEq

/-! ## Request interceptor -/

def bearer (token : String) : String := "Bearer " ++ token

def requestInterceptor (st : Stores) (config : Config) : Config :=
  let token := getAccess st
  if truthy token then
    { config with
      headers := some (setHeader (config.headers.getD []) "Authorization"
        (bearer (token.getD ""))) }
  else config

/-! ## Response interceptor with coordinated refresh -/

/-- The closure `retry` pushed on `waiters`: it captures the `resolve` /
`reject` pair of its `retryPromise` (named by `handle`), `error` and
`original`. -/
structure Waiter where
  handle : Nat
  error : AxiosError
  original : Config
deriving DecidableEq

/-- Observable effects, in the order they happen. -/
inductive Effect where
  /-- The function `refreshAccess` is entered. -/
  | refreshAccess
  /-- The call `axios.post(url, { refreshToken })` of `refreshAccess`. -/
  | post (url : String) (refreshToken : String)
  /-- The call `window.dispatchEvent` with an event of that name. -/
  | dispatchEvent (name : String)
  /-- The call `window.location.replace(path)`. -/
  | locationReplace (path : String)
  /-- The replay `axios(original)` made by the closure `retry` of `handle`. -/
  | axios (handle : Nat) (config : Config)
  /-- The promise `handle` is resolved with `res`. -/
  | resolve (handle : Nat) (res : Response)
  /-- The promise `handle` is rejected with `error`. -/
  | reject (handle : Nat) (error : AxiosError)
  /-- A request leaves the request interceptor with `config`. -/
  | send (config : Config)
deriving DecidableEq

/-- A call of `refreshAccess` whose caller is suspended on it: either the
call itself is suspended at `await axios.post(...)`, or it has returned
`newAccess` and the caller has not resumed yet. -/
inductive RefreshCall where
  | awaitingPost
  | returned (newAccess : Option String)
deriving DecidableEq

structure State where
  /-- The value `import.meta.env.VITE_API_BASE`, also `api.defaults.baseURL`. -/
  apiBase : Option String
  stores : Stores
  /-- The value `location.pathname`. -/
  pathname : String
  isRefreshing : Bool
  waiters : List Waiter
  /-- Handlers suspended at `await refreshAccess()`. -/
  refreshCalls : List RefreshCall
  /-- Closures `retry` suspended at `await axios(original)`. -/
  replays : List (Nat × Config)
  log : List Effect
deriving DecidableEq

def State.emit (s : State) (e : Effect) : State :=
  { s with log := s.log ++ [e] }

/-- The test `/\/auth\/(login|register|refresh)/` anchored at the start of
`cs`. -/
def authPathAt (cs : List Char) : Bool :=
  ["login", "register", "refresh"].any
    (fun alt => ("/auth/" ++ alt).toList.isPrefixOf cs)

/-- The unanchored search of `/\/auth\/(login|register|refresh)/.test`. -/
def authPathSearch : List Char → Bool
  | [] => authPathAt []
  | c :: cs => authPathAt (c :: cs) || authPathSearch cs

/-- The string `(original.baseURL || api.defaults.baseURL || "") +
(original.url || "")`. -/
def requestUrl (apiBase : Option String) (original : Config) : String :=
  orEmpty (jsOr original.baseURL apiBase) ++ orEmpty original.url

def isAuthPath (apiBase : Option String) (original : Config) : Bool :=
  authPathSearch (requestUrl apiBase original).toList

/-- The guard `status === 401 && !original._retry && !isAuthPath` of the
response interceptor, on `original = error.config || {}`. -/
def eligible (apiBase : Option String) (error : AxiosError) : Bool :=
  let original := error.config.getD emptyConfig
  (error.response.map (fun r => r.status) == some 401) && !original._retry
    && !isAuthPath apiBase original

/-- The assignment `original._retry = true`, seen through `error.config`:
`original` is `error.config` when the error has one, a fresh object
otherwise. -/
def markRetry (error : AxiosError) : AxiosError :=
  { error with config := error.config.map (fun c => { c with _retry := true }) }

/-- The part of `refreshAccess` before its `await`. -/
def refreshAccessStart (s : State) : State :=
  let s := s.emit .refreshAccess
  let rt := getRefresh s.stores
  if truthy rt then
    { s.emit (.post (s.apiBase.getD "undefined" ++ "/auth/refresh") (rt.getD "")) with
      refreshCalls := s.refreshCalls ++ [.awaitingPost] }
  else
    { s with refreshCalls := s.refreshCalls ++ [.returned none] }

/-- The value `data.accessToken` of a settled refresh call when the test
`data?.accessToken` passes; `none` when the call threw or the test fails. -/
def usableToken : PostOutcome → Option String
  | .threw => none
  | .ok data =>
      let accessToken := data.bind (fun d => d.accessToken)
      if truthy accessToken then accessToken else none

/-- The part of `refreshAccess` after its `await`, with the value it
returns. -/
def refreshAccessFinish (s : State) (r : PostOutcome) : State × Option String :=
  match usableToken r with
  | some accessToken =>
      let s := { s with stores := setTokens s.stores (.str accessToken) .undefined }
      (s.emit (.dispatchEvent "auth:refreshed"), some accessToken)
  | none => (s, none)

/-- The closure `retry` up to its `await`. -/
def retry (w : Waiter) (newAccess : Option String) (s : State) : State :=
  if !truthy newAccess then
    let s := { s with stores := clearTokens s.stores }
    let s := s.emit (.dispatchEvent "auth:logout")
    let s := if !startsWith s.pathname "/login"
      then s.emit (.locationReplace "/login") else s
    s.emit (.reject w.handle w.error)
  else
    let original :=
      { w.original with
        headers := some (setHeader (w.original.headers.getD []) "Authorization"
          (bearer (newAccess.getD ""))) }
    let original :=
      if !truthy original.baseURL then { original with baseURL := s.apiBase } else original
    { s.emit (.axios w.handle original) with replays := s.replays ++ [(w.handle, original)] }

def flushWaiters (newAccess : Option String) (s : State) : State :=
  let list := s.waiters
  let s := { s with waiters := [] }
  list.foldl (fun s cb => retry cb newAccess s) s

/-- The rejection handler of `api.interceptors.response.use`, up to its
`await`; `handle` names the promise the handler returns. -/
def onRejected (s : State) (handle : Nat) (error : AxiosError) : State :=
  if eligible s.apiBase error then
    let original := { error.config.getD emptyConfig with _retry := true }
    let s := { s with waiters := s.waiters ++ [⟨handle, markRetry error, original⟩] }
    if !s.isRefreshing then
      refreshAccessStart { s with isRefreshing := true }
    else s
  else s.emit (.reject handle error)

/-- What can happen to the client. -/
inductive Event where
  /-- A request of `api` failed with `error`. -/
  | fault (handle : Nat) (error : AxiosError)
  /-- The network call of the `i`-th pending `refreshAccess` settles. -/
  | refreshSettled (i : Nat) (r : PostOutcome)
  /-- The handler awaiting the `i`-th pending `refreshAccess` resumes. -/
  | refreshResumed (i : Nat)
  /-- The `i`-th replay in flight settles. -/
  | replaySettled (i : Nat) (r : ReplayOutcome)
  /-- A request is sent through `api`. -/
  | request (config : Config)
  | setTokens (access refresh : JSVal)
  | clearTokens
  /-- The location changes. -/
  | navigate (pathname : String)
deriving DecidableEq

def step (s : State) : Event → State
  | .fault handle error => onRejected s handle error
  | .refreshSettled i r =>
      match s.refreshCalls.get? i with
      | some .awaitingPost =>
          let (s, newAccess) := refreshAccessFinish s r
          { s with refreshCalls := s.refreshCalls.set i (.returned newAccess) }
      | _ => s
  | .refreshResumed i =>
      match s.refreshCalls.get? i with
      | some (.returned newAccess) =>
          let s := { s with refreshCalls := s.refreshCalls.eraseIdx i }
          flushWaiters newAccess { s with isRefreshing := false }
      | _ => s
  | .replaySettled i r =>
      match s.replays.get? i with
      | some (handle, _) =>
          let s := { s with replays := s.replays.eraseIdx i }
          match r with
          | .fulfilled res => s.emit (.resolve handle res)
          | .rejected e => s.emit (.reject handle e)
      | none => s
  | .request config => s.emit (.send (requestInterceptor s.stores config))
  | .setTokens access refresh => { s with stores := setTokens s.stores access refresh }
  | .clearTokens => { s with stores := clearTokens s.stores }
  | .navigate pathname => { s with pathname := pathname }

def run (s : State) (evs : List Event) : State := evs.foldl step s

/-- The client right after the module is loaded. -/
def init (apiBase : Option String) (stores : Stores) (pathname : String) : State :=
  { apiBase := apiBase, stores := stores, pathname := pathname,
    isRefreshing := false, waiters := [], refreshCalls := [], replays := [], log := [] }

/-- States the client can be in. -/
def Reachable (s : State) : Prop :=
  ∃ apiBase stores pathname evs, s = run (init apiBase stores pathname) evs

/-! ## Vocabulary of the statements -/

/-- The waiter the handler enqueues for `error`. -/
def mkWaiter (handle : Nat) (error : AxiosError) : Waiter :=
  ⟨handle, markRetry error, { error.config.getD emptyConfig with _retry := true }⟩

/-- Faults reaching the response interceptor one after the other, each with
the handle of the promise its handler returns. -/
def faultEvents (fs : List (Nat × AxiosError)) : List Event :=
  fs.map (fun f => .fault f.1 f.2)

/-- One refresh episode: faults `fs₁`, the refresh call settling with `r`,
faults `fs₂` arriving before the handler that started the refresh resumes,
then that handler resuming. -/
def episode (fs₁ : List (Nat × AxiosError)) (r : PostOutcome)
    (fs₂ : List (Nat × AxiosError)) : List Event :=
  faultEvents fs₁ ++ [.refreshSettled 0 r] ++ faultEvents fs₂ ++ [.refreshResumed 0]

/-- The value `refreshAccess()` yields when started on `stores` and its
network call, if one is made, settles with `r`. -/
def refreshResult (stores : Stores) (r : PostOutcome) : Option String :=
  if truthy (getRefresh stores) then usableToken r else none

/-- No refresh in progress, nothing queued, no handler awaiting a refresh. -/
def Idle (s : State) : Prop :=
  s.isRefreshing = false ∧ s.waiters = [] ∧ s.refreshCalls = []

/-- Calls of `refreshAccess` recorded in a log. -/
def refreshAccessCount (log : List Effect) : Nat := log.count .refreshAccess

/-- Refresh network calls recorded in a log. -/
def postCount (log : List Effect) : Nat :=
  log.countP (fun e => match e with | .post _ _ => true | _ => false)

/-- Dispatches of the event `auth:logout` recorded in a log. -/
def logoutCount (log : List Effect) : Nat := log.count (.dispatchEvent "auth:logout")

/-- Replays recorded in a log, in order. -/
def replayed (log : List Effect) : List (Nat × Config) :=
  log.filterMap (fun e => match e with | .axios h c => some (h, c) | _ => none)

/-- Rejections recorded in a log, in order. -/
def rejections (log : List Effect) : List (Nat × AxiosError) :=
  log.filterMap (fun e => match e with | .reject h err => some (h, err) | _ => none)

/-- Refresh network calls not yet settled. -/
def outstandingPosts (s : State) : Nat := s.refreshCalls.count .awaitingPost

/-- What one closure `retry` emits when the refresh failed. -/
def teardownEffects (pathname : String) (w : Waiter) : List Effect :=
  [.dispatchEvent "auth:logout"] ++
    (if !startsWith pathname "/login"
      then [.locationReplace "/login"] else []) ++
    [.reject w.handle w.error]

/-- What a queue of closures `retry` emits when the refresh failed. -/
def teardownLog (pathname : String) : List Waiter → List Effect
  | [] => []
  | w :: ws => teardownEffects pathname w ++ teardownLog pathname ws

/-- The config a closure `retry` hands to `axios` after a refresh that
yielded `newAccess`. -/
def replayConfig (apiBase : Option String) (newAccess : String) (original : Config) :
    Config :=
  let original :=
    { original with
      headers := some (setHeader (original.headers.getD []) "Authorization"
        (bearer newAccess)) }
  if !truthy original.baseURL then { original with baseURL := apiBase } else original


/-- The coordinator invariant: while `isRefreshing` is set exactly one
handler awaits `refreshAccess`; while it is not, none does and the queue is
empty. -/
def Coordinated (s : State) : Prop :=
  (s.isRefreshing = true → s.refreshCalls.length = 1) ∧
    (s.isRefreshing = false → s.refreshCalls = [] ∧ s.waiters = [])

/-! ## Sample inputs -/

def sampleConfig (url : String) : Config :=
  { emptyConfig with url := some url, method := some "get" }

/-- A 401 answer to a request for `url`. -/
def sampleError (message url : String) : AxiosError :=
  { message := message, response := some ⟨401, "expired"⟩, config := some (sampleConfig url) }

/-- A freshly loaded client on `/discover` with the given `localStorage`. -/
def sampleState (localStorage : Storage) : State :=
  init (some "http://api.test") ⟨localStorage, []⟩ "/discover"

/-- The event is a call `setTokens(_, refresh)` with a string `refresh`. -/
def Event.storesRefresh : Event → Bool
  | .setTokens _ (.str _) => true
  | _ => false

/-- What the closure `retry` of `handle` does with the outcome of its replay:
`resolve(res)` or `reject(e)`. -/
def settleEffect (handle : Nat) : ReplayOutcome → Effect
  | .fulfilled res => .resolve handle res
  | .rejected e => .reject handle e

/-- The first truthy value of a list, `null` when there is none. -/
def firstNonEmpty : List (Option String) → Option String
  | [] => none
  | v :: vs => if truthy v then v else firstNonEmpty vs

/-- The places an access token is looked for, in the order of the claim:
`nc_access`, then each legacy key in `localStorage` before `sessionStorage`. -/
def accessCandidates (st : Stores) : List (Option String) :=
  [getItem st.localStorage "nc_access",
    getItem st.localStorage "token", getItem st.sessionStorage "token",
    getItem st.localStorage "access_token", getItem st.sessionStorage "access_token",
    getItem st.localStorage "jwt", getItem st.sessionStorage "jwt"]

/-- The function `flushWaiters` with the bodies of the queued closures left
open: `call cb newAccess s` is the state after the call `cb(newAccess)` made
in state `s`.  The closures of the client are `retry`. -/
def flushWaitersWith (call : Waiter → Option String → State → State)
    (newAccess : Option String) (s : State) : State :=
  let list := s.waiters
  let s := { s with waiters := [] }
  list.foldl (fun s cb => call cb newAccess s) s

/-- A closure that, when called, registers a closure of its own on
`waiters`. -/
def registeringCall (cb : Waiter) (_newAccess : Option String) (s : State) : State :=
  { s with waiters := s.waiters ++ [{ cb with handle := cb.handle + 100 }] }

/-- Targets of the calls `window.location.replace` recorded in a log, in
order. -/
def navigations (log : List Effect) : List String :=
  log.filterMap (fun e => match e with | .locationReplace p => some p | _ => none)

end AxiosClient

namespace Router

/-! ## Route guard (`src/router/ProtectedRoute.jsx`) -/

/-- The user object of the auth context; `roles` may be missing. -/
structure User where
  roles : Option (List String)
deriving DecidableEq

/-- The values `ProtectedRoute` takes from `useAuth()`; `currentProfile` is a
profile (named by its id) or `null`. -/
structure AuthValue where
  isAuthenticated : Bool
  currentProfile : Option Nat
  loadingSession : Bool
  user : Option User
deriving DecidableEq

/-- What the route renders. -/
inductive Element where
  /-- The placeholder `<div>Cargando…</div>`. -/
  | loading
  /-- The redirect `<Navigate to={target} replace />`. -/
  | navigate (target : String)
  /-- The protected content `<Outlet />`. -/
  | outlet
deriving DecidableEq

/-- The component; `requireRoles` is an array or `undefined`. -/
def ProtectedRoute (requireProfile : Bool) (requireRoles : Option (List String))
    (auth : AuthValue) : Element :=
  let roles := (auth.user.bind (fun u => u.roles)).getD []
  if auth.loadingSession then .loading
  else if !auth.isAuthenticated then .navigate "/login"
  else if requireProfile && auth.currentProfile.isNone then .navigate "/perfiles"
  else
    match requireRoles with
    | some required =>
        if !required.any (fun r => roles.contains r) then .navigate "/discover"
        else .outlet
    | none => .outlet

/-- The required roles, when given, share a role with the user's roles. -/
def rolesOk (requireRoles : Option (List String)) (auth : AuthValue) : Prop :=
  ∀ required, requireRoles = some required →
    ∃ r, r ∈ required ∧ r ∈ (auth.user.bind (fun u => u.roles)).getD []

/-- The path of the route that renders the login screen in `AppRouter.jsx`:
`<Route path="/login" element={<Login />} />`. -/
def LOGIN_PATH : String := "/login"

/-- The location shows the login screen: its pathname matches the login
route as the router matches it, without regard to the case of the letters
and to slashes at the end (`/login`, `/Login/`, `/login//`).  Every other
pathname is served by another route or by the `*` route (page not found).
Percent-encoded spellings of the path are not covered. -/
def onLoginScreen (pathname : String) : Bool :=
  (pathname.toList.rdropWhile (fun c => c == '/')).map Char.toLower == LOGIN_PATH.toList

end Router

namespace Js

/-! ## JavaScript numbers

A JavaScript number is an IEEE 754 double: besides the integers it has NaN,
the infinities and fractions, and from 2^53 on adding 1 to a number need not
change it.  Code that computes with numbers is embedded over a type `Num` of
numbers with the operations it applies, so that nothing about doubles is
assumed; `safeOps` gives the operations on NaN and on the integers from
-2^53 to 2^53, where they can be stated exactly. -/

/-- The operations on numbers that `searchKidFantasyAnimation` applies. -/
structure NumberOps (Num : Type) where
  /-- The literal `1`. -/
  one : Num
  /-- The value of `x` after `x++`. -/
  succ : Num → Num
  /-- The comparison `x >= y`. -/
  ge : Num → Num → Bool
  /-- Whether `x` is falsy: `0`, `-0` and NaN are. -/
  falsy : Num → Bool

/-- An integer of magnitude at most 2^53 = 9007199254740992; every such
integer is a double. -/
abbrev SafeInt : Type := { n : Int // n.natAbs ≤ 9007199254740992 }

/-- The doubles NaN and the integers from -2^53 to 2^53. -/
inductive SafeNumber where
  | nan
  | int (n : SafeInt)
deriving DecidableEq

/-- The value of `x` after `x++`: NaN stays NaN, and 2^53 stays 2^53, since
2^53 + 1 is not a double and rounds to 2^53. -/
def SafeNumber.succ : SafeNumber → SafeNumber
  | .nan => .nan
  | .int n =>
      if h : n.val < 9007199254740992 then
        .int ⟨n.val + 1, by have := n.property; omega⟩
      else .int n

/-- The comparison `x >= y`, false when either side is NaN. -/
def SafeNumber.ge : SafeNumber → SafeNumber → Bool
  | .int a, .int b => decide (b.val ≤ a.val)
  | _, _ => false

def SafeNumber.falsy : SafeNumber → Bool
  | .nan => true
  | .int n => decide (n.val = 0)

/-- Double arithmetic on NaN and the integers from -2^53 to 2^53. -/
def safeOps : NumberOps SafeNumber :=
  { one := .int ⟨1, by decide⟩
    succ := SafeNumber.succ
    ge := SafeNumber.ge
    falsy := SafeNumber.falsy }

/-- The string `String(n)` of a safe integer: its decimal digits, after a
minus sign when it is negative. -/
def SafeInt.toJsString (n : SafeInt) : String := toString n.val

end Js

namespace TmdbService

/-! ## Kid search (`src/services/tmdb.service.js`, `src/api/tmdb.js`) -/

/-- A movie as the backend sends it, with the fields the kid search reads;
`genre_ids` is `none` when it is not an array. -/
structure RawMovie where
  id : Nat
  genre_ids : Option (List Int)
deriving DecidableEq

/-- The card `toMovieCard` builds, with the same fields. -/
structure MovieCard where
  id : Nat
  genre_ids : List Int
deriving DecidableEq

def toMovieCard (m : RawMovie) : MovieCard :=
  { id := m.id, genre_ids := m.genre_ids.getD [] }

/-- The body of a `/tmdb/search` answer; either field may be missing, and
`total_pages` is any number. -/
structure SearchData (Num : Type) where
  total_pages : Option Num
  results : Option (List RawMovie)
deriving DecidableEq

def ALLOWED : List Int := [16, 14]

def perPage : Nat := 20

/-- The filter `Array.isArray(m.genre_ids) && m.genre_ids.some((id) =>
ALLOWED.has(id))`. -/
def allowed (m : MovieCard) : Bool := m.genre_ids.any (fun id => ALLOWED.contains id)

/-- The expression `data.total_pages || 1`. -/
def totalPagesOf {Num : Type} (ops : Js.NumberOps Num) (data : SearchData Num) : Num :=
  match data.total_pages with
  | some n => if ops.falsy n then ops.one else n
  | none => ops.one

/-- The expression `data.results || []`. -/
def resultsOf {Num : Type} (data : SearchData Num) : List RawMovie := data.results.getD []

/-- The list `chunk` of one iteration. -/
def chunkOf {Num : Type} (data : SearchData Num) : List MovieCard :=
  ((resultsOf data).map toMovieCard).filter allowed

/-- How a run of an `async` function with a loop ends. -/
inductive Outcome (α : Type) where
  /-- The loop was still running when the fuel ran out. -/
  | outOfFuel
  /-- An awaited call rejected, so the function rejects. -/
  | threw
  | returned (a : α)
deriving DecidableEq

/-- The `while` loop of `searchKidFantasyAnimation`, one iteration per unit
of fuel, on the variables `collected`, `tmdbPage` and `total_pages`; `search
p` is the answer of `tmdb.search(query, { page: p, ... })`, `none` when the
call rejects.  The page is a number, whatever the caller passed: it is
compared with `>=` and advanced with `++`. -/
def searchLoop {Num : Type} (ops : Js.NumberOps Num) (search : Num → Option (SearchData Num)) :
    Nat → List MovieCard → Num → Num → Outcome (List MovieCard × Num)
  | 0, _, _, _ => .outOfFuel
  | fuel + 1, collected, tmdbPage, total_pages =>
      if collected.length < perPage then
        match search tmdbPage with
        | none => .threw
        | some data =>
            let total_pages := totalPagesOf ops data
            let chunk := chunkOf data
            let collected := collected ++ chunk
            if ops.ge tmdbPage total_pages then .returned (collected, total_pages)
            else if (resultsOf data).length = 0 then .returned (collected, total_pages)
            else if chunk.length = 0 ∧ (resultsOf data).length = 0 then
              .returned (collected, total_pages)
            else searchLoop ops search fuel collected (ops.succ tmdbPage) total_pages
      else .returned (collected, total_pages)

structure SearchResult (Num : Type) where
  page : Num
  total_pages : Num
  results : List MovieCard
deriving DecidableEq

def searchKidFantasyAnimation {Num : Type} (ops : Js.NumberOps Num)
    (search : Num → Option (SearchData Num)) (fuel : Nat) (page : Num) :
    Outcome (SearchResult Num) :=
  match searchLoop ops search fuel [] page ops.one with
  | .returned (collected, total_pages) =>
      .returned { page := page, total_pages := total_pages, results := collected.take perPage }
  | .threw => .threw
  | .outOfFuel => .outOfFuel

/-- The matching items of `k` search pages in order: `page`, then each time
the page that `++` gives. -/
def matchingFrom {Num : Type} (ops : Js.NumberOps Num) (search : Num → Option (SearchData Num))
    (page : Num) : Nat → List MovieCard
  | 0 => []
  | k + 1 =>
      (match search page with
        | some data => chunkOf data
        | none => []) ++ matchingFrom ops search (ops.succ page) k

/-- The pages requested by the `while` loop, in order: the loop of
`searchLoop` with every call `tmdb.search(query, { page: tmdbPage, ... })`
recorded. -/
def searchCalls {Num : Type} (ops : Js.NumberOps Num) (search : Num → Option (SearchData Num)) :
    Nat → List MovieCard → Num → List Num
  | 0, _, _ => []
  | fuel + 1, collected, tmdbPage =>
      if collected.length < perPage then
        match search tmdbPage with
        | none => [tmdbPage]
        | some data =>
            let total_pages := totalPagesOf ops data
            let chunk := chunkOf data
            let collected := collected ++ chunk
            if ops.ge tmdbPage total_pages then [tmdbPage]
            else if (resultsOf data).length = 0 then [tmdbPage]
            else if chunk.length = 0 ∧ (resultsOf data).length = 0 then [tmdbPage]
            else tmdbPage :: searchCalls ops search fuel collected (ops.succ tmdbPage)
      else []

/-- The page number `n`, for `n` up to 1000. -/
def pageNumber (n : Fin 1001) : Js.SafeNumber :=
  .int ⟨(n.val : Int), by have := n.isLt; omega⟩

/-- A backend with two pages for the sample query. -/
def sampleSearch (p : Js.SafeNumber) : Option (SearchData Js.SafeNumber) :=
  if p = pageNumber 1 then
    some { total_pages := some (pageNumber 2)
           results := some [⟨10, some [16, 35]⟩, ⟨11, some [28]⟩, ⟨12, none⟩] }
  else if p = pageNumber 2 then
    some { total_pages := some (pageNumber 2)
           results := some [⟨20, some [14]⟩, ⟨21, some [99]⟩] }
  else some { total_pages := some (pageNumber 2), results := some [] }

/-- A backend that reports `total_pages: 0` and one item of another genre on
every page. -/
def zeroPagesSearch (_p : Js.SafeNumber) : Option (SearchData Js.SafeNumber) :=
  some { total_pages := some (pageNumber 0), results := some [⟨1, some [99]⟩] }

/-- A backend that answers every request, whatever its page, with
`{ total_pages: 3, results: [{ id: 1, genre_ids: [16] }] }`. -/
def animationSearch (_p : Js.SafeNumber) : Option (SearchData Js.SafeNumber) :=
  some { total_pages := some (pageNumber 3), results := some [⟨1, some [16]⟩] }

/-- A backend that answers every request, whatever its page, with
`{ total_pages: 3, results: [{ id: 1, genre_ids: [99] }] }`. -/
def otherGenreSearch (_p : Js.SafeNumber) : Option (SearchData Js.SafeNumber) :=
  some { total_pages := some (pageNumber 3), results := some [⟨1, some [99]⟩] }

end TmdbService

namespace Components

/-! ## Pagination (`src/components/Pagination.jsx`) -/

def windowSize : Int := 5

/-- The value `go(p)` hands to `onChange`: `Math.min(Math.max(1, p), total)`. -/
def go (total p : Int) : Int := min (max 1 p) total

/-- The page buttons of the component, `none` when it renders `null`; page
numbers are integers. -/
def Pagination (page total : Int) : Option (List Int) :=
  if total = 0 ∨ total ≤ 1 then none
  else
    let start := max 1 (page - windowSize / 2)
    let «end» := min total (start + windowSize - 1)
    some ((List.range («end» - start + 1).toNat).map (fun (i : Nat) => start + (i : Int)))

end Components

namespace Js

/-! ## JavaScript strings -/

/-- The code points `String.prototype.trim` removes: the WhiteSpace and
LineTerminator code points of ECMAScript. -/
def isWhiteSpace (c : Char) : Bool :=
  [9, 10, 11, 12, 13, 32, 160, 5760, 8232, 8233, 8239, 8287, 12288, 65279].contains c.toNat
    || (8192 ≤ c.toNat && c.toNat ≤ 8202)

def trimChars (cs : List Char) : List Char :=
  (cs.dropWhile isWhiteSpace).rdropWhile isWhiteSpace

/-- The method `s.trim()`. -/
def trim (s : String) : String := String.mk (trimChars s.toList)

/-- The class `\d`, also written `[0-9]`, of a regular expression without the
`u` flag. -/
def isDigit (c : Char) : Bool := 48 ≤ c.toNat && c.toNat ≤ 57

/-- The number a decimal digit stands for. -/
def digitValue (c : Char) : Nat := c.toNat - 48

end Js

namespace MovieForm

/-! ## Movie form (`src/components/MovieForm.jsx`) -/

/-- The test `/^\d{4}-\d{2}-\d{2}$/.test(s)`. -/
def testYMD : List Char → Bool
  | [y1, y2, y3, y4, a, m1, m2, b, d1, d2] =>
      Js.isDigit y1 && Js.isDigit y2 && Js.isDigit y3 && Js.isDigit y4 && a == '-' &&
        Js.isDigit m1 && Js.isDigit m2 && b == '-' && Js.isDigit d1 && Js.isDigit d2
  | _ => false

/-- The class `[\/.-]`. -/
def isSeparator (c : Char) : Bool := c == '/' || c == '.' || c == '-'

/-- The groups 1, 2, 3 of `s.match(/^(\d{2})[\/.-](\d{2})[\/.-](\d{4})$/)`,
`none` when there is no match. -/
def matchDMY : List Char → Option (List Char × List Char × List Char)
  | [d1, d2, a, m1, m2, b, y1, y2, y3, y4] =>
      if Js.isDigit d1 && Js.isDigit d2 && isSeparator a && Js.isDigit m1 && Js.isDigit m2 &&
          isSeparator b && Js.isDigit y1 && Js.isDigit y2 && Js.isDigit y3 && Js.isDigit y4
      then some ([d1, d2], [m1, m2], [y1, y2, y3, y4])
      else none
  | _ => none

/-- The function `toYMD` on a form value, which is a string, `null` or
`undefined`. -/
def toYMD (v : Option String) : String :=
  if !AxiosClient.truthy v then ""
  else
    let s := Js.trim (v.getD "")
    if testYMD s.toList then s
    else
      match matchDMY s.toList with
      | some (m1, m2, m3) => String.mk (m3 ++ ['-'] ++ m2 ++ ['-'] ++ m1)
      | none => ""

/-- The alternation `[01]\d|2[0-3]`. -/
def testHour (h1 h2 : Char) : Bool :=
  ((h1 == '0' || h1 == '1') && Js.isDigit h2) ||
    (h1 == '2' && (48 ≤ h2.toNat && h2.toNat ≤ 51))

/-- The sequence `[0-5]\d`. -/
def testSixty (m1 m2 : Char) : Bool :=
  (48 ≤ m1.toNat && m1.toNat ≤ 53) && Js.isDigit m2

/-- The test `/^([01]\d|2[0-3]):[0-5]\d(:[0-5]\d)?$/.test(s)`. -/
def testTime : List Char → Bool
  | [h1, h2, a, m1, m2] => testHour h1 h2 && a == ':' && testSixty m1 m2
  | [h1, h2, a, m1, m2, b, s1, s2] =>
      testHour h1 h2 && a == ':' && testSixty m1 m2 && b == ':' && testSixty s1 s2
  | _ => false

/-- The function `toHHmm` on a form value. -/
def toHHmm (v : Option String) : String :=
  if !AxiosClient.truthy v then ""
  else
    let s := Js.trim (v.getD "")
    if testTime s.toList then String.mk (s.toList.take 5) else ""

/-- The schedule fields of the validated form values; the other fields are
normalised independently of these two. -/
structure Values where
  showDate : Option String
  showTime : Option String
deriving DecidableEq

/-- The schedule keys of the payload; `none` when the key is absent. -/
structure Payload where
  showDate : Option String
  showTime : Option String
deriving DecidableEq

/-- The payload `submit` passes to `onSubmit`, on its schedule keys. -/
def submit (values : Values) : Payload :=
  let showDate : Option String :=
    if AxiosClient.truthy values.showDate then some (toYMD values.showDate) else none
  let showTime : Option String :=
    if AxiosClient.truthy values.showTime then some (toHHmm values.showTime) else none
  if !AxiosClient.truthy showDate || !AxiosClient.truthy showTime then
    { showDate := none, showTime := none }
  else { showDate := showDate, showTime := showTime }

/-- The form `YYYY-MM-DD`: four digits, two digits, two digits, joined by
hyphens. -/
def IsYMD (s : String) : Prop :=
  ∃ y1 y2 y3 y4 m1 m2 d1 d2 : Char,
    s = String.mk [y1, y2, y3, y4, '-', m1, m2, '-', d1, d2] ∧
    Js.isDigit y1 = true ∧ Js.isDigit y2 = true ∧ Js.isDigit y3 = true ∧
    Js.isDigit y4 = true ∧ Js.isDigit m1 = true ∧ Js.isDigit m2 = true ∧
    Js.isDigit d1 = true ∧ Js.isDigit d2 = true

/-- The form `HH:mm` with the hour in 00-23 and the minute in 00-59. -/
def IsHHmm (s : String) : Prop :=
  ∃ h1 h2 m1 m2 : Char,
    s = String.mk [h1, h2, ':', m1, m2] ∧
    Js.isDigit h1 = true ∧ Js.isDigit h2 = true ∧ Js.isDigit m1 = true ∧
    Js.isDigit m2 = true ∧
    10 * Js.digitValue h1 + Js.digitValue h2 ≤ 23 ∧
    10 * Js.digitValue m1 + Js.digitValue m2 ≤ 59

end MovieForm

namespace Watchlist

/-! ## Watchlist (`src/context/WatchlistContext.jsx`) -/

/-- A value a field of a movie may hold; `Num` is the type of numbers. -/
inductive Value (Num : Type) where
  | undefined
  | null
  | bool (b : Bool)
  | num (x : Num)
  | str (s : String)
deriving DecidableEq

/-- The values `null` and `undefined`. -/
def isNullish {Num : Type} : Value Num → Bool
  | .undefined => true
  | .null => true
  | _ => false

/-- The operator `a ?? b`. -/
def nullishOr {Num : Type} (a b : Value Num) : Value Num :=
  if isNullish a then b else a

/-- The conversion `String(v)`; `numberToString x` is the string JavaScript
gives for the number `x`, such as `"603"` for 603, `"1.5"` for 1.5,
`"1e+21"` for 10^21 and `"NaN"` for NaN. -/
def toJsString {Num : Type} (numberToString : Num → String) : Value Num → String
  | .undefined => "undefined"
  | .null => "null"
  | .bool b => if b then "true" else "false"
  | .num x => numberToString x
  | .str s => s

/-- The helper `toStr`. -/
def toStr {Num : Type} (numberToString : Num → String) (v : Value Num) : String :=
  if isNullish v then "" else Js.trim (toJsString numberToString v)

/-- The helper `isNumeric` on a string: `/^[0-9]+$/.test(s)`. -/
def isNumeric (s : String) : Bool := !s.toList.isEmpty && s.toList.all Js.isDigit

/-- A movie as the watchlist receives it, with the fields that decide
`movieId`, `source`, `title` and `posterUrl`; `year` and `rating` are
computed from other fields and left out. -/
structure Movie (Num : Type) where
  movieId : Value Num
  id : Value Num
  tmdbId : Value Num
  tmdb_id : Value Num
  source : Option String
  title : Option String
  name : Option String
  posterUrl : Option String
  poster_path : Option String
deriving DecidableEq

structure Normalized where
  movieId : String
  source : String
  title : String
  posterUrl : String
deriving DecidableEq

/-- The expression `movie.movieId ?? movie.id ?? movie.tmdbId ??
movie.tmdb_id ?? ""`. -/
def candidate {Num : Type} (movie : Movie Num) : Value Num :=
  nullishOr (nullishOr (nullishOr (nullishOr movie.movieId movie.id) movie.tmdbId)
    movie.tmdb_id) (.str "")

/-- The function `normalizeIn`; a missing movie is `none`. -/
def normalizeIn {Num : Type} (numberToString : Num → String) (movie : Option (Movie Num)) :
    Option Normalized :=
  match movie with
  | none => none
  | some movie =>
      let movieId := toStr numberToString (candidate movie)
      if movieId = "" then none
      else
        let source :=
          Js.trim (AxiosClient.orEmpty
            (AxiosClient.jsOr movie.source
              (some (if isNumeric movieId then "tmdb" else "local"))))
        let title := AxiosClient.orEmpty (AxiosClient.jsOr movie.title movie.name)
        let posterUrl :=
          AxiosClient.orEmpty (AxiosClient.jsOr movie.posterUrl movie.poster_path)
        some { movieId := movieId, source := source, title := title, posterUrl := posterUrl }

/-- The first value of a list that is neither `null` nor `undefined`. -/
def firstNonNullish {Num : Type} : List (Value Num) → Option (Value Num)
  | [] => none
  | v :: vs => if isNullish v then firstNonNullish vs else some v

/-- A movie with only the given `id`. -/
def sampleMovie {Num : Type} (id : Value Num) : Movie Num :=
  { movieId := .undefined, id := id, tmdbId := .undefined, tmdb_id := .null,
    source := none, title := some "Coco", name := none, posterUrl := none,
    poster_path := none }

end Watchlist

namespace AxiosClient

/-! ## Storage lemmas -/

theorem getItem_setItem_same (s : Storage) (k v : String) :
    getItem (setItem s k v) k = some v := by
  induction s with
  | nil => simp [setItem, getItem]
  | cons p rest ih =>
      obtain ⟨k', v'⟩ := p
      by_cases h : k' = k
      · simp [setItem, getItem, h]
      · simp [setItem, getItem, h, ih]

theorem getItem_setItem_ne (s : Storage) (k v j : String) (hj : j ≠ k) :
    getItem (setItem s k v) j = getItem s j := by
  induction s with
  | nil => simp [setItem, getItem, Ne.symm hj]
  | cons p rest ih =>
      obtain ⟨k', v'⟩ := p
      by_cases h : k' = k
      · subst h
        simp [setItem, getItem, Ne.symm hj]
      · by_cases h2 : k' = j
        · subst h2
          simp [setItem, getItem, h]
        · simp [setItem, getItem, h, h2, ih]

theorem getItem_removeItem_same (s : Storage) (k : String) :
    getItem (removeItem s k) k = none := by
  induction s with
  | nil => simp [removeItem, getItem]
  | cons p rest ih =>
      obtain ⟨k', v'⟩ := p
      by_cases h : k' = k
      · simp [removeItem, h, ih]
      · simp [removeItem, getItem, h, ih]

theorem getItem_removeItem_ne (s : Storage) (k j : String) (hj : j ≠ k) :
    getItem (removeItem s k) j = getItem s j := by
  induction s with
  | nil => simp [removeItem, getItem]
  | cons p rest ih =>
      obtain ⟨k', v'⟩ := p
      by_cases h : k' = k
      · subst h
        simp [removeItem, getItem, Ne.symm hj, ih]
      · by_cases h2 : k' = j
        · subst h2
          simp [removeItem, getItem, h]
        · simp [removeItem, getItem, h, h2, ih]

theorem getItem_removeItem_of_none (s : Storage) (k j : String)
    (hn : getItem s j = none) : getItem (removeItem s k) j = none := by
  by_cases hj : j = k
  · subst hj
    exact getItem_removeItem_same s j
  · rw [getItem_removeItem_ne s k j hj]
    exact hn

/-- Clearing legacy keys never brings a missing key back. -/
theorem clearLegacy_keeps_none (ks : List String) (st : Stores) (j : String) :
    (getItem st.localStorage j = none →
        getItem (clearLegacy st ks).localStorage j = none) ∧
      (getItem st.sessionStorage j = none →
        getItem (clearLegacy st ks).sessionStorage j = none) := by
  induction ks generalizing st with
  | nil => simp [clearLegacy]
  | cons k ks ih =>
      constructor
      · intro hn
        exact (ih _).1 (getItem_removeItem_of_none _ _ _ hn)
      · intro hn
        exact (ih _).2 (getItem_removeItem_of_none _ _ _ hn)

/-- Every key handed to `clearLegacy` is gone from both areas afterwards. -/
theorem clearLegacy_removes (ks : List String) (st : Stores) (j : String)
    (hj : j ∈ ks) :
    getItem (clearLegacy st ks).localStorage j = none ∧
      getItem (clearLegacy st ks).sessionStorage j = none := by
  induction ks generalizing st with
  | nil => cases hj
  | cons k ks ih =>
      by_cases hk : j = k
      · subst hk
        exact ⟨(clearLegacy_keeps_none ks _ j).1 (getItem_removeItem_same _ _),
          (clearLegacy_keeps_none ks _ j).2 (getItem_removeItem_same _ _)⟩
      · have hmem : j ∈ ks := by
          rcases List.mem_cons.mp hj with h | h
          · exact absurd h hk
          · exact h
        exact ih _ hmem

/-- The legacy scan finds nothing when every scanned key is missing from
both areas. -/
theorem readLegacyAccessFrom_none (st : Stores) (ks : List String)
    (h : ∀ k ∈ ks, getItem st.localStorage k = none ∧
      getItem st.sessionStorage k = none) :
    readLegacyAccessFrom st ks = none := by
  induction ks with
  | nil => rfl
  | cons k ks ih =>
      have hk := h k (List.mem_cons_self _ _)
      have ih2 := ih (fun j hj => h j (List.mem_cons_of_mem _ hj))
      simp [readLegacyAccessFrom, hk.1, hk.2, jsOr, truthy, ih2]

/-- The legacy scan only depends on the scanned keys. -/
theorem readLegacyAccessFrom_congr (st st2 : Stores) (ks : List String)
    (h : ∀ k ∈ ks, getItem st2.localStorage k = getItem st.localStorage k ∧
      getItem st2.sessionStorage k = getItem st.sessionStorage k) :
    readLegacyAccessFrom st2 ks = readLegacyAccessFrom st ks := by
  induction ks with
  | nil => rfl
  | cons k ks ih =>
      have hk := h k (List.mem_cons_self _ _)
      have ih2 := ih (fun j hj => h j (List.mem_cons_of_mem _ hj))
      simp [readLegacyAccessFrom, hk.1, hk.2, ih2]

/-- What `clearTokens` leaves behind. -/
theorem clearTokens_cleared (st : Stores) :
    getItem (clearTokens st).localStorage ACCESS_KEY = none ∧
      getItem (clearTokens st).localStorage REFRESH_KEY = none ∧
      (∀ k ∈ LEGACY_KEYS, getItem (clearTokens st).localStorage k = none ∧
        getItem (clearTokens st).sessionStorage k = none) := by
  refine ⟨?_, ?_, ?_⟩
  · unfold clearTokens
    apply (clearLegacy_keeps_none _ _ _).1
    apply getItem_removeItem_of_none
    exact getItem_removeItem_same _ _
  · unfold clearTokens
    apply (clearLegacy_keeps_none _ _ _).1
    exact getItem_removeItem_same _ _
  · intro k hk
    unfold clearTokens
    exact clearLegacy_removes _ _ k hk

/-! ## Token store -/

/-- Claim C7: `setTokens(access)` with only an access string leaves every
`localStorage` key other than `nc_access` (so the refresh token) and all of
`sessionStorage` as they were; `setTokens(undefined, refresh)` leaves every
key other than `nc_refresh` (so the stored access token, and what `getAccess`
answers) as they were; a call with neither argument a string leaves the
stores unchanged. -/
theorem setTokens_leaves_other_token (st : Stores) :
    (∀ a : String,
        getRefresh (setTokens st (.str a) .undefined) = getRefresh st ∧
        (∀ k, k ≠ ACCESS_KEY →
          getItem (setTokens st (.str a) .undefined).localStorage k
            = getItem st.localStorage k) ∧
        (setTokens st (.str a) .undefined).sessionStorage = st.sessionStorage) ∧
    (∀ r : String,
        getItem (setTokens st .undefined (.str r)).localStorage ACCESS_KEY
          = getItem st.localStorage ACCESS_KEY ∧
        getAccess (setTokens st .undefined (.str r)) = getAccess st ∧
        (∀ k, k ≠ REFRESH_KEY →
          getItem (setTokens st .undefined (.str r)).localStorage k
            = getItem st.localStorage k) ∧
        (setTokens st .undefined (.str r)).sessionStorage = st.sessionStorage) ∧
    (∀ x y : JSVal, x.asString = none → y.asString = none →
        setTokens st x y = st) := by
  refine ⟨?_, ?_, ?_⟩
  · intro a
    refine ⟨?_, ?_, ?_⟩
    · simp only [setTokens, JSVal.asString, getRefresh]
      exact getItem_setItem_ne _ _ _ _ (by decide)
    · intro k hk
      simp only [setTokens, JSVal.asString]
      exact getItem_setItem_ne _ _ _ _ hk
    · simp [setTokens, JSVal.asString]
  · intro r
    have hkeys : ∀ k, k ≠ REFRESH_KEY →
        getItem (setTokens st .undefined (.str r)).localStorage k
          = getItem st.localStorage k := by
      intro k hk
      simp only [setTokens, JSVal.asString]
      exact getItem_setItem_ne _ _ _ _ hk
    have hsess : (setTokens st .undefined (.str r)).sessionStorage
        = st.sessionStorage := by
      simp [setTokens, JSVal.asString]
    refine ⟨hkeys _ (by decide), ?_, hkeys, hsess⟩
    unfold getAccess readLegacyAccess
    rw [hkeys _ (by decide)]
    congr 1
    apply readLegacyAccessFrom_congr
    intro k hk
    refine ⟨hkeys k ?_, by rw [hsess]⟩
    intro hkr
    subst hkr
    revert hk
    decide
  · intro x y hx hy
    simp [setTokens, hx, hy]

/-- Claim C7, on a store holding both tokens. -/
theorem setTokens_leaves_other_token_witness :
    getRefresh (setTokens ⟨[("nc_access", "a0"), ("nc_refresh", "r0")], []⟩
        (.str "a1") .undefined) = some "r0" ∧
      getItem (setTokens ⟨[("nc_access", "a0"), ("nc_refresh", "r0")], []⟩
        .undefined (.str "r1")).localStorage ACCESS_KEY = some "a0" ∧
      setTokens ⟨[("nc_access", "a0"), ("nc_refresh", "r0")], []⟩ .null (.num 3)
        = ⟨[("nc_access", "a0"), ("nc_refresh", "r0")], []⟩ :=
  ⟨((setTokens_leaves_other_token
        ⟨[("nc_access", "a0"), ("nc_refresh", "r0")], []⟩).1 "a1").1,
    ((setTokens_leaves_other_token
        ⟨[("nc_access", "a0"), ("nc_refresh", "r0")], []⟩).2.1 "r1").1,
    (setTokens_leaves_other_token
        ⟨[("nc_access", "a0"), ("nc_refresh", "r0")], []⟩).2.2 .null (.num 3) rfl rfl⟩

/-- Claim C8: after `clearTokens()` the keys `nc_access` and `nc_refresh` are
missing from `localStorage`, every legacy key is missing from both
`localStorage` and `sessionStorage`, and `getAccess()` and `getRefresh()`
both answer `null`. -/
theorem clearTokens_leaves_no_credential (st : Stores) :
    getItem (clearTokens st).localStorage ACCESS_KEY = none ∧
      getItem (clearTokens st).localStorage REFRESH_KEY = none ∧
      (∀ k ∈ LEGACY_KEYS, getItem (clearTokens st).localStorage k = none ∧
        getItem (clearTokens st).sessionStorage k = none) ∧
      getAccess (clearTokens st) = none ∧
      getRefresh (clearTokens st) = none := by
  obtain ⟨ha, hr, hl⟩ := clearTokens_cleared st
  refine ⟨ha, hr, hl, ?_, hr⟩
  unfold getAccess readLegacyAccess
  rw [ha, readLegacyAccessFrom_none _ _ hl]
  rfl

/-- Claim C8, on stores holding both tokens and legacy keys in both areas. -/
theorem clearTokens_leaves_no_credential_witness :
    getItem (clearTokens ⟨[("nc_access", "a0"), ("jwt", "j"), ("nc_refresh", "r0")],
        [("token", "t"), ("access_token", "u")]⟩).sessionStorage "token" = none ∧
      getAccess (clearTokens ⟨[("nc_access", "a0"), ("jwt", "j"), ("nc_refresh", "r0")],
        [("token", "t"), ("access_token", "u")]⟩) = none :=
  ⟨((clearTokens_leaves_no_credential
        ⟨[("nc_access", "a0"), ("jwt", "j"), ("nc_refresh", "r0")],
          [("token", "t"), ("access_token", "u")]⟩).2.2.1 "token" (by decide)).2,
    (clearTokens_leaves_no_credential
        ⟨[("nc_access", "a0"), ("jwt", "j"), ("nc_refresh", "r0")],
          [("token", "t"), ("access_token", "u")]⟩).2.2.2.1⟩

/-! ## Response interceptor: single steps -/

theorem onRejected_not_eligible (s : State) (h : Nat) (e : AxiosError)
    (he : eligible s.apiBase e = false) :
    onRejected s h e = s.emit (.reject h e) := by
  simp [onRejected, he]

theorem onRejected_refreshing (s : State) (h : Nat) (e : AxiosError)
    (he : eligible s.apiBase e = true) (hr : s.isRefreshing = true) :
    onRejected s h e = { s with waiters := s.waiters ++ [mkWaiter h e] } := by
  simp [onRejected, he, hr, mkWaiter]

theorem onRejected_idle (s : State) (h : Nat) (e : AxiosError)
    (he : eligible s.apiBase e = true) (hr : s.isRefreshing = false) :
    onRejected s h e =
      refreshAccessStart
        { s with waiters := s.waiters ++ [mkWaiter h e], isRefreshing := true } := by
  simp [onRejected, he, hr, mkWaiter]

theorem run_append (s : State) (evs₁ evs₂ : List Event) :
    run s (evs₁ ++ evs₂) = run (run s evs₁) evs₂ := by
  simp [run, List.foldl_append]

theorem run_cons (s : State) (ev : Event) (evs : List Event) :
    run s (ev :: evs) = run (step s ev) evs := rfl

/-- Eligible faults arriving during a refresh only grow the queue. -/
theorem run_faults_refreshing (fs : List (Nat × AxiosError)) (s : State)
    (hr : s.isRefreshing = true) (he : ∀ f ∈ fs, eligible s.apiBase f.2 = true) :
    run s (faultEvents fs) =
      { s with waiters := s.waiters ++ fs.map (fun f => mkWaiter f.1 f.2) } := by
  induction fs generalizing s with
  | nil => simp [faultEvents, run]
  | cons f rest ih =>
      have hf := he f (List.mem_cons_self _ _)
      have hrest : ∀ g ∈ rest, eligible s.apiBase g.2 = true :=
        fun g hg => he g (List.mem_cons_of_mem _ hg)
      change run (step s (.fault f.1 f.2)) (faultEvents rest) = _
      have hstep : step s (.fault f.1 f.2)
          = { s with waiters := s.waiters ++ [mkWaiter f.1 f.2] } :=
        onRejected_refreshing s f.1 f.2 hf hr
      rw [hstep, ih { s with waiters := s.waiters ++ [mkWaiter f.1 f.2] } hr hrest]
      simp [List.append_assoc]

/-- The synchronous part of `refreshAccess`, written out. -/
theorem refreshAccessStart_eq (s : State) :
    refreshAccessStart s =
      { s with
        refreshCalls := s.refreshCalls ++
          [if truthy (getRefresh s.stores) then .awaitingPost else .returned none]
        log := s.log ++ .refreshAccess ::
          (if truthy (getRefresh s.stores) then
            [.post (s.apiBase.getD "undefined" ++ "/auth/refresh")
              ((getRefresh s.stores).getD "")]
          else []) } := by
  by_cases ht : truthy (getRefresh s.stores) = true
  · simp [refreshAccessStart, ht, State.emit]
  · simp [refreshAccessStart, ht, State.emit]

/-- Eligible faults from a state with no refresh in progress: the first one
calls `refreshAccess`, all of them are queued. -/
theorem run_faults_idle (f : Nat × AxiosError) (rest : List (Nat × AxiosError))
    (s : State) (hr : s.isRefreshing = false)
    (he : ∀ g ∈ f :: rest, eligible s.apiBase g.2 = true) :
    run s (faultEvents (f :: rest)) =
      { s with
        isRefreshing := true
        waiters := s.waiters ++ (f :: rest).map (fun g => mkWaiter g.1 g.2)
        refreshCalls := s.refreshCalls ++
          [if truthy (getRefresh s.stores) then .awaitingPost else .returned none]
        log := s.log ++ .refreshAccess ::
          (if truthy (getRefresh s.stores) then
            [.post (s.apiBase.getD "undefined" ++ "/auth/refresh")
              ((getRefresh s.stores).getD "")]
          else []) } := by
  have hf := he f (List.mem_cons_self _ _)
  have hrest : ∀ g ∈ rest, eligible s.apiBase g.2 = true :=
    fun g hg => he g (List.mem_cons_of_mem _ hg)
  change run (step s (.fault f.1 f.2)) (faultEvents rest) = _
  have hstep : step s (.fault f.1 f.2)
      = refreshAccessStart
        { s with waiters := s.waiters ++ [mkWaiter f.1 f.2], isRefreshing := true } :=
    onRejected_idle s f.1 f.2 hf hr
  rw [hstep, refreshAccessStart_eq,
    run_faults_refreshing rest
      { s with
        isRefreshing := true
        waiters := s.waiters ++ [mkWaiter f.1 f.2]
        refreshCalls := s.refreshCalls ++
          [if truthy (getRefresh s.stores) then .awaitingPost else .returned none]
        log := s.log ++ .refreshAccess ::
          (if truthy (getRefresh s.stores) then
            [.post (s.apiBase.getD "undefined" ++ "/auth/refresh")
              ((getRefresh s.stores).getD "")]
          else []) } rfl hrest]
  simp [List.append_assoc]

/-! ## Flushing the queue -/

theorem retry_fail (w : Waiter) (na : Option String) (s : State)
    (hna : truthy na = false) :
    retry w na s =
      { s with
        stores := clearTokens s.stores
        log := s.log ++ teardownEffects s.pathname w } := by
  by_cases hp : startsWith s.pathname "/login" = true
  · simp [retry, hna, hp, State.emit, teardownEffects]
  · simp [retry, hna, hp, State.emit, teardownEffects]

theorem retry_ok (w : Waiter) (t : String) (s : State)
    (ht : truthy (some t) = true) :
    retry w (some t) s =
      { s with
        log := s.log ++ [.axios w.handle (replayConfig s.apiBase t w.original)]
        replays := s.replays ++ [(w.handle, replayConfig s.apiBase t w.original)] } := by
  simp [retry, ht, State.emit, replayConfig]

theorem foldl_retry_fail (na : Option String) (hna : truthy na = false)
    (ws : List Waiter) (s : State) :
    ws.foldl (fun s cb => retry cb na s) s =
      { s with
        stores := clearTokens^[ws.length] s.stores
        log := s.log ++ teardownLog s.pathname ws } := by
  induction ws generalizing s with
  | nil => simp [teardownLog]
  | cons w ws ih =>
      rw [List.foldl_cons, retry_fail w na s hna, ih]
      simp [teardownLog, List.append_assoc]

theorem foldl_retry_ok (t : String) (ht : truthy (some t) = true)
    (ws : List Waiter) (s : State) :
    ws.foldl (fun s cb => retry cb (some t) s) s =
      { s with
        log := s.log ++ ws.map (fun w => .axios w.handle (replayConfig s.apiBase t w.original))
        replays := s.replays ++
          ws.map (fun w => (w.handle, replayConfig s.apiBase t w.original)) } := by
  induction ws generalizing s with
  | nil => simp
  | cons w ws ih =>
      rw [List.foldl_cons, retry_ok w t s ht, ih]
      simp [List.append_assoc]

/-- A failed refresh: the whole queue is torn down. -/
theorem flushWaiters_fail (na : Option String) (hna : truthy na = false) (s : State) :
    flushWaiters na s =
      { s with
        waiters := []
        stores := clearTokens^[s.waiters.length] s.stores
        log := s.log ++ teardownLog s.pathname s.waiters } := by
  unfold flushWaiters
  simp only []
  rw [foldl_retry_fail na hna]

/-- A refresh that yielded `t`: the whole queue is replayed. -/
theorem flushWaiters_ok (t : String) (ht : truthy (some t) = true) (s : State) :
    flushWaiters (some t) s =
      { s with
        waiters := []
        log := s.log ++
          s.waiters.map (fun w => .axios w.handle (replayConfig s.apiBase t w.original))
        replays := s.replays ++
          s.waiters.map (fun w => (w.handle, replayConfig s.apiBase t w.original)) } := by
  unfold flushWaiters
  simp only []
  rw [foldl_retry_ok t ht]

/-- The value `refreshAccess` returns is never a falsy string. -/
theorem usableToken_truthy (r : PostOutcome) (t : String)
    (h : usableToken r = some t) : truthy (some t) = true := by
  cases r with
  | threw => simp [usableToken] at h
  | ok data =>
      simp only [usableToken] at h
      split at h
      · next hh => rw [h] at hh; exact hh
      · cases h

theorem truthy_of_refreshResult (stores : Stores) (r : PostOutcome) (t : String)
    (h : refreshResult stores r = some t) :
    truthy (getRefresh stores) = true ∧ usableToken r = some t := by
  unfold refreshResult at h
  by_cases hrt : truthy (getRefresh stores) = true
  · simp [hrt] at h
    exact ⟨hrt, h⟩
  · simp [hrt] at h

/-! ## Refresh episodes -/

/-- An episode up to the moment `refreshAccess` has returned. -/
theorem episode_until_returned (s : State) (f : Nat × AxiosError)
    (rest : List (Nat × AxiosError)) (r : PostOutcome) (hidle : Idle s)
    (he : ∀ g ∈ f :: rest, eligible s.apiBase g.2 = true) :
    run s (faultEvents (f :: rest) ++ [.refreshSettled 0 r]) =
      { s with
        isRefreshing := true
        waiters := (f :: rest).map (fun g => mkWaiter g.1 g.2)
        refreshCalls := [.returned (refreshResult s.stores r)]
        stores :=
          match refreshResult s.stores r with
          | some t => setTokens s.stores (.str t) .undefined
          | none => s.stores
        log := s.log ++ .refreshAccess ::
          ((if truthy (getRefresh s.stores) then
            [.post (s.apiBase.getD "undefined" ++ "/auth/refresh")
              ((getRefresh s.stores).getD "")]
          else []) ++
          (match refreshResult s.stores r with
          | some _ => [.dispatchEvent "auth:refreshed"]
          | none => [])) } := by
  obtain ⟨hi, hw, hc⟩ := hidle
  rw [run_append, run_faults_idle f rest s hi he]
  by_cases ht : truthy (getRefresh s.stores) = true
  · cases hu : usableToken r with
    | none =>
        simp [run, step, hw, hc, ht, refreshAccessFinish, hu, refreshResult]
    | some t =>
        simp [run, step, hw, hc, ht, refreshAccessFinish, hu, refreshResult, State.emit]
  · simp [run, step, hw, hc, ht, refreshResult]

/-- An episode from the moment `refreshAccess` has returned `na`. -/
theorem episode_from_returned (s : State) (fs : List (Nat × AxiosError))
    (na : Option String) (hr : s.isRefreshing = true)
    (hc : s.refreshCalls = [.returned na])
    (he : ∀ g ∈ fs, eligible s.apiBase g.2 = true) :
    run s (faultEvents fs ++ [.refreshResumed 0]) =
      flushWaiters na
        { s with
          isRefreshing := false
          waiters := s.waiters ++ fs.map (fun g => mkWaiter g.1 g.2)
          refreshCalls := [] } := by
  rw [run_append, run_faults_refreshing fs s hr he]
  simp [run, step, hc]

/-- The complete effect of an episode whose refresh fails. -/
theorem episode_fail (s : State) (fs₁ fs₂ : List (Nat × AxiosError))
    (r : PostOutcome) (hidle : Idle s) (hne : fs₁ ≠ [])
    (he : ∀ g ∈ fs₁ ++ fs₂, eligible s.apiBase g.2 = true)
    (hfail : refreshResult s.stores r = none) :
    run s (episode fs₁ r fs₂) =
      { s with
        stores := clearTokens^[(fs₁ ++ fs₂).length] s.stores
        log := s.log ++ .refreshAccess ::
          ((if truthy (getRefresh s.stores) then
            [.post (s.apiBase.getD "undefined" ++ "/auth/refresh")
              ((getRefresh s.stores).getD "")]
          else []) ++
          teardownLog s.pathname ((fs₁ ++ fs₂).map (fun g => mkWaiter g.1 g.2))) } := by
  cases fs₁ with
  | nil => exact absurd rfl hne
  | cons f rest =>
      have he₁ : ∀ g ∈ f :: rest, eligible s.apiBase g.2 = true :=
        fun g hg => he g (List.mem_append_left _ hg)
      have he₂ : ∀ g ∈ fs₂, eligible s.apiBase g.2 = true :=
        fun g hg => he g (List.mem_append_right _ hg)
      unfold episode
      rw [List.append_assoc, run_append, episode_until_returned s f rest r hidle he₁,
        hfail]
      rw [episode_from_returned _ fs₂ none, flushWaiters_fail none rfl]
      · obtain ⟨hi, hw, hc⟩ := hidle
        simp [hi, hw, hc, List.append_assoc]
      · rfl
      · rfl
      · exact he₂

/-- The complete effect of an episode whose refresh yields the token `t`. -/
theorem episode_ok (s : State) (fs₁ fs₂ : List (Nat × AxiosError))
    (r : PostOutcome) (t : String) (hidle : Idle s) (hne : fs₁ ≠ [])
    (he : ∀ g ∈ fs₁ ++ fs₂, eligible s.apiBase g.2 = true)
    (hok : refreshResult s.stores r = some t) :
    run s (episode fs₁ r fs₂) =
      { s with
        stores := setTokens s.stores (.str t) .undefined
        log := s.log ++
          [.refreshAccess,
            .post (s.apiBase.getD "undefined" ++ "/auth/refresh")
              ((getRefresh s.stores).getD ""),
            .dispatchEvent "auth:refreshed"] ++
          (fs₁ ++ fs₂).map
            (fun g => .axios g.1 (replayConfig s.apiBase t (mkWaiter g.1 g.2).original))
        replays := s.replays ++
          (fs₁ ++ fs₂).map
            (fun g => (g.1, replayConfig s.apiBase t (mkWaiter g.1 g.2).original)) } := by
  cases fs₁ with
  | nil => exact absurd rfl hne
  | cons f rest =>
      have he₁ : ∀ g ∈ f :: rest, eligible s.apiBase g.2 = true :=
        fun g hg => he g (List.mem_append_left _ hg)
      have he₂ : ∀ g ∈ fs₂, eligible s.apiBase g.2 = true :=
        fun g hg => he g (List.mem_append_right _ hg)
      obtain ⟨hrt, hu⟩ := truthy_of_refreshResult s.stores r t hok
      have htt := usableToken_truthy r t hu
      unfold episode
      rw [List.append_assoc, run_append, episode_until_returned s f rest r hidle he₁,
        hok]
      rw [episode_from_returned _ fs₂ (some t), flushWaiters_ok t htt]
      · obtain ⟨hi, hw, hc⟩ := hidle
        simp [hi, hw, hc, hrt, List.append_assoc, mkWaiter, Function.comp_def]
      · rfl
      · rfl
      · exact he₂

/-! ## Counting effects -/

theorem postCount_append (l₁ l₂ : List Effect) :
    postCount (l₁ ++ l₂) = postCount l₁ + postCount l₂ := by
  simp [postCount, List.countP_append]

theorem refreshAccessCount_append (l₁ l₂ : List Effect) :
    refreshAccessCount (l₁ ++ l₂) = refreshAccessCount l₁ + refreshAccessCount l₂ := by
  simp [refreshAccessCount, List.count_append]

theorem logoutCount_append (l₁ l₂ : List Effect) :
    logoutCount (l₁ ++ l₂) = logoutCount l₁ + logoutCount l₂ := by
  simp [logoutCount, List.count_append]

theorem logoutCount_teardownEffects (pathname : String) (w : Waiter) :
    logoutCount (teardownEffects pathname w) = 1 := by
  by_cases hp : startsWith pathname "/login" = true
  · simp [logoutCount, teardownEffects, hp, List.count_cons]
  · simp [logoutCount, teardownEffects, hp, List.count_cons]

theorem logoutCount_teardownLog (pathname : String) (ws : List Waiter) :
    logoutCount (teardownLog pathname ws) = ws.length := by
  induction ws with
  | nil => simp [teardownLog, logoutCount]
  | cons w ws ih =>
      simp only [teardownLog, logoutCount_append, logoutCount_teardownEffects, ih,
        List.length_cons]
      omega

theorem rejections_append (l₁ l₂ : List Effect) :
    rejections (l₁ ++ l₂) = rejections l₁ ++ rejections l₂ := by
  simp [rejections, List.filterMap_append]

theorem rejections_teardownLog (pathname : String) (ws : List Waiter) :
    rejections (teardownLog pathname ws) = ws.map (fun w => (w.handle, w.error)) := by
  induction ws with
  | nil => simp [teardownLog, rejections]
  | cons w ws ih =>
      rw [teardownLog, rejections_append, ih]
      by_cases hp : startsWith pathname "/login" = true
      · simp [rejections, teardownEffects, hp]
      · simp [rejections, teardownEffects, hp]

theorem replayed_append (l₁ l₂ : List Effect) :
    replayed (l₁ ++ l₂) = replayed l₁ ++ replayed l₂ := by
  simp [replayed, List.filterMap_append]

theorem replayed_map_axios (gs : List (Nat × AxiosError)) (c : Nat × AxiosError → Config) :
    replayed (gs.map (fun g => .axios g.1 (c g))) = gs.map (fun g => (g.1, c g)) := by
  induction gs with
  | nil => simp [replayed]
  | cons g gs ih =>
      simp only [replayed, List.map_cons, List.filterMap_cons] at ih ⊢
      rw [ih]

/-! ## Single flight -/

/-- Claim C1, as stated, fails: two eligible faults reaching an idle client
that holds no refresh token call `refreshAccess` once, and that call issues no
`POST /auth/refresh` at all. -/
theorem single_flight_post_counterexample :
    (sampleState []).isRefreshing = false ∧ (sampleState []).waiters = [] ∧
      (∀ f ∈ [(1, sampleError "A" "/auth/me"), (2, sampleError "B" "/profiles")],
        eligible (sampleState []).apiBase f.2 = true) ∧
      refreshAccessCount (run (sampleState [])
        (faultEvents [(1, sampleError "A" "/auth/me"), (2, sampleError "B" "/profiles")])).log
        = 1 ∧
      postCount (run (sampleState [])
        (faultEvents [(1, sampleError "A" "/auth/me"), (2, sampleError "B" "/profiles")])).log
        = 0 ∧
      ¬ ∀ (s : State) (fs : List (Nat × AxiosError)),
        s.isRefreshing = false → s.waiters = [] → 2 ≤ fs.length →
        (∀ f ∈ fs, eligible s.apiBase f.2 = true) →
        postCount (run s (faultEvents fs)).log = postCount s.log + 1 := by
  refine ⟨rfl, rfl, by decide, by decide, by decide, ?_⟩
  intro h
  have h2 := h (sampleState []) [(1, sampleError "A" "/auth/me"), (2, sampleError "B" "/profiles")]
    rfl rfl (by decide) (by decide)
  revert h2
  decide

/-- Claim C1, amended: `N ≥ 2` eligible faults reaching the response
interceptor while `isRefreshing` is false, before the refresh resolves, call
`refreshAccess` exactly once whatever `N` is; that call issues exactly one
`POST /auth/refresh` when a non-empty refresh token is stored, and none
otherwise. -/
theorem single_flight (s : State) (fs : List (Nat × AxiosError))
    (hi : s.isRefreshing = false) (hn : 2 ≤ fs.length)
    (he : ∀ f ∈ fs, eligible s.apiBase f.2 = true) :
    refreshAccessCount (run s (faultEvents fs)).log = refreshAccessCount s.log + 1 ∧
      postCount (run s (faultEvents fs)).log
        = postCount s.log + (if truthy (getRefresh s.stores) then 1 else 0) ∧
      (run s (faultEvents fs)).isRefreshing = true := by
  cases fs with
  | nil => simp at hn
  | cons f rest =>
      rw [run_faults_idle f rest s hi he]
      by_cases ht : truthy (getRefresh s.stores) = true
      · simp [ht, refreshAccessCount, postCount, List.count_append, List.countP_append,
          List.count_cons, List.countP_cons]
      · simp [ht, refreshAccessCount, postCount, List.count_append, List.countP_append,
          List.count_cons]

/-- Claim C1, amended, on three faults reaching a client that holds a refresh
token. -/
theorem single_flight_witness :
    refreshAccessCount (run (sampleState [("nc_refresh", "r0")])
        (faultEvents [(1, sampleError "A" "/auth/me"), (2, sampleError "B" "/profiles"),
          (3, sampleError "C" "/movies")])).log
      = refreshAccessCount (sampleState [("nc_refresh", "r0")]).log + 1 ∧
    postCount (run (sampleState [("nc_refresh", "r0")])
        (faultEvents [(1, sampleError "A" "/auth/me"), (2, sampleError "B" "/profiles"),
          (3, sampleError "C" "/movies")])).log
      = postCount (sampleState [("nc_refresh", "r0")]).log
        + (if truthy (getRefresh (sampleState [("nc_refresh", "r0")]).stores) then 1 else 0) ∧
    (run (sampleState [("nc_refresh", "r0")])
        (faultEvents [(1, sampleError "A" "/auth/me"), (2, sampleError "B" "/profiles"),
          (3, sampleError "C" "/movies")])).isRefreshing = true :=
  single_flight (sampleState [("nc_refresh", "r0")])
    [(1, sampleError "A" "/auth/me"), (2, sampleError "B" "/profiles"),
      (3, sampleError "C" "/movies")] rfl (by decide) (by decide)

/-! ## Failure teardown -/

/-- Claim C2, as stated, fails: an episode with two queued requests whose
refresh call throws dispatches `auth:logout` twice. -/
theorem logout_once_counterexample :
    Idle (sampleState [("nc_refresh", "r0")]) ∧
      (∀ g ∈ [(1, sampleError "A" "/auth/me"), (2, sampleError "B" "/profiles")],
        eligible (sampleState [("nc_refresh", "r0")]).apiBase g.2 = true) ∧
      refreshResult (sampleState [("nc_refresh", "r0")]).stores .threw = none ∧
      logoutCount (run (sampleState [("nc_refresh", "r0")])
        (episode [(1, sampleError "A" "/auth/me"), (2, sampleError "B" "/profiles")]
          .threw [])).log = 2 ∧
      ¬ ∀ (s : State) (fs₁ fs₂ : List (Nat × AxiosError)) (r : PostOutcome),
        Idle s → fs₁ ≠ [] → (∀ g ∈ fs₁ ++ fs₂, eligible s.apiBase g.2 = true) →
        refreshResult s.stores r = none →
        logoutCount (run s (episode fs₁ r fs₂)).log = logoutCount s.log + 1 := by
  refine ⟨⟨rfl, rfl, rfl⟩, by decide, by decide, by decide, ?_⟩
  intro h
  have h2 := h (sampleState [("nc_refresh", "r0")])
    [(1, sampleError "A" "/auth/me"), (2, sampleError "B" "/profiles")] [] .threw
    ⟨rfl, rfl, rfl⟩ (by decide) (by decide) (by decide)
  revert h2
  decide

/-- Claim C2, amended: in a refresh episode that fails with `N ≥ 1` queued
requests, `auth:logout` is dispatched once by each queued request, `N` times
in all, hence exactly once only when `N = 1`. -/
theorem logout_per_waiter (s : State) (fs₁ fs₂ : List (Nat × AxiosError))
    (r : PostOutcome) (hidle : Idle s) (hne : fs₁ ≠ [])
    (he : ∀ g ∈ fs₁ ++ fs₂, eligible s.apiBase g.2 = true)
    (hfail : refreshResult s.stores r = none) :
    logoutCount (run s (episode fs₁ r fs₂)).log
      = logoutCount s.log + (fs₁ ++ fs₂).length := by
  rw [episode_fail s fs₁ fs₂ r hidle hne he hfail]
  simp only [logoutCount_append]
  have hmid : ∀ l : List Effect, logoutCount (Effect.refreshAccess :: l) = logoutCount l := by
    intro l
    simp [logoutCount, List.count_cons]
  rw [hmid, logoutCount_append, logoutCount_teardownLog]
  by_cases ht : truthy (getRefresh s.stores) = true
  · simp [ht, logoutCount, List.count_cons]
  · simp [ht, logoutCount]

/-- Claim C2, amended, on an episode with three queued requests whose refresh
call throws. -/
theorem logout_per_waiter_witness :
    logoutCount (run (sampleState [("nc_refresh", "r0")])
        (episode [(1, sampleError "A" "/auth/me"), (2, sampleError "B" "/profiles")] .threw
          [(3, sampleError "C" "/movies")])).log
      = logoutCount (sampleState [("nc_refresh", "r0")]).log
        + ([(1, sampleError "A" "/auth/me"), (2, sampleError "B" "/profiles")]
            ++ [(3, sampleError "C" "/movies")]).length :=
  logout_per_waiter (sampleState [("nc_refresh", "r0")])
    [(1, sampleError "A" "/auth/me"), (2, sampleError "B" "/profiles")]
    [(3, sampleError "C" "/movies")] .threw ⟨rfl, rfl, rfl⟩ (by decide) (by decide)
    (by decide)

/-- Claim C3: when the refresh yields no usable token, the rejections of the
episode are, in queue order, one per queued request, each on that request's
own promise and with that request's own error (the object the handler
received, whose config carries the `_retry` mark set on entry); afterwards
`nc_access` and `nc_refresh` are missing from `localStorage` and every
legacy key is missing from both storage areas. -/
theorem teardown_rejects_with_own_error (s : State)
    (fs₁ fs₂ : List (Nat × AxiosError)) (r : PostOutcome) (hidle : Idle s)
    (hne : fs₁ ≠ []) (he : ∀ g ∈ fs₁ ++ fs₂, eligible s.apiBase g.2 = true)
    (hfail : refreshResult s.stores r = none) :
    rejections (run s (episode fs₁ r fs₂)).log
        = rejections s.log ++ (fs₁ ++ fs₂).map (fun g => (g.1, markRetry g.2)) ∧
      (∀ g ∈ fs₁ ++ fs₂, (markRetry g.2).message = g.2.message ∧
        (markRetry g.2).response = g.2.response ∧
        (markRetry g.2).config = g.2.config.map (fun c => { c with _retry := true })) ∧
      getItem (run s (episode fs₁ r fs₂)).stores.localStorage ACCESS_KEY = none ∧
      getItem (run s (episode fs₁ r fs₂)).stores.localStorage REFRESH_KEY = none ∧
      (∀ k ∈ LEGACY_KEYS,
        getItem (run s (episode fs₁ r fs₂)).stores.localStorage k = none ∧
        getItem (run s (episode fs₁ r fs₂)).stores.sessionStorage k = none) := by
  rw [episode_fail s fs₁ fs₂ r hidle hne he hfail]
  refine ⟨?_, fun g _ => ⟨rfl, rfl, rfl⟩, ?_⟩
  · have hmid : rejections (Effect.refreshAccess ::
        ((if truthy (getRefresh s.stores) then
            [Effect.post (s.apiBase.getD "undefined" ++ "/auth/refresh")
              ((getRefresh s.stores).getD "")]
          else []) ++
          teardownLog s.pathname ((fs₁ ++ fs₂).map (fun g => mkWaiter g.1 g.2))))
        = (fs₁ ++ fs₂).map (fun g => (g.1, markRetry g.2)) := by
      have hcons : ∀ l : List Effect,
          rejections (Effect.refreshAccess :: l) = rejections l := by
        intro l
        simp [rejections]
      rw [hcons, rejections_append, rejections_teardownLog]
      by_cases ht : truthy (getRefresh s.stores) = true
      · simp [ht, rejections, mkWaiter, Function.comp_def]
      · simp [ht, rejections, mkWaiter, Function.comp_def]
    simp only [rejections_append]
    rw [hmid]
  · have hlen : (fs₁ ++ fs₂).length = ((fs₁ ++ fs₂).length - 1) + 1 := by
      cases fs₁ with
      | nil => exact absurd rfl hne
      | cons f rest => simp
    simp only []
    rw [hlen, Function.iterate_succ_apply']
    exact clearTokens_cleared _

/-- Claim C3, on an episode with three queued requests whose refresh call
throws. -/
theorem teardown_rejects_with_own_error_witness :
    rejections (run (sampleState [("nc_access", "a0"), ("nc_refresh", "r0")])
        (episode [(1, sampleError "A" "/auth/me"), (2, sampleError "B" "/profiles")] .threw
          [(3, sampleError "C" "/movies")])).log
      = rejections (sampleState [("nc_access", "a0"), ("nc_refresh", "r0")]).log ++
        ([(1, sampleError "A" "/auth/me"), (2, sampleError "B" "/profiles")]
          ++ [(3, sampleError "C" "/movies")]).map
            (fun g : Nat × AxiosError => (g.1, markRetry g.2)) ∧
    getItem (run (sampleState [("nc_access", "a0"), ("nc_refresh", "r0")])
        (episode [(1, sampleError "A" "/auth/me"), (2, sampleError "B" "/profiles")] .threw
          [(3, sampleError "C" "/movies")])).stores.localStorage REFRESH_KEY = none :=
  ⟨(teardown_rejects_with_own_error (sampleState [("nc_access", "a0"), ("nc_refresh", "r0")])
      [(1, sampleError "A" "/auth/me"), (2, sampleError "B" "/profiles")]
      [(3, sampleError "C" "/movies")] .threw ⟨rfl, rfl, rfl⟩ (by decide) (by decide)
      (by decide)).1,
    (teardown_rejects_with_own_error (sampleState [("nc_access", "a0"), ("nc_refresh", "r0")])
      [(1, sampleError "A" "/auth/me"), (2, sampleError "B" "/profiles")]
      [(3, sampleError "C" "/movies")] .threw ⟨rfl, rfl, rfl⟩ (by decide) (by decide)
      (by decide)).2.2.2.1⟩

/-! ## Replay -/

/-- The replays an episode with a successful refresh adds to the log. -/
theorem episode_ok_replayed (s : State) (fs₁ fs₂ : List (Nat × AxiosError))
    (r : PostOutcome) (t : String) (hidle : Idle s) (hne : fs₁ ≠ [])
    (he : ∀ g ∈ fs₁ ++ fs₂, eligible s.apiBase g.2 = true)
    (hok : refreshResult s.stores r = some t) :
    replayed (run s (episode fs₁ r fs₂)).log
      = replayed s.log ++ (fs₁ ++ fs₂).map
          (fun g => (g.1, replayConfig s.apiBase t (mkWaiter g.1 g.2).original)) := by
  rw [episode_ok s fs₁ fs₂ r t hidle hne he hok]
  simp only [replayed_append]
  rw [replayed_map_axios (fs₁ ++ fs₂)
    (fun g => replayConfig s.apiBase t (mkWaiter g.1 g.2).original)]
  simp [replayed]

/-- Claim C4: in an episode whose refresh succeeds, the replays are
dispatched in exactly the order in which the faults were queued, the request
that started the episode first. -/
theorem replay_in_enqueue_order (s : State) (f : Nat × AxiosError)
    (rest fs₂ : List (Nat × AxiosError)) (r : PostOutcome) (t : String)
    (hidle : Idle s) (he : ∀ g ∈ (f :: rest) ++ fs₂, eligible s.apiBase g.2 = true)
    (hok : refreshResult s.stores r = some t) :
    (replayed (run s (episode (f :: rest) r fs₂)).log).map Prod.fst
        = (replayed s.log).map Prod.fst ++ f.1 :: (rest ++ fs₂).map Prod.fst ∧
      ((run s (episode (f :: rest) r fs₂)).replays).map Prod.fst
        = s.replays.map Prod.fst ++ f.1 :: (rest ++ fs₂).map Prod.fst := by
  constructor
  · rw [episode_ok_replayed s (f :: rest) fs₂ r t hidle (by simp) he hok]
    simp [Function.comp_def]
  · rw [episode_ok s (f :: rest) fs₂ r t hidle (by simp) he hok]
    simp [Function.comp_def]

/-- Claim C4, on an episode with three queued requests. -/
theorem replay_in_enqueue_order_witness :
    (replayed (run (sampleState [("nc_refresh", "r0")])
        (episode [(7, sampleError "A" "/auth/me"), (5, sampleError "B" "/profiles")]
          (.ok (some ⟨some "a1", none⟩)) [(9, sampleError "C" "/movies")])).log).map Prod.fst
      = (replayed (sampleState [("nc_refresh", "r0")]).log).map Prod.fst
        ++ 7 :: ([(5, sampleError "B" "/profiles")]
          ++ [(9, sampleError "C" "/movies")]).map Prod.fst :=
  (replay_in_enqueue_order (sampleState [("nc_refresh", "r0")])
    (7, sampleError "A" "/auth/me") [(5, sampleError "B" "/profiles")]
    [(9, sampleError "C" "/movies")] (.ok (some ⟨some "a1", none⟩)) "a1" ⟨rfl, rfl, rfl⟩
    (by decide) (by decide)).1

/-- What `retry` changes in the config it replays. -/
theorem replayConfig_fields (apiBase : Option String) (t : String) (original : Config) :
    getHeader ((replayConfig apiBase t original).headers.getD []) "Authorization"
        = some ("Bearer " ++ t) ∧
      (∀ k, k ≠ "Authorization" →
        getHeader ((replayConfig apiBase t original).headers.getD []) k
          = getHeader (original.headers.getD []) k) ∧
      (replayConfig apiBase t original).method = original.method ∧
      (replayConfig apiBase t original).url = original.url ∧
      (replayConfig apiBase t original).data = original.data := by
  by_cases hb : truthy original.baseURL = true
  · refine ⟨?_, ?_, ?_, ?_, ?_⟩
    · simp [replayConfig, hb, getHeader, setHeader, bearer, getItem_setItem_same]
    · intro k hk
      simp [replayConfig, hb, getHeader, setHeader, getItem_setItem_ne _ _ _ _ hk]
    · simp [replayConfig, hb]
    · simp [replayConfig, hb]
    · simp [replayConfig, hb]
  · refine ⟨?_, ?_, ?_, ?_, ?_⟩
    · simp [replayConfig, hb, getHeader, setHeader, bearer, getItem_setItem_same]
    · intro k hk
      simp [replayConfig, hb, getHeader, setHeader, getItem_setItem_ne _ _ _ _ hk]
    · simp [replayConfig, hb]
    · simp [replayConfig, hb]
    · simp [replayConfig, hb]

/-- Claim C10: when the refresh resolves with the access token `t`, the
replays of the episode are one per queued request, in order, each on its own
promise, and each replayed config has `Authorization` equal to `"Bearer "`
followed by `t` whatever the original carried, every other header as in the
original request, and the original method, url and body. -/
theorem replay_carries_new_token (s : State) (fs₁ fs₂ : List (Nat × AxiosError))
    (r : PostOutcome) (t : String) (hidle : Idle s) (hne : fs₁ ≠ [])
    (he : ∀ g ∈ fs₁ ++ fs₂, eligible s.apiBase g.2 = true)
    (hok : refreshResult s.stores r = some t) :
    ∃ sent : List (Nat × Config),
      replayed (run s (episode fs₁ r fs₂)).log = replayed s.log ++ sent ∧
      List.Forall₂
        (fun (g : Nat × AxiosError) (rc : Nat × Config) =>
          rc.1 = g.1 ∧
          getHeader (rc.2.headers.getD []) "Authorization" = some ("Bearer " ++ t) ∧
          (∀ k, k ≠ "Authorization" →
            getHeader (rc.2.headers.getD []) k
              = getHeader ((g.2.config.getD emptyConfig).headers.getD []) k) ∧
          rc.2.method = (g.2.config.getD emptyConfig).method ∧
          rc.2.url = (g.2.config.getD emptyConfig).url ∧
          rc.2.data = (g.2.config.getD emptyConfig).data)
        (fs₁ ++ fs₂) sent := by
  refine ⟨_, episode_ok_replayed s fs₁ fs₂ r t hidle hne he hok, ?_⟩
  rw [List.forall₂_map_right_iff, List.forall₂_same]
  intro g _
  exact ⟨rfl, replayConfig_fields s.apiBase t (mkWaiter g.1 g.2).original⟩

/-- Claim C10, on an episode with two queued requests, the first of which
already carried an `Authorization` header. -/
theorem replay_carries_new_token_witness :
    ∃ sent : List (Nat × Config),
      replayed (run (sampleState [("nc_refresh", "r0")])
        (episode
          [(1, { sampleError "A" "/auth/me" with
                  config := some { sampleConfig "/auth/me" with
                    headers := some [("Authorization", "Bearer old"), ("X-Trace", "1")] } }),
            (2, sampleError "B" "/profiles")]
          (.ok (some ⟨some "a1", some "r1"⟩)) [])).log
        = replayed (sampleState [("nc_refresh", "r0")]).log ++ sent ∧
      List.Forall₂
        (fun (g : Nat × AxiosError) (rc : Nat × Config) =>
          rc.1 = g.1 ∧
          getHeader (rc.2.headers.getD []) "Authorization" = some ("Bearer " ++ "a1") ∧
          (∀ k, k ≠ "Authorization" →
            getHeader (rc.2.headers.getD []) k
              = getHeader ((g.2.config.getD emptyConfig).headers.getD []) k) ∧
          rc.2.method = (g.2.config.getD emptyConfig).method ∧
          rc.2.url = (g.2.config.getD emptyConfig).url ∧
          rc.2.data = (g.2.config.getD emptyConfig).data)
        ([(1, { sampleError "A" "/auth/me" with
                  config := some { sampleConfig "/auth/me" with
                    headers := some [("Authorization", "Bearer old"), ("X-Trace", "1")] } }),
            (2, sampleError "B" "/profiles")] ++ []) sent :=
  replay_carries_new_token (sampleState [("nc_refresh", "r0")])
    [(1, { sampleError "A" "/auth/me" with
            config := some { sampleConfig "/auth/me" with
              headers := some [("Authorization", "Bearer old"), ("X-Trace", "1")] } }),
      (2, sampleError "B" "/profiles")]
    [] (.ok (some ⟨some "a1", some "r1"⟩)) "a1" ⟨rfl, rfl, rfl⟩ (by decide) (by decide)
    (by decide)

/-! ## Faults that bypass the refresh flow -/

/-- Claim C5: an error whose request config is already marked `_retry`,
whatever its status, is rejected as it is: the state is unchanged but for
that rejection in the log, so the queue, `isRefreshing` and the stored tokens
are as before and neither `refreshAccess` nor the refresh endpoint is
called. -/
theorem no_double_retry (s : State) (h : Nat) (e : AxiosError) (c : Config)
    (hc : e.config = some c) (hr : c._retry = true) :
    step s (.fault h e) = { s with log := s.log ++ [.reject h e] } ∧
      (step s (.fault h e)).waiters = s.waiters ∧
      (step s (.fault h e)).isRefreshing = s.isRefreshing ∧
      (step s (.fault h e)).stores = s.stores ∧
      refreshAccessCount (step s (.fault h e)).log = refreshAccessCount s.log ∧
      postCount (step s (.fault h e)).log = postCount s.log := by
  have hne : eligible s.apiBase e = false := by
    simp [eligible, hc, hr]
  have hstep : step s (.fault h e) = { s with log := s.log ++ [.reject h e] } :=
    onRejected_not_eligible s h e hne
  rw [hstep]
  simp [refreshAccessCount, postCount, List.count_append, List.countP_append,
    List.count_cons]

/-- Claim C5, on a replayed request that gets a 401 again while another
refresh is in progress. -/
theorem no_double_retry_witness :
    step (run (sampleState [("nc_refresh", "r0")]) [.fault 1 (sampleError "A" "/auth/me")])
        (.fault 2 { sampleError "B" "/movies" with
          config := some { sampleConfig "/movies" with _retry := true } })
      = { run (sampleState [("nc_refresh", "r0")]) [.fault 1 (sampleError "A" "/auth/me")] with
          log := (run (sampleState [("nc_refresh", "r0")])
              [.fault 1 (sampleError "A" "/auth/me")]).log ++
            [.reject 2 { sampleError "B" "/movies" with
              config := some { sampleConfig "/movies" with _retry := true } }] } :=
  (no_double_retry
    (run (sampleState [("nc_refresh", "r0")]) [.fault 1 (sampleError "A" "/auth/me")]) 2
    { sampleError "B" "/movies" with
      config := some { sampleConfig "/movies" with _retry := true } }
    { sampleConfig "/movies" with _retry := true } rfl rfl).1

theorem isPrefixOf_append_self (l q : List Char) : l.isPrefixOf (l ++ q) = true := by
  induction l with
  | nil => simp [List.isPrefixOf]
  | cons a l ih => simp [List.isPrefixOf, ih]

/-- The unanchored search succeeds as soon as the pattern matches somewhere. -/
theorem authPathSearch_of_match (p cs : List Char) (h : authPathAt cs = true) :
    authPathSearch (p ++ cs) = true := by
  induction p with
  | nil =>
      cases cs with
      | nil => simpa [authPathSearch] using h
      | cons c cs => simp [authPathSearch, h]
  | cons a p ih => simp [authPathSearch, ih]

theorem authPathAt_of_alternative (alt : String)
    (halt : alt ∈ ["login", "register", "refresh"]) (q : List Char) :
    authPathAt (("/auth/" ++ alt).toList ++ q) = true := by
  unfold authPathAt
  rw [List.any_eq_true]
  exact ⟨alt, halt, isPrefixOf_append_self _ _⟩

/-- Claim C6: a failing request whose URL (base URL followed by the request
url) contains `/auth/login`, `/auth/register` or `/auth/refresh` is rejected
as it is, whatever its status: the state is unchanged but for that rejection
in the log, so the request is not marked as retried, nothing is queued and no
refresh is started. -/
theorem auth_endpoint_excluded (s : State) (h : Nat) (e : AxiosError)
    (p q alt : String) (halt : alt ∈ ["login", "register", "refresh"])
    (hurl : requestUrl s.apiBase (e.config.getD emptyConfig)
      = p ++ ("/auth/" ++ alt) ++ q) :
    step s (.fault h e) = { s with log := s.log ++ [.reject h e] } ∧
      (step s (.fault h e)).waiters = s.waiters ∧
      (step s (.fault h e)).isRefreshing = s.isRefreshing ∧
      refreshAccessCount (step s (.fault h e)).log = refreshAccessCount s.log ∧
      postCount (step s (.fault h e)).log = postCount s.log := by
  have hauth : isAuthPath s.apiBase (e.config.getD emptyConfig) = true := by
    unfold isAuthPath
    rw [hurl]
    have hl : (p ++ ("/auth/" ++ alt) ++ q).toList
        = p.toList ++ (("/auth/" ++ alt).toList ++ q.toList) := by
      simp [String.toList, String.data_append, List.append_assoc]
    rw [hl]
    exact authPathSearch_of_match _ _ (authPathAt_of_alternative alt halt _)
  have hne : eligible s.apiBase e = false := by
    simp [eligible, hauth]
  have hstep : step s (.fault h e) = { s with log := s.log ++ [.reject h e] } :=
    onRejected_not_eligible s h e hne
  rw [hstep]
  simp [refreshAccessCount, postCount, List.count_append, List.countP_append,
    List.count_cons]

/-- Claim C6, on a 401 answer to the login request. -/
theorem auth_endpoint_excluded_witness :
    step (sampleState [("nc_refresh", "r0")]) (.fault 1 (sampleError "bad password" "/auth/login"))
      = { sampleState [("nc_refresh", "r0")] with
          log := (sampleState [("nc_refresh", "r0")]).log ++
            [.reject 1 (sampleError "bad password" "/auth/login")] } :=
  (auth_endpoint_excluded (sampleState [("nc_refresh", "r0")]) 1
    (sampleError "bad password" "/auth/login") "http://api.test" "" "login" (by decide)
    (by decide)).1

/-! ## The coordinator invariant -/

theorem retry_frame (w : Waiter) (na : Option String) (s : State) :
    (retry w na s).isRefreshing = s.isRefreshing ∧
      (retry w na s).refreshCalls = s.refreshCalls ∧
      (retry w na s).waiters = s.waiters := by
  by_cases hna : truthy na = true
  · simp [retry, hna, State.emit]
  · have hf : truthy na = false := by simpa using hna
    rw [retry_fail w na s hf]
    simp

theorem foldl_retry_frame (na : Option String) (ws : List Waiter) (s : State) :
    (ws.foldl (fun s cb => retry cb na s) s).isRefreshing = s.isRefreshing ∧
      (ws.foldl (fun s cb => retry cb na s) s).refreshCalls = s.refreshCalls ∧
      (ws.foldl (fun s cb => retry cb na s) s).waiters = s.waiters := by
  induction ws generalizing s with
  | nil => simp
  | cons w ws ih =>
      rw [List.foldl_cons]
      obtain ⟨h1, h2, h3⟩ := ih (retry w na s)
      obtain ⟨g1, g2, g3⟩ := retry_frame w na s
      exact ⟨h1.trans g1, h2.trans g2, h3.trans g3⟩

/-- Flushing empties the queue and touches neither `isRefreshing` nor the
pending refresh calls. -/
theorem flushWaiters_frame (na : Option String) (s : State) :
    (flushWaiters na s).isRefreshing = s.isRefreshing ∧
      (flushWaiters na s).refreshCalls = s.refreshCalls ∧
      (flushWaiters na s).waiters = [] := by
  unfold flushWaiters
  exact foldl_retry_frame na s.waiters { s with waiters := [] }

theorem refreshAccessFinish_frame (s : State) (r : PostOutcome) :
    (refreshAccessFinish s r).1.isRefreshing = s.isRefreshing ∧
      (refreshAccessFinish s r).1.refreshCalls = s.refreshCalls ∧
      (refreshAccessFinish s r).1.waiters = s.waiters := by
  unfold refreshAccessFinish
  cases usableToken r <;> simp [State.emit]

theorem step_coordinated (s : State) (ev : Event) (hs : Coordinated s) :
    Coordinated (step s ev) := by
  obtain ⟨hon, hoff⟩ := hs
  cases ev with
  | fault h e =>
      change Coordinated (onRejected s h e)
      by_cases he : eligible s.apiBase e = true
      · cases hr : s.isRefreshing with
        | true =>
            rw [onRejected_refreshing s h e he hr]
            exact ⟨fun _ => hon hr, fun hf => by simp [hr] at hf⟩
        | false =>
            rw [onRejected_idle s h e he hr, refreshAccessStart_eq]
            obtain ⟨hc, _⟩ := hoff hr
            exact ⟨fun _ => by simp [hc], fun hf => by simp at hf⟩
      · have hf : eligible s.apiBase e = false := by simpa using he
        rw [onRejected_not_eligible s h e hf]
        exact ⟨hon, hoff⟩
  | refreshSettled i r =>
      simp only [step]
      split
      · obtain ⟨h1, h2, h3⟩ := refreshAccessFinish_frame s r
        refine ⟨fun hr => ?_, fun hr => ?_⟩
        · simp only [List.length_set]
          rw [h2]
          exact hon (h1 ▸ hr)
        · obtain ⟨hc, hw⟩ := hoff (h1 ▸ hr)
          simp only []
          rw [h2, h3, hc, hw]
          simp
      · exact ⟨hon, hoff⟩
  | refreshResumed i =>
      simp only [step]
      split
      · next na hget =>
          obtain ⟨h1, h2, h3⟩ := flushWaiters_frame na
            { s with refreshCalls := s.refreshCalls.eraseIdx i, isRefreshing := false }
          have hr : s.isRefreshing = true := by
            cases hr : s.isRefreshing with
            | true => rfl
            | false =>
                obtain ⟨hc, _⟩ := hoff hr
                rw [hc] at hget
                simp at hget
          have hlen := hon hr
          have hi : i = 0 := by
            have hlt : i < s.refreshCalls.length := by
              by_contra hge
              rw [List.get?_eq_none.mpr (Nat.le_of_not_lt hge)] at hget
              cases hget
            omega
          refine ⟨fun hrr => ?_, fun _ => ⟨?_, h3⟩⟩
          · rw [h1] at hrr
            cases hrr
          · rw [h2]
            subst hi
            cases hcs : s.refreshCalls with
            | nil => rfl
            | cons c cs =>
                rw [hcs] at hlen
                have : cs = [] := by
                  cases cs with
                  | nil => rfl
                  | cons d ds => simp at hlen
                simp [this]
      · exact ⟨hon, hoff⟩
  | replaySettled i r =>
      simp only [step]
      split
      · cases r <;> exact ⟨hon, hoff⟩
      · exact ⟨hon, hoff⟩
  | request config => exact ⟨hon, hoff⟩
  | setTokens access refresh => exact ⟨hon, hoff⟩
  | clearTokens => exact ⟨hon, hoff⟩
  | navigate pathname => exact ⟨hon, hoff⟩

theorem run_coordinated (evs : List Event) (s : State) (hs : Coordinated s) :
    Coordinated (run s evs) := by
  induction evs generalizing s with
  | nil => exact hs
  | cons ev evs ih => exact ih _ (step_coordinated s ev hs)

theorem reachable_coordinated (s : State) (hs : Reachable s) : Coordinated s := by
  obtain ⟨apiBase, stores, pathname, evs, rfl⟩ := hs
  apply run_coordinated
  exact ⟨fun h => by simp [init] at h, fun _ => ⟨rfl, rfl⟩⟩

/-- Claim C9: in every reachable state at most one refresh network call is
outstanding, and an eligible 401 fault arriving while `isRefreshing` is true
is appended to the queue with its request marked as retried, leaves
`isRefreshing` true and the pending refresh call as it is, and calls neither
`refreshAccess` nor the refresh endpoint. -/
theorem at_most_one_refresh_outstanding (s : State) (hs : Reachable s) :
    outstandingPosts s ≤ 1 ∧
      ∀ (h : Nat) (e : AxiosError), s.isRefreshing = true →
        eligible s.apiBase e = true →
        (step s (.fault h e)).waiters
            = s.waiters ++
              [⟨h, markRetry e, { e.config.getD emptyConfig with _retry := true }⟩] ∧
          (step s (.fault h e)).isRefreshing = true ∧
          (step s (.fault h e)).refreshCalls = s.refreshCalls ∧
          (step s (.fault h e)).log = s.log ∧
          outstandingPosts (step s (.fault h e)) = outstandingPosts s := by
  constructor
  · obtain ⟨hon, hoff⟩ := reachable_coordinated s hs
    have hle : outstandingPosts s ≤ s.refreshCalls.length := List.count_le_length _ _
    cases hr : s.isRefreshing with
    | true =>
        have := hon hr
        omega
    | false =>
        obtain ⟨hc, _⟩ := hoff hr
        rw [hc, List.length_nil] at hle
        omega
  · intro h e hr he
    have hstep : step s (.fault h e)
        = { s with waiters := s.waiters ++ [mkWaiter h e] } :=
      onRejected_refreshing s h e he hr
    rw [hstep]
    simp [mkWaiter, hr, outstandingPosts]

/-- Claim C9, on a second fault arriving while the refresh call of the first
is outstanding. -/
theorem at_most_one_refresh_outstanding_witness :
    outstandingPosts
        (run (sampleState [("nc_refresh", "r0")]) [.fault 1 (sampleError "A" "/auth/me")]) ≤ 1 ∧
      (step (run (sampleState [("nc_refresh", "r0")]) [.fault 1 (sampleError "A" "/auth/me")])
          (.fault 2 (sampleError "B" "/profiles"))).log
        = (run (sampleState [("nc_refresh", "r0")])
            [.fault 1 (sampleError "A" "/auth/me")]).log :=
  ⟨(at_most_one_refresh_outstanding
      (run (sampleState [("nc_refresh", "r0")]) [.fault 1 (sampleError "A" "/auth/me")])
      ⟨_, _, _, _, rfl⟩).1,
    ((at_most_one_refresh_outstanding
      (run (sampleState [("nc_refresh", "r0")]) [.fault 1 (sampleError "A" "/auth/me")])
      ⟨_, _, _, _, rfl⟩).2 2 (sampleError "B" "/profiles") (by decide) (by decide)).2.2.2.1⟩

/-! ## Request signer -/

theorem readLegacyAccessFrom_truthy (st : Stores) (ks : List String) (t : String)
    (h : readLegacyAccessFrom st ks = some t) : truthy (some t) = true := by
  induction ks with
  | nil => cases h
  | cons k ks ih =>
      simp only [readLegacyAccessFrom] at h
      split at h
      · next hv => rw [h] at hv; exact hv
      · exact ih h

/-- What `getAccess` answers is never a falsy string. -/
theorem getAccess_truthy (st : Stores) (t : String) (h : getAccess st = some t) :
    truthy (some t) = true := by
  unfold getAccess jsOr at h
  split at h
  · next hv => rw [h] at hv; exact hv
  · exact readLegacyAccessFrom_truthy st LEGACY_KEYS t h

/-- Claim C11: when the store yields an access token the request interceptor
returns the config with `Authorization` equal to `"Bearer "` followed by that
token, every other header and every other field as they were; when the store
yields no token the config is returned as it is. -/
theorem request_signer (st : Stores) (config : Config) :
    (∀ t : String, getAccess st = some t →
        getHeader ((requestInterceptor st config).headers.getD []) "Authorization"
          = some ("Bearer " ++ t) ∧
        (∀ k, k ≠ "Authorization" →
          getHeader ((requestInterceptor st config).headers.getD []) k
            = getHeader (config.headers.getD []) k) ∧
        (requestInterceptor st config).baseURL = config.baseURL ∧
        (requestInterceptor st config).url = config.url ∧
        (requestInterceptor st config).method = config.method ∧
        (requestInterceptor st config).data = config.data ∧
        (requestInterceptor st config)._retry = config._retry) ∧
      (getAccess st = none → requestInterceptor st config = config) := by
  constructor
  · intro t ht
    have htr := getAccess_truthy st t ht
    have hreq : requestInterceptor st config =
        { config with
          headers := some (setHeader (config.headers.getD []) "Authorization"
            (bearer t)) } := by
      simp [requestInterceptor, ht, htr]
    rw [hreq]
    refine ⟨?_, ?_, rfl, rfl, rfl, rfl, rfl⟩
    · simp [getHeader, setHeader, bearer, getItem_setItem_same]
    · intro k hk
      simp [getHeader, setHeader, getItem_setItem_ne _ _ _ _ hk]
  · intro hn
    simp [requestInterceptor, hn, truthy]

/-- Claim C11, on a request that carries its own headers, with a token stored
under a legacy key only. -/
theorem request_signer_witness :
    getHeader ((requestInterceptor ⟨[("jwt", "j1")], []⟩
        { sampleConfig "/movies" with headers := some [("Accept", "text/plain")] }).headers.getD [])
        "Authorization" = some ("Bearer " ++ "j1") ∧
      requestInterceptor ⟨[("nc_refresh", "r0")], []⟩ (sampleConfig "/movies")
        = sampleConfig "/movies" :=
  ⟨((request_signer ⟨[("jwt", "j1")], []⟩
      { sampleConfig "/movies" with headers := some [("Accept", "text/plain")] }).1 "j1"
      (by decide)).1,
    (request_signer ⟨[("nc_refresh", "r0")], []⟩ (sampleConfig "/movies")).2 (by decide)⟩

/-! ## The value of `refreshAccess` -/

/-- Claim C12, as stated, fails: a refresh answer whose `accessToken` field is
present but empty makes `refreshAccess` return `null`, not that field. -/
theorem refreshAccess_returns_field_counterexample :
    (⟨some "", none⟩ : RefreshData).accessToken = some "" ∧
      (refreshAccessFinish (sampleState [("nc_refresh", "r0")])
        (.ok (some ⟨some "", none⟩))).2 = none ∧
      ¬ ∀ (s : State) (data : RefreshData) (t : String), data.accessToken = some t →
        (refreshAccessFinish s (.ok (some data))).2 = some t := by
  refine ⟨rfl, by decide, ?_⟩
  intro h
  have h2 := h (sampleState [("nc_refresh", "r0")]) ⟨some "", none⟩ "" rfl
  revert h2
  decide

/-- Claim C12, amended: `refreshAccess` always returns a value: `null` when
the network call throws, when the answer has no body or no `accessToken`
field, or when that field is the empty string; the answer's `accessToken`
when it is a non-empty string. -/
theorem refreshAccess_result (s : State) (r : PostOutcome) :
    (r = .threw → (refreshAccessFinish s r).2 = none) ∧
      (∀ data, r = .ok data → data.bind (fun d => d.accessToken) = none →
        (refreshAccessFinish s r).2 = none) ∧
      (∀ data, r = .ok data → data.bind (fun d => d.accessToken) = some "" →
        (refreshAccessFinish s r).2 = none) ∧
      (∀ data t, r = .ok data → data.bind (fun d => d.accessToken) = some t → t ≠ "" →
        (refreshAccessFinish s r).2 = some t) := by
  refine ⟨?_, ?_, ?_, ?_⟩
  · intro hr
    subst hr
    simp [refreshAccessFinish, usableToken]
  · intro data hr hd
    subst hr
    simp [refreshAccessFinish, usableToken, hd, truthy]
  · intro data hr hd
    subst hr
    simp [refreshAccessFinish, usableToken, hd, truthy]
  · intro data t hr hd ht
    subst hr
    simp [refreshAccessFinish, usableToken, hd, truthy, ht]

/-- Claim C12, amended, on a call that throws, an answer without the field
and an answer with a token. -/
theorem refreshAccess_result_witness :
    (refreshAccessFinish (sampleState [("nc_refresh", "r0")]) .threw).2 = none ∧
      (refreshAccessFinish (sampleState [("nc_refresh", "r0")])
        (.ok (some ⟨none, some "r1"⟩))).2 = none ∧
      (refreshAccessFinish (sampleState [("nc_refresh", "r0")])
        (.ok (some ⟨some "a1", none⟩))).2 = some "a1" :=
  ⟨(refreshAccess_result (sampleState [("nc_refresh", "r0")]) .threw).1 rfl,
    (refreshAccess_result (sampleState [("nc_refresh", "r0")])
      (.ok (some ⟨none, some "r1"⟩))).2.1 _ rfl rfl,
    (refreshAccess_result (sampleState [("nc_refresh", "r0")])
      (.ok (some ⟨some "a1", none⟩))).2.2.2 _ "a1" rfl rfl (by decide)⟩

/-- Storing an access token alone touches no other key. -/
theorem setTokens_access_only (st : Stores) (a : String) :
    getItem (setTokens st (.str a) .undefined).localStorage ACCESS_KEY = some a ∧
      getRefresh (setTokens st (.str a) .undefined) = getRefresh st ∧
      (∀ k, k ≠ ACCESS_KEY →
        getItem (setTokens st (.str a) .undefined).localStorage k
          = getItem st.localStorage k) ∧
      (setTokens st (.str a) .undefined).sessionStorage = st.sessionStorage := by
  refine ⟨?_, ?_, ?_, ?_⟩
  · simp only [setTokens, JSVal.asString]
    exact getItem_setItem_same _ _ _
  · simp only [setTokens, JSVal.asString, getRefresh]
    exact getItem_setItem_ne _ _ _ _ (by decide)
  · intro k hk
    simp only [setTokens, JSVal.asString]
    exact getItem_setItem_ne _ _ _ _ hk
  · simp [setTokens, JSVal.asString]

theorem refreshAccessFinish_some (s : State) (r : PostOutcome) (t : String)
    (h : (refreshAccessFinish s r).2 = some t) :
    usableToken r = some t ∧
      (refreshAccessFinish s r).1.stores = setTokens s.stores (.str t) .undefined := by
  unfold refreshAccessFinish at h ⊢
  cases hu : usableToken r with
  | none => simp [hu] at h
  | some t2 =>
      simp only [hu] at h ⊢
      have : t2 = t := by simpa using h
      subst this
      simp [State.emit]

/-- Claim C13: when `refreshAccess` returns a token, whatever else the answer
carried (a `refreshToken` field included), the stored access token is that
token, `getAccess` answers it, and the refresh token, every other
`localStorage` key and `sessionStorage` are as before the call. -/
theorem refresh_persists_access_only (s : State) (r : PostOutcome) (t : String)
    (h : (refreshAccessFinish s r).2 = some t) :
    (refreshAccessStart s).stores = s.stores ∧
      getItem (refreshAccessFinish s r).1.stores.localStorage ACCESS_KEY = some t ∧
      getAccess (refreshAccessFinish s r).1.stores = some t ∧
      getRefresh (refreshAccessFinish s r).1.stores = getRefresh s.stores ∧
      (∀ k, k ≠ ACCESS_KEY →
        getItem (refreshAccessFinish s r).1.stores.localStorage k
          = getItem s.stores.localStorage k) ∧
      (refreshAccessFinish s r).1.stores.sessionStorage = s.stores.sessionStorage := by
  obtain ⟨hu, hst⟩ := refreshAccessFinish_some s r t h
  have htr := usableToken_truthy r t hu
  obtain ⟨hacc, hfr, hkeys, hsess⟩ := setTokens_access_only s.stores t
  refine ⟨?_, ?_, ?_, ?_, ?_, ?_⟩
  · rw [refreshAccessStart_eq]
  · rw [hst]; exact hacc
  · rw [hst]
    unfold getAccess jsOr
    rw [hacc]
    simp [htr]
  · rw [hst]; exact hfr
  · rw [hst]; exact hkeys
  · rw [hst]; exact hsess

/-- Claim C13, on an answer that carries a new refresh token as well. -/
theorem refresh_persists_access_only_witness :
    getItem (refreshAccessFinish (sampleState [("nc_access", "a0"), ("nc_refresh", "r0")])
        (.ok (some ⟨some "a1", some "r1"⟩))).1.stores.localStorage ACCESS_KEY = some "a1" ∧
      getRefresh (refreshAccessFinish (sampleState [("nc_access", "a0"), ("nc_refresh", "r0")])
        (.ok (some ⟨some "a1", some "r1"⟩))).1.stores
        = getRefresh (sampleState [("nc_access", "a0"), ("nc_refresh", "r0")]).stores :=
  ⟨(refresh_persists_access_only (sampleState [("nc_access", "a0"), ("nc_refresh", "r0")])
      (.ok (some ⟨some "a1", some "r1"⟩)) "a1" (by decide)).2.1,
    (refresh_persists_access_only (sampleState [("nc_access", "a0"), ("nc_refresh", "r0")])
      (.ok (some ⟨some "a1", some "r1"⟩)) "a1" (by decide)).2.2.2.1⟩

/-! ## The refresh token once cleared -/

theorem onRejected_stores (s : State) (h : Nat) (e : AxiosError) :
    (onRejected s h e).stores = s.stores := by
  by_cases he : eligible s.apiBase e = true
  · cases hr : s.isRefreshing with
    | true => rw [onRejected_refreshing s h e he hr]
    | false => rw [onRejected_idle s h e he hr, refreshAccessStart_eq]
  · have hf : eligible s.apiBase e = false := by simpa using he
    rw [onRejected_not_eligible s h e hf]
    rfl

theorem getRefresh_clearTokens (st : Stores) : getRefresh (clearTokens st) = none :=
  (clearTokens_cleared st).2.1

theorem getRefresh_setTokens_of_not_string (st : Stores) (a r : JSVal)
    (hr : r.asString = none) : getRefresh (setTokens st a r) = getRefresh st := by
  cases ha : a.asString with
  | none => simp [setTokens, ha, hr]
  | some x =>
      simp only [setTokens, ha, hr, getRefresh]
      exact getItem_setItem_ne _ _ _ _ (by decide)

theorem retry_keeps_refresh_cleared (w : Waiter) (na : Option String) (s : State)
    (hc : getRefresh s.stores = none) : getRefresh (retry w na s).stores = none := by
  by_cases hna : truthy na = true
  · have : (retry w na s).stores = s.stores := by
      simp [retry, hna, State.emit]
    rw [this]
    exact hc
  · have hf : truthy na = false := by simpa using hna
    rw [retry_fail w na s hf]
    exact getRefresh_clearTokens _

theorem flushWaiters_keeps_refresh_cleared (na : Option String) (s : State)
    (hc : getRefresh s.stores = none) : getRefresh (flushWaiters na s).stores = none := by
  unfold flushWaiters
  have key : ∀ (ws : List Waiter) (t : State), getRefresh t.stores = none →
      getRefresh (ws.foldl (fun s cb => retry cb na s) t).stores = none := by
    intro ws
    induction ws with
    | nil => intro t ht; exact ht
    | cons w ws ih =>
        intro t ht
        exact ih _ (retry_keeps_refresh_cleared w na t ht)
  exact key s.waiters _ hc

theorem step_keeps_refresh_cleared (s : State) (ev : Event)
    (hev : ev.storesRefresh = false) (hc : getRefresh s.stores = none) :
    getRefresh (step s ev).stores = none := by
  cases ev with
  | fault h e =>
      change getRefresh (onRejected s h e).stores = none
      rw [onRejected_stores]
      exact hc
  | refreshSettled i r =>
      simp only [step]
      split
      · cases hu : (refreshAccessFinish s r).2 with
        | none =>
            have : (refreshAccessFinish s r).1.stores = s.stores := by
              unfold refreshAccessFinish at hu ⊢
              cases hv : usableToken r with
              | none => rfl
              | some t => simp [hv] at hu
            simp only []
            rw [this]
            exact hc
        | some t =>
            obtain ⟨_, hst⟩ := refreshAccessFinish_some s r t hu
            simp only []
            rw [hst, (setTokens_access_only s.stores t).2.1]
            exact hc
      · exact hc
  | refreshResumed i =>
      simp only [step]
      split
      · exact flushWaiters_keeps_refresh_cleared _ _ hc
      · exact hc
  | replaySettled i r =>
      simp only [step]
      split
      · cases r <;> exact hc
      · exact hc
  | request config => exact hc
  | setTokens access refresh =>
      have hr : refresh.asString = none := by
        cases refresh <;> simp [Event.storesRefresh] at hev <;> rfl
      change getRefresh (setTokens s.stores access refresh) = none
      rw [getRefresh_setTokens_of_not_string _ _ _ hr]
      exact hc
  | clearTokens => exact getRefresh_clearTokens _
  | navigate pathname => exact hc

/-- Claim C14: once `getRefresh()` answers `null`, it keeps answering `null`
after any sequence of events (faults, refresh calls settling and resuming,
replays settling, requests being signed, `clearTokens`, `setTokens` without a
string refresh argument, navigation); a call of `setTokens` with a string
refresh argument is what makes it answer that string. -/
theorem refresh_token_stays_cleared (s : State) (evs : List Event)
    (hc : getRefresh s.stores = none)
    (hev : ∀ ev ∈ evs, ev.storesRefresh = false) :
    getRefresh (run s evs).stores = none ∧
      ∀ (a : JSVal) (r : String),
        getRefresh (step (run s evs) (.setTokens a (.str r))).stores = some r := by
  constructor
  · induction evs generalizing s with
    | nil => exact hc
    | cons ev evs ih =>
        exact ih (step s ev)
          (step_keeps_refresh_cleared s ev (hev ev (List.mem_cons_self _ _)) hc)
          (fun e he => hev e (List.mem_cons_of_mem _ he))
  · intro a r
    change getRefresh (setTokens (run s evs).stores a (.str r)) = some r
    cases ha : a.asString with
    | none =>
        simp only [setTokens, ha, JSVal.asString, getRefresh]
        exact getItem_setItem_same _ _ _
    | some x =>
        simp only [setTokens, ha, JSVal.asString, getRefresh]
        exact getItem_setItem_same _ _ _

/-- Claim C14, on a client without refresh token that goes through a fault,
a failed episode, a signed request and an access-only `setTokens`. -/
theorem refresh_token_stays_cleared_witness :
    getRefresh (run (sampleState [("nc_access", "a0")])
        [.fault 1 (sampleError "A" "/auth/me"), .fault 2 (sampleError "B" "/profiles"),
          .refreshResumed 0, .request (sampleConfig "/movies"),
          .setTokens (.str "a1") .undefined, .replaySettled 0 (.rejected (sampleError "C" "/x")),
          .refreshSettled 0 (.ok (some ⟨some "a2", some "r2"⟩))]).stores = none :=
  (refresh_token_stays_cleared (sampleState [("nc_access", "a0")])
    [.fault 1 (sampleError "A" "/auth/me"), .fault 2 (sampleError "B" "/profiles"),
      .refreshResumed 0, .request (sampleConfig "/movies"),
      .setTokens (.str "a1") .undefined, .replaySettled 0 (.rejected (sampleError "C" "/x")),
      .refreshSettled 0 (.ok (some ⟨some "a2", some "r2"⟩))]
    (by decide) (by decide)).1

/-! ## Faults other than 401 -/

/-- Claim C17: an error whose response status is not 401, or that has no
response at all, is rejected as it is: the state is unchanged but for that
rejection in the log, so the request is not marked as retried, nothing is
queued, `isRefreshing` and the stored tokens are as before, and neither
`refreshAccess` nor the refresh endpoint is called. -/
theorem non_auth_failure_bypasses (s : State) (h : Nat) (e : AxiosError)
    (hst : e.response.map (fun r => r.status) ≠ some 401) :
    step s (.fault h e) = { s with log := s.log ++ [.reject h e] } ∧
      (step s (.fault h e)).waiters = s.waiters ∧
      (step s (.fault h e)).isRefreshing = s.isRefreshing ∧
      (step s (.fault h e)).stores = s.stores ∧
      refreshAccessCount (step s (.fault h e)).log = refreshAccessCount s.log ∧
      postCount (step s (.fault h e)).log = postCount s.log := by
  have hne : eligible s.apiBase e = false := by
    simp [eligible, hst]
  have hstep : step s (.fault h e) = { s with log := s.log ++ [.reject h e] } :=
    onRejected_not_eligible s h e hne
  rw [hstep]
  simp [refreshAccessCount, postCount, List.count_append, List.countP_append,
    List.count_cons]

/-- Claim C17, on a 500 answer and on a network error without response. -/
theorem non_auth_failure_bypasses_witness :
    step (sampleState [("nc_refresh", "r0")])
        (.fault 1 { sampleError "boom" "/movies" with response := some ⟨500, "oops"⟩ })
      = { sampleState [("nc_refresh", "r0")] with
          log := (sampleState [("nc_refresh", "r0")]).log ++
            [.reject 1 { sampleError "boom" "/movies" with response := some ⟨500, "oops"⟩ }] } ∧
    step (sampleState [("nc_refresh", "r0")])
        (.fault 2 { sampleError "Network Error" "/movies" with response := none })
      = { sampleState [("nc_refresh", "r0")] with
          log := (sampleState [("nc_refresh", "r0")]).log ++
            [.reject 2 { sampleError "Network Error" "/movies" with response := none }] } :=
  ⟨(non_auth_failure_bypasses (sampleState [("nc_refresh", "r0")]) 1
      { sampleError "boom" "/movies" with response := some ⟨500, "oops"⟩ } (by decide)).1,
    (non_auth_failure_bypasses (sampleState [("nc_refresh", "r0")]) 2
      { sampleError "Network Error" "/movies" with response := none } (by decide)).1⟩

/-! ## Replays settling -/

/-- A replay that settles hands its outcome to its own promise and leaves
the in-flight list. -/
theorem step_replaySettled (s : State) (i h : Nat) (c : Config) (o : ReplayOutcome)
    (hget : s.replays.get? i = some (h, c)) :
    step s (.replaySettled i o) =
      { s with replays := s.replays.eraseIdx i, log := s.log ++ [settleEffect h o] } := by
  simp only [step, hget]
  cases o <;> simp [State.emit, settleEffect]

theorem eraseIdx_map_comm {α β : Type} (f : α → β) (l : List α) (i : Nat) :
    (l.map f).eraseIdx i = (l.eraseIdx i).map f := by
  induction l generalizing i with
  | nil => rfl
  | cons a l ih =>
      cases i with
      | zero => rfl
      | succ n => simp [List.eraseIdx, ih]

theorem get?_eraseIdx_other {α : Type} (l : List α) (i j : Nat) (hij : i ≠ j) :
    (l.eraseIdx i).get? (if j < i then j else j - 1) = l.get? j := by
  simp only [List.get?_eq_getElem?, List.getElem?_eraseIdx]
  by_cases hlt : j < i
  · simp [hlt]
  · have hgt : i < j := by omega
    have h1 : ¬ (j - 1 < i) := by omega
    have h2 : j - 1 + 1 = j := by omega
    simp [hlt, h1, h2]

/-- Claim C15: after an episode whose refresh succeeds, every queued request
is in flight as a replay, behind the replays that were in flight already;
when the replay of `Ri` fails with `e`, that only rejects the promise of `Ri`
with `e` and takes `Ri` out of the in-flight list; any other `Rj`, queued
before or after `Ri`, is still in flight and, when it settles, its own
promise gets its own outcome. -/
theorem replay_isolation (s : State) (fs₁ fs₂ : List (Nat × AxiosError))
    (r : PostOutcome) (t : String) (hidle : Idle s) (hne : fs₁ ≠ [])
    (he : ∀ g ∈ fs₁ ++ fs₂, eligible s.apiBase g.2 = true)
    (hok : refreshResult s.stores r = some t)
    (i j : Nat) (gi gj : Nat × AxiosError)
    (hgi : (fs₁ ++ fs₂).get? i = some gi) (hgj : (fs₁ ++ fs₂).get? j = some gj)
    (hij : i ≠ j) (e : AxiosError) (o : ReplayOutcome) :
    (run s (episode fs₁ r fs₂)).replays.map Prod.fst
        = s.replays.map Prod.fst ++ (fs₁ ++ fs₂).map Prod.fst ∧
      (step (run s (episode fs₁ r fs₂))
          (.replaySettled (s.replays.length + i) (.rejected e))).log
        = (run s (episode fs₁ r fs₂)).log ++ [.reject gi.1 e] ∧
      (step (run s (episode fs₁ r fs₂))
          (.replaySettled (s.replays.length + i) (.rejected e))).replays.map Prod.fst
        = s.replays.map Prod.fst ++ ((fs₁ ++ fs₂).eraseIdx i).map Prod.fst ∧
      (step (step (run s (episode fs₁ r fs₂))
            (.replaySettled (s.replays.length + i) (.rejected e)))
          (.replaySettled
            (if s.replays.length + j < s.replays.length + i then s.replays.length + j
              else s.replays.length + j - 1) o)).log
        = (run s (episode fs₁ r fs₂)).log ++ [.reject gi.1 e, settleEffect gj.1 o] := by
  have hF := episode_ok s fs₁ fs₂ r t hidle hne he hok
  have hreps : (run s (episode fs₁ r fs₂)).replays
      = s.replays ++ (fs₁ ++ fs₂).map
          (fun g => (g.1, replayConfig s.apiBase t (mkWaiter g.1 g.2).original)) := by
    rw [hF]
  have hget : ∀ (k : Nat) (g : Nat × AxiosError), (fs₁ ++ fs₂).get? k = some g →
      (run s (episode fs₁ r fs₂)).replays.get? (s.replays.length + k)
        = some (g.1, replayConfig s.apiBase t (mkWaiter g.1 g.2).original) := by
    intro k g hk
    rw [hreps]
    simp only [List.get?_eq_getElem?] at hk ⊢
    rw [List.getElem?_append_right (Nat.le_add_right _ _), Nat.add_sub_cancel_left,
      List.getElem?_map, hk]
    rfl
  have h1 := step_replaySettled (run s (episode fs₁ r fs₂)) (s.replays.length + i) gi.1 _
    (.rejected e) (hget i gi hgi)
  refine ⟨?_, ?_, ?_, ?_⟩
  · rw [hreps]
    simp [Function.comp_def]
  · rw [h1]
    rfl
  · rw [h1]
    simp only []
    rw [hreps, List.eraseIdx_append_of_length_le (Nat.le_add_right _ _),
      Nat.add_sub_cancel_left, eraseIdx_map_comm]
    simp [Function.comp_def]
  · have hj2 : (step (run s (episode fs₁ r fs₂))
          (.replaySettled (s.replays.length + i) (.rejected e))).replays.get?
        (if s.replays.length + j < s.replays.length + i then s.replays.length + j
          else s.replays.length + j - 1)
        = some (gj.1, replayConfig s.apiBase t (mkWaiter gj.1 gj.2).original) := by
      rw [h1]
      simp only []
      rw [get?_eraseIdx_other _ (s.replays.length + i) (s.replays.length + j) (by omega)]
      exact hget j gj hgj
    rw [step_replaySettled _ _ gj.1 _ o hj2, h1]
    simp [settleEffect]

/-- Claim C15, on three replays of which the second fails and the third then
succeeds. -/
theorem replay_isolation_witness :
    (step (step (run (sampleState [("nc_refresh", "r0")])
          (episode [(1, sampleError "A" "/auth/me"), (2, sampleError "B" "/profiles")]
            (.ok (some ⟨some "a1", none⟩)) [(3, sampleError "C" "/movies")]))
          (.replaySettled ((sampleState [("nc_refresh", "r0")]).replays.length + 1)
            (.rejected (sampleError "B2" "/profiles"))))
        (.replaySettled
          (if (sampleState [("nc_refresh", "r0")]).replays.length + 2
              < (sampleState [("nc_refresh", "r0")]).replays.length + 1
            then (sampleState [("nc_refresh", "r0")]).replays.length + 2
            else (sampleState [("nc_refresh", "r0")]).replays.length + 2 - 1)
          (.fulfilled ⟨200, "ok"⟩))).log
      = (run (sampleState [("nc_refresh", "r0")])
          (episode [(1, sampleError "A" "/auth/me"), (2, sampleError "B" "/profiles")]
            (.ok (some ⟨some "a1", none⟩)) [(3, sampleError "C" "/movies")])).log ++
        [.reject (2, sampleError "B" "/profiles").1 (sampleError "B2" "/profiles"),
          settleEffect (3, sampleError "C" "/movies").1 (.fulfilled ⟨200, "ok"⟩)] :=
  (replay_isolation (sampleState [("nc_refresh", "r0")])
    [(1, sampleError "A" "/auth/me"), (2, sampleError "B" "/profiles")]
    [(3, sampleError "C" "/movies")] (.ok (some ⟨some "a1", none⟩)) "a1" ⟨rfl, rfl, rfl⟩
    (by decide) (by decide) (by decide) 1 2 (2, sampleError "B" "/profiles")
    (3, sampleError "C" "/movies") (by decide) (by decide) (by decide)
    (sampleError "B2" "/profiles") (.fulfilled ⟨200, "ok"⟩)).2.2.2

/-- Claim C16: in an episode whose refresh succeeds every queued request is
replayed exactly once and the queue is left empty, so no later flush replays
it again; when a replay settles, its promise is resolved with the replay's
response or rejected with the replay's error, whatever that error is (a 401
included), and nothing else happens: nothing is queued, `isRefreshing` and
the pending refresh calls are untouched, `refreshAccess` is not called and no
request is replayed. -/
theorem replay_outcome_verbatim (s : State) (fs₁ fs₂ : List (Nat × AxiosError))
    (r : PostOutcome) (t : String) (hidle : Idle s) (hne : fs₁ ≠ [])
    (he : ∀ g ∈ fs₁ ++ fs₂, eligible s.apiBase g.2 = true)
    (hok : refreshResult s.stores r = some t)
    (i : Nat) (g : Nat × AxiosError) (hg : (fs₁ ++ fs₂).get? i = some g)
    (o : ReplayOutcome) :
    (replayed (run s (episode fs₁ r fs₂)).log).map Prod.fst
        = (replayed s.log).map Prod.fst ++ (fs₁ ++ fs₂).map Prod.fst ∧
      (run s (episode fs₁ r fs₂)).waiters = [] ∧
      (step (run s (episode fs₁ r fs₂)) (.replaySettled (s.replays.length + i) o)).log
        = (run s (episode fs₁ r fs₂)).log ++ [settleEffect g.1 o] ∧
      (step (run s (episode fs₁ r fs₂)) (.replaySettled (s.replays.length + i) o)).waiters
        = [] ∧
      (step (run s (episode fs₁ r fs₂)) (.replaySettled (s.replays.length + i) o)).isRefreshing
        = false ∧
      (step (run s (episode fs₁ r fs₂)) (.replaySettled (s.replays.length + i) o)).refreshCalls
        = [] ∧
      refreshAccessCount
          (step (run s (episode fs₁ r fs₂)) (.replaySettled (s.replays.length + i) o)).log
        = refreshAccessCount (run s (episode fs₁ r fs₂)).log ∧
      replayed (step (run s (episode fs₁ r fs₂)) (.replaySettled (s.replays.length + i) o)).log
        = replayed (run s (episode fs₁ r fs₂)).log := by
  have hF := episode_ok s fs₁ fs₂ r t hidle hne he hok
  obtain ⟨hi, hw, hc⟩ := hidle
  have hget : (run s (episode fs₁ r fs₂)).replays.get? (s.replays.length + i)
      = some (g.1, replayConfig s.apiBase t (mkWaiter g.1 g.2).original) := by
    rw [hF]
    simp only [List.get?_eq_getElem?] at hg ⊢
    rw [List.getElem?_append_right (Nat.le_add_right _ _), Nat.add_sub_cancel_left,
      List.getElem?_map, hg]
    rfl
  have h1 := step_replaySettled (run s (episode fs₁ r fs₂)) (s.replays.length + i) g.1 _ o hget
  have hwF : (run s (episode fs₁ r fs₂)).waiters = [] := by rw [hF]; exact hw
  have hiF : (run s (episode fs₁ r fs₂)).isRefreshing = false := by rw [hF]; exact hi
  have hcF : (run s (episode fs₁ r fs₂)).refreshCalls = [] := by rw [hF]; exact hc
  have hse : refreshAccessCount [settleEffect g.1 o] = 0 ∧ replayed [settleEffect g.1 o] = [] := by
    cases o <;> simp [settleEffect, refreshAccessCount, replayed]
  refine ⟨?_, hwF, ?_, ?_, ?_, ?_, ?_, ?_⟩
  · rw [episode_ok_replayed s fs₁ fs₂ r t ⟨hi, hw, hc⟩ hne he hok]
    simp [Function.comp_def]
  · rw [h1]
  · rw [h1]; exact hwF
  · rw [h1]; exact hiF
  · rw [h1]; exact hcF
  · rw [h1]
    simp only []
    rw [refreshAccessCount_append, hse.1]
    rfl
  · rw [h1]
    simp only []
    rw [replayed_append, hse.2, List.append_nil]

/-- Claim C16, on a replay that fails with a 401 again. -/
theorem replay_outcome_verbatim_witness :
    (step (run (sampleState [("nc_refresh", "r0")])
          (episode [(1, sampleError "A" "/auth/me"), (2, sampleError "B" "/profiles")]
            (.ok (some ⟨some "a1", none⟩)) []))
        (.replaySettled ((sampleState [("nc_refresh", "r0")]).replays.length + 0)
          (.rejected (sampleError "A again" "/auth/me")))).log
      = (run (sampleState [("nc_refresh", "r0")])
          (episode [(1, sampleError "A" "/auth/me"), (2, sampleError "B" "/profiles")]
            (.ok (some ⟨some "a1", none⟩)) [])).log ++
        [settleEffect (1, sampleError "A" "/auth/me").1
          (.rejected (sampleError "A again" "/auth/me"))] :=
  (replay_outcome_verbatim (sampleState [("nc_refresh", "r0")])
    [(1, sampleError "A" "/auth/me"), (2, sampleError "B" "/profiles")] []
    (.ok (some ⟨some "a1", none⟩)) "a1" ⟨rfl, rfl, rfl⟩ (by decide) (by decide) (by decide)
    0 (1, sampleError "A" "/auth/me") (by decide)
    (.rejected (sampleError "A again" "/auth/me"))).2.2.1

/-! ## A fault without a stored refresh token -/

theorem postCount_teardownEffects (pathname : String) (w : Waiter) :
    postCount (teardownEffects pathname w) = 0 := by
  by_cases hp : startsWith pathname "/login" = true
  · simp [postCount, teardownEffects, hp]
  · simp [postCount, teardownEffects, hp]

/-- Claim C20: with no refresh token stored, an eligible 401 fault reaching
an idle client calls `refreshAccess`, which returns `null` without issuing
the refresh network call; when the handler resumes, the failure teardown
runs: the stores are cleared, `auth:logout` is dispatched, the request is
rejected with its own error, and no `POST /auth/refresh` has been issued. -/
theorem no_refresh_token_teardown (s : State) (h : Nat) (e : AxiosError)
    (hidle : Idle s) (hrt : truthy (getRefresh s.stores) = false)
    (he : eligible s.apiBase e = true) :
    (step s (.fault h e)).refreshCalls = [.returned none] ∧
      (step s (.fault h e)).log = s.log ++ [.refreshAccess] ∧
      run s [.fault h e, .refreshResumed 0] =
        { s with
          stores := clearTokens s.stores
          log := s.log ++ .refreshAccess :: teardownEffects s.pathname (mkWaiter h e) } ∧
      postCount (run s [.fault h e, .refreshResumed 0]).log = postCount s.log ∧
      logoutCount (run s [.fault h e, .refreshResumed 0]).log = logoutCount s.log + 1 ∧
      rejections (run s [.fault h e, .refreshResumed 0]).log
        = rejections s.log ++ [(h, markRetry e)] := by
  obtain ⟨hi, hw, hc⟩ := hidle
  have hstep : step s (.fault h e) =
      { s with
        isRefreshing := true
        waiters := [mkWaiter h e]
        refreshCalls := [.returned none]
        log := s.log ++ [.refreshAccess] } := by
    have h0 : step s (.fault h e) = onRejected s h e := rfl
    rw [h0, onRejected_idle s h e he hi, refreshAccessStart_eq]
    simp [hrt, hw, hc]
  have hrun : run s [.fault h e, .refreshResumed 0] =
      { s with
        stores := clearTokens s.stores
        log := s.log ++ .refreshAccess :: teardownEffects s.pathname (mkWaiter h e) } := by
    have h0 : run s [.fault h e, .refreshResumed 0]
        = step (step s (.fault h e)) (.refreshResumed 0) := rfl
    rw [h0, hstep]
    simp only [step, List.get?_cons_zero]
    rw [flushWaiters_fail none rfl]
    simp [hi, hw, hc, teardownLog]
  refine ⟨?_, ?_, hrun, ?_, ?_, ?_⟩
  · rw [hstep]
  · rw [hstep]
  · rw [hrun]
    simp only []
    have : s.log ++ Effect.refreshAccess :: teardownEffects s.pathname (mkWaiter h e)
        = s.log ++ ([Effect.refreshAccess] ++ teardownEffects s.pathname (mkWaiter h e)) := rfl
    rw [this, postCount_append, postCount_append, postCount_teardownEffects]
    simp [postCount]
  · rw [hrun]
    simp only []
    have : s.log ++ Effect.refreshAccess :: teardownEffects s.pathname (mkWaiter h e)
        = s.log ++ ([Effect.refreshAccess] ++ teardownEffects s.pathname (mkWaiter h e)) := rfl
    rw [this, logoutCount_append, logoutCount_append, logoutCount_teardownEffects]
    simp [logoutCount]
  · rw [hrun]
    simp only []
    have : s.log ++ Effect.refreshAccess :: teardownEffects s.pathname (mkWaiter h e)
        = s.log ++ ([Effect.refreshAccess] ++ teardownLog s.pathname [mkWaiter h e]) := by
      simp [teardownLog]
    rw [this, rejections_append, rejections_append, rejections_teardownLog]
    simp [rejections, mkWaiter]

/-- Claim C20, on the first request of a visitor who has no tokens. -/
theorem no_refresh_token_teardown_witness :
    (step (sampleState []) (.fault 1 (sampleError "A" "/auth/me"))).refreshCalls
        = [.returned none] ∧
      postCount (run (sampleState [])
          [.fault 1 (sampleError "A" "/auth/me"), .refreshResumed 0]).log
        = postCount (sampleState []).log ∧
      logoutCount (run (sampleState [])
          [.fault 1 (sampleError "A" "/auth/me"), .refreshResumed 0]).log
        = logoutCount (sampleState []).log + 1 :=
  ⟨(no_refresh_token_teardown (sampleState []) 1 (sampleError "A" "/auth/me")
      ⟨rfl, rfl, rfl⟩ (by decide) (by decide)).1,
    (no_refresh_token_teardown (sampleState []) 1 (sampleError "A" "/auth/me")
      ⟨rfl, rfl, rfl⟩ (by decide) (by decide)).2.2.2.1,
    (no_refresh_token_teardown (sampleState []) 1 (sampleError "A" "/auth/me")
      ⟨rfl, rfl, rfl⟩ (by decide) (by decide)).2.2.2.2.1⟩

/-! ## No stranded waiter -/

theorem resume_idle (t : State) (na : Option String)
    (h : t.refreshCalls = [.returned na]) : Idle (step t (.refreshResumed 0)) := by
  have hstep : step t (.refreshResumed 0)
      = flushWaiters na { t with refreshCalls := [], isRefreshing := false } := by
    simp [step, h]
  rw [hstep]
  obtain ⟨h1, h2, h3⟩ := flushWaiters_frame na
    { t with refreshCalls := [], isRefreshing := false }
  exact ⟨h1, h3, h2⟩

theorem singleton_of_length_one {α : Type} (l : List α) (h : l.length = 1) :
    ∃ a, l = [a] := by
  cases l with
  | nil => simp at h
  | cons a l =>
      cases l with
      | nil => exact ⟨a, rfl⟩
      | cons b l => simp at h

/-- Claim C26: in every reachable state a non-empty queue implies
`isRefreshing`; when `isRefreshing` is false the queue is empty and no
handler awaits a refresh; when it is true exactly one handler awaits
`refreshAccess`, and once that call settles and the handler resumes the
state is idle with an empty queue; every resumption of a handler, which ends
an episode, leaves the state idle with an empty queue. -/
theorem no_stranded_waiter (s : State) (hs : Reachable s) :
    (s.waiters ≠ [] → s.isRefreshing = true) ∧
      (s.isRefreshing = false → Idle s) ∧
      (s.isRefreshing = true →
        s.refreshCalls.length = 1 ∧
        ∀ r : PostOutcome, Idle (run s [.refreshSettled 0 r, .refreshResumed 0])) ∧
      (∀ (i : Nat) (na : Option String), s.refreshCalls.get? i = some (.returned na) →
        Idle (step s (.refreshResumed i))) := by
  obtain ⟨hon, hoff⟩ := reachable_coordinated s hs
  refine ⟨?_, ?_, ?_, ?_⟩
  · intro hw
    cases hr : s.isRefreshing with
    | true => rfl
    | false => exact absurd (hoff hr).2 hw
  · intro hr
    exact ⟨hr, (hoff hr).2, (hoff hr).1⟩
  · intro hr
    refine ⟨hon hr, ?_⟩
    intro r
    obtain ⟨c, hc⟩ := singleton_of_length_one _ (hon hr)
    have hrun : run s [.refreshSettled 0 r, .refreshResumed 0]
        = step (step s (.refreshSettled 0 r)) (.refreshResumed 0) := rfl
    rw [hrun]
    cases c with
    | awaitingPost =>
        apply resume_idle _ (refreshAccessFinish s r).2
        simp [step, hc, (refreshAccessFinish_frame s r).2.1]
    | returned na =>
        apply resume_idle _ na
        simp [step, hc]
  · intro i na hget
    have hr : s.isRefreshing = true := by
      cases hr : s.isRefreshing with
      | true => rfl
      | false =>
          rw [(hoff hr).1] at hget
          simp at hget
    obtain ⟨c, hc⟩ := singleton_of_length_one _ (hon hr)
    have hi : i = 0 := by
      cases i with
      | zero => rfl
      | succ n =>
          rw [hc] at hget
          simp at hget
    subst hi
    rw [hc] at hget
    have hcna : c = .returned na := by simpa using hget
    subst hcna
    exact resume_idle s na hc

/-- Claim C26, on a client with two queued requests whose refresh call is
outstanding. -/
theorem no_stranded_waiter_witness :
    (run (sampleState [("nc_refresh", "r0")])
        [.fault 1 (sampleError "A" "/auth/me"), .fault 2 (sampleError "B" "/profiles")]).waiters
        ≠ [] ∧
      (run (sampleState [("nc_refresh", "r0")])
        [.fault 1 (sampleError "A" "/auth/me"), .fault 2 (sampleError "B" "/profiles")]).isRefreshing
        = true ∧
      Idle (run (run (sampleState [("nc_refresh", "r0")])
          [.fault 1 (sampleError "A" "/auth/me"), .fault 2 (sampleError "B" "/profiles")])
        [.refreshSettled 0 .threw, .refreshResumed 0]) :=
  ⟨by decide,
    (no_stranded_waiter
      (run (sampleState [("nc_refresh", "r0")])
        [.fault 1 (sampleError "A" "/auth/me"), .fault 2 (sampleError "B" "/profiles")])
      ⟨_, _, _, _, rfl⟩).1 (by decide),
    ((no_stranded_waiter
      (run (sampleState [("nc_refresh", "r0")])
        [.fault 1 (sampleError "A" "/auth/me"), .fault 2 (sampleError "B" "/profiles")])
      ⟨_, _, _, _, rfl⟩).2.2.1 (by decide)).2 .threw⟩

/-! ## Order of the access-token lookup -/

/-- Claim C28: `getAccess` answers the first non-empty value among
`nc_access` in `localStorage`, then `token`, `access_token`, `jwt`, each in
`localStorage` before `sessionStorage`, and `null` when there is none; so
after `setTokens(a)` with a non-empty string `a`, whatever the second
argument and whatever the stores held, `getAccess()` answers `a`. -/
theorem getAccess_lookup_order (st : Stores) :
    getAccess st = firstNonEmpty (accessCandidates st) ∧
      ∀ (a : String) (r : JSVal), a ≠ "" → getAccess (setTokens st (.str a) r) = some a := by
  constructor
  · simp only [getAccess, readLegacyAccess, LEGACY_KEYS, readLegacyAccessFrom, jsOr,
      accessCandidates, firstNonEmpty, ACCESS_KEY]
    by_cases h0 : truthy (getItem st.localStorage "nc_access") = true
    · simp [h0]
    · by_cases h1 : truthy (getItem st.localStorage "token") = true
      · simp [h0, h1]
      · by_cases h2 : truthy (getItem st.sessionStorage "token") = true
        · simp [h0, h1, h2]
        · by_cases h3 : truthy (getItem st.localStorage "access_token") = true
          · simp [h0, h1, h2, h3]
          · by_cases h4 : truthy (getItem st.sessionStorage "access_token") = true
            · simp [h0, h1, h2, h3, h4]
            · by_cases h5 : truthy (getItem st.localStorage "jwt") = true
              · simp [h0, h1, h2, h3, h4, h5]
              · by_cases h6 : truthy (getItem st.sessionStorage "jwt") = true
                · simp [h0, h1, h2, h3, h4, h5, h6]
                · simp [h0, h1, h2, h3, h4, h5, h6]
  · intro a r ha
    have hacc : getItem (setTokens st (.str a) r).localStorage ACCESS_KEY = some a := by
      cases r with
      | str x =>
          simp only [setTokens, JSVal.asString]
          rw [getItem_setItem_ne _ _ _ _ (by decide)]
          exact getItem_setItem_same _ _ _
      | undefined =>
          simp only [setTokens, JSVal.asString]
          exact getItem_setItem_same _ _ _
      | null =>
          simp only [setTokens, JSVal.asString]
          exact getItem_setItem_same _ _ _
      | bool b =>
          simp only [setTokens, JSVal.asString]
          exact getItem_setItem_same _ _ _
      | num n =>
          simp only [setTokens, JSVal.asString]
          exact getItem_setItem_same _ _ _
    unfold getAccess jsOr
    rw [hacc]
    simp [truthy, ha]

/-- Claim C28, on stores with an empty `nc_access` and two legacy values, and
on the same stores after `setTokens("a1")`. -/
theorem getAccess_lookup_order_witness :
    getAccess ⟨[("nc_access", ""), ("jwt", "j1")], [("token", ""), ("access_token", "s1")]⟩
        = firstNonEmpty (accessCandidates
          ⟨[("nc_access", ""), ("jwt", "j1")], [("token", ""), ("access_token", "s1")]⟩) ∧
      getAccess (setTokens
          ⟨[("nc_access", ""), ("jwt", "j1")], [("token", ""), ("access_token", "s1")]⟩
          (.str "a1") .undefined) = some "a1" :=
  ⟨(getAccess_lookup_order
      ⟨[("nc_access", ""), ("jwt", "j1")], [("token", ""), ("access_token", "s1")]⟩).1,
    (getAccess_lookup_order
      ⟨[("nc_access", ""), ("jwt", "j1")], [("token", ""), ("access_token", "s1")]⟩).2
      "a1" .undefined (by decide)⟩

/-! ## The auth-path test is a substring test -/

theorem isPrefixOf_elim (l cs : List Char) (h : l.isPrefixOf cs = true) :
    ∃ q, cs = l ++ q := by
  induction l generalizing cs with
  | nil => exact ⟨cs, rfl⟩
  | cons a l ih =>
      cases cs with
      | nil => simp [List.isPrefixOf] at h
      | cons c cs =>
          simp only [List.isPrefixOf, Bool.and_eq_true, beq_iff_eq] at h
          obtain ⟨q, hq⟩ := ih cs h.2
          exact ⟨q, by rw [h.1, hq]; rfl⟩

theorem authPathAt_elim (cs : List Char) (h : authPathAt cs = true) :
    ∃ alt q, alt ∈ ["login", "register", "refresh"] ∧
      cs = ("/auth/" ++ alt).toList ++ q := by
  unfold authPathAt at h
  rw [List.any_eq_true] at h
  obtain ⟨alt, halt, hp⟩ := h
  obtain ⟨q, hq⟩ := isPrefixOf_elim _ _ hp
  exact ⟨alt, q, halt, hq⟩

theorem authPathSearch_elim (cs : List Char) (h : authPathSearch cs = true) :
    ∃ p alt q, alt ∈ ["login", "register", "refresh"] ∧
      cs = p ++ (("/auth/" ++ alt).toList ++ q) := by
  induction cs with
  | nil =>
      obtain ⟨alt, q, halt, hq⟩ := authPathAt_elim [] (by simpa [authPathSearch] using h)
      exact ⟨[], alt, q, halt, hq⟩
  | cons c cs ih =>
      simp only [authPathSearch, Bool.or_eq_true] at h
      rcases h with h | h
      · obtain ⟨alt, q, halt, hq⟩ := authPathAt_elim _ h
        exact ⟨[], alt, q, halt, hq⟩
      · obtain ⟨p, alt, q, halt, hq⟩ := ih h
        exact ⟨c :: p, alt, q, halt, by rw [hq]; rfl⟩

/-- The test `isAuthPath` holds exactly when the URL contains one of the
three auth paths. -/
theorem isAuthPath_iff (apiBase : Option String) (original : Config) :
    isAuthPath apiBase original = true ↔
      ∃ p q alt : String, alt ∈ ["login", "register", "refresh"] ∧
        requestUrl apiBase original = p ++ ("/auth/" ++ alt) ++ q := by
  constructor
  · intro h
    obtain ⟨p, alt, q, halt, hq⟩ := authPathSearch_elim _ h
    refine ⟨String.mk p, String.mk q, alt, halt, ?_⟩
    apply String.ext
    simp only [String.data_append]
    simpa [String.toList, List.append_assoc] using hq
  · rintro ⟨p, q, alt, halt, hurl⟩
    unfold isAuthPath
    rw [hurl]
    have hl : (p ++ ("/auth/" ++ alt) ++ q).toList
        = p.toList ++ (("/auth/" ++ alt).toList ++ q.toList) := by
      simp [String.toList, String.data_append, List.append_assoc]
    rw [hl]
    exact authPathSearch_of_match _ _ (authPathAt_of_alternative alt halt _)

/-- Claim C27: a 401 fault on a request not yet marked `_retry` enters the
refresh flow (it is queued instead of rejected) if and only if the base URL
followed by the request url contains none of `/auth/login`, `/auth/register`,
`/auth/refresh` as a substring; a URL that merely contains one of them, such
as one ending in `/auth/login-history`, is rejected without refresh as
well. -/
theorem refresh_flow_iff_no_auth_substring (s : State) (h : Nat) (e : AxiosError)
    (hst : e.response.map (fun r => r.status) = some 401)
    (hretry : (e.config.getD emptyConfig)._retry = false) :
    (eligible s.apiBase e = true ↔
        ¬ ∃ p q alt : String, alt ∈ ["login", "register", "refresh"] ∧
          requestUrl s.apiBase (e.config.getD emptyConfig) = p ++ ("/auth/" ++ alt) ++ q) ∧
      (eligible s.apiBase e = true →
        (step s (.fault h e)).waiters = s.waiters ++ [mkWaiter h e] ∧
        rejections (step s (.fault h e)).log = rejections s.log) ∧
      (eligible s.apiBase e = false →
        step s (.fault h e) = { s with log := s.log ++ [.reject h e] }) ∧
      (∀ p : String,
        requestUrl s.apiBase (e.config.getD emptyConfig) = p ++ "/auth/login-history" →
        step s (.fault h e) = { s with log := s.log ++ [.reject h e] }) := by
  have hiff := isAuthPath_iff s.apiBase (e.config.getD emptyConfig)
  have hel : eligible s.apiBase e = !isAuthPath s.apiBase (e.config.getD emptyConfig) := by
    simp [eligible, hst, hretry]
  have hrej : eligible s.apiBase e = false →
      step s (.fault h e) = { s with log := s.log ++ [.reject h e] } :=
    fun hf => onRejected_not_eligible s h e hf
  refine ⟨?_, ?_, hrej, ?_⟩
  · rw [hel, ← hiff]
    cases isAuthPath s.apiBase (e.config.getD emptyConfig) <;> simp
  · intro he
    have hstep : step s (.fault h e) = onRejected s h e := rfl
    cases hr : s.isRefreshing with
    | true =>
        rw [hstep, onRejected_refreshing s h e he hr]
        exact ⟨rfl, rfl⟩
    | false =>
        rw [hstep, onRejected_idle s h e he hr, refreshAccessStart_eq]
        refine ⟨rfl, ?_⟩
        simp only [rejections_append]
        by_cases ht : truthy (getRefresh s.stores) = true
        · simp [ht, rejections]
        · simp [ht, rejections]
  · intro p hp
    apply hrej
    rw [hel]
    have : isAuthPath s.apiBase (e.config.getD emptyConfig) = true := by
      rw [hiff]
      refine ⟨p, "-history", "login", by simp, ?_⟩
      rw [hp]
      apply String.ext
      simp [String.data_append, List.append_assoc]
    simp [this]

/-- Claim C27, on a 401 answer to `/auth/login-history`, which is rejected,
and to `/authors`, which is queued. -/
theorem refresh_flow_iff_no_auth_substring_witness :
    step (sampleState [("nc_refresh", "r0")]) (.fault 1 (sampleError "A" "/auth/login-history"))
        = { sampleState [("nc_refresh", "r0")] with
            log := (sampleState [("nc_refresh", "r0")]).log ++
              [.reject 1 (sampleError "A" "/auth/login-history")] } ∧
      (step (sampleState [("nc_refresh", "r0")]) (.fault 2 (sampleError "B" "/authors"))).waiters
        = (sampleState [("nc_refresh", "r0")]).waiters
          ++ [mkWaiter 2 (sampleError "B" "/authors")] :=
  ⟨(refresh_flow_iff_no_auth_substring (sampleState [("nc_refresh", "r0")]) 1
      (sampleError "A" "/auth/login-history") rfl rfl).2.2.2 "http://api.test" (by decide),
    ((refresh_flow_iff_no_auth_substring (sampleState [("nc_refresh", "r0")]) 2
      (sampleError "B" "/authors") rfl rfl).2.1 (by decide)).1⟩

/-! ## The queue swap of `flushWaiters` -/

theorem foldl_call_waiters_grow (call : Waiter → Option String → State → State)
    (na : Option String)
    (hadd : ∀ cb t, ∃ added, (call cb na t).waiters = t.waiters ++ added)
    (ws : List Waiter) :
    ∀ t : State, ∃ more,
      (ws.foldl (fun t cb => call cb na t) t).waiters = t.waiters ++ more := by
  induction ws with
  | nil => intro t; exact ⟨[], by simp⟩
  | cons w ws ih =>
      intro t
      obtain ⟨more, hmore⟩ := ih (call w na t)
      obtain ⟨added, hadded⟩ := hadd w t
      exact ⟨added ++ more, by rw [List.foldl_cons, hmore, hadded, List.append_assoc]⟩

/-- Claim C21: `flushWaiters` first replaces the shared queue by an empty
one, then calls every closure that was queued exactly once, in queue order,
with the refresh result: the first closure already runs on the empty queue,
and the calls made are those of the old list whatever the closures register.
A closure registered on `waiters` by a call made during the flush stays in
the queue the flush leaves behind and is not called by that flush.  With the
closures of the client, which register nothing, the flush leaves the queue
empty. -/
theorem flush_swaps_queue_first (call : Waiter → Option String → State → State)
    (na : Option String) (s : State) :
    flushWaiters na s = flushWaitersWith retry na s ∧
      flushWaitersWith call na s
        = s.waiters.foldl (fun t cb => call cb na t) { s with waiters := [] } ∧
      (∀ w ws, s.waiters = w :: ws →
        flushWaitersWith call na s
          = ws.foldl (fun t cb => call cb na t) (call w na { s with waiters := [] })) ∧
      ((∀ cb t, ∃ added, (call cb na t).waiters = t.waiters ++ added) →
        ∀ pre cb post, s.waiters = pre ++ cb :: post →
          ∃ more, (flushWaitersWith call na s).waiters
            = (call cb na
                (pre.foldl (fun t c => call c na t) { s with waiters := [] })).waiters
              ++ more) ∧
      (flushWaiters na s).waiters = [] := by
  refine ⟨rfl, rfl, ?_, ?_, (flushWaiters_frame na s).2.2⟩
  · intro w ws hws
    unfold flushWaitersWith
    simp only [hws, List.foldl_cons]
  · intro hadd pre cb post hws
    unfold flushWaitersWith
    simp only [hws, List.foldl_append, List.foldl_cons]
    exact foldl_call_waiters_grow call na hadd post _

/-- Claim C21, on a queue of two closures that each register a closure when
called: both registered closures are in the queue after the flush. -/
theorem flush_swaps_queue_first_witness :
    (flushWaitersWith registeringCall none
        { sampleState [] with
          waiters := [mkWaiter 1 (sampleError "A" "/a"), mkWaiter 2 (sampleError "B" "/b")] }).waiters
      = [mkWaiter 101 (sampleError "A" "/a"), mkWaiter 102 (sampleError "B" "/b")] ∧
    ∃ more, (flushWaitersWith registeringCall none
        { sampleState [] with
          waiters := [mkWaiter 1 (sampleError "A" "/a"), mkWaiter 2 (sampleError "B" "/b")] }).waiters
      = (registeringCall (mkWaiter 1 (sampleError "A" "/a")) none
          (([] : List Waiter).foldl (fun t c => registeringCall c none t)
            { { sampleState [] with
                waiters := [mkWaiter 1 (sampleError "A" "/a"),
                  mkWaiter 2 (sampleError "B" "/b")] } with waiters := [] })).waiters
        ++ more :=
  ⟨by decide,
    (flush_swaps_queue_first registeringCall none
      { sampleState [] with
        waiters := [mkWaiter 1 (sampleError "A" "/a"), mkWaiter 2 (sampleError "B" "/b")] }).2.2.2.1
      (fun cb t => ⟨[{ cb with handle := cb.handle + 100 }], rfl⟩)
      [] (mkWaiter 1 (sampleError "A" "/a")) [mkWaiter 2 (sampleError "B" "/b")] rfl⟩

/-! ## Forced navigation on refresh failure -/

theorem navigations_append (l₁ l₂ : List Effect) :
    navigations (l₁ ++ l₂) = navigations l₁ ++ navigations l₂ := by
  simp [navigations, List.filterMap_append]

theorem navigations_teardownLog (pathname : String) (ws : List Waiter) :
    navigations (teardownLog pathname ws)
      = if startsWith pathname "/login" then [] else List.replicate ws.length "/login" := by
  induction ws with
  | nil => simp [teardownLog, navigations]
  | cons w ws ih =>
      rw [teardownLog, navigations_append, ih]
      by_cases hp : startsWith pathname "/login" = true
      · simp [navigations, teardownEffects, hp]
      · simp [navigations, teardownEffects, hp, List.replicate_succ]

/-- The navigations a failed episode adds to the log. -/
theorem episode_fail_navigations (s : State) (fs₁ fs₂ : List (Nat × AxiosError))
    (r : PostOutcome) (hidle : Idle s) (hne : fs₁ ≠ [])
    (he : ∀ g ∈ fs₁ ++ fs₂, eligible s.apiBase g.2 = true)
    (hfail : refreshResult s.stores r = none) :
    navigations (run s (episode fs₁ r fs₂)).log
      = navigations s.log ++
        (if startsWith s.pathname "/login" then []
          else List.replicate (fs₁ ++ fs₂).length "/login") := by
  rw [episode_fail s fs₁ fs₂ r hidle hne he hfail]
  simp only [navigations_append]
  have hcons : ∀ l : List Effect,
      navigations (Effect.refreshAccess :: l) = navigations l := by
    intro l
    simp [navigations]
  rw [hcons, navigations_append, navigations_teardownLog]
  by_cases ht : truthy (getRefresh s.stores) = true
  · simp [ht, navigations]
  · simp [ht, navigations]

/-- Claim C22, as stated, fails: on `/login-help`, which is not the login
screen (the router serves it with the page-not-found route), a failed refresh
forces no navigation at all. -/
theorem login_navigation_counterexample :
    Router.onLoginScreen "/login-help" = false ∧
      navigations (run { sampleState [("nc_refresh", "r0")] with pathname := "/login-help" }
        (episode [(1, sampleError "A" "/auth/me")] .threw [])).log = [] ∧
      ¬ ∀ (s : State) (fs₁ fs₂ : List (Nat × AxiosError)) (r : PostOutcome),
        Idle s → fs₁ ≠ [] → (∀ g ∈ fs₁ ++ fs₂, eligible s.apiBase g.2 = true) →
        refreshResult s.stores r = none → s.log = [] →
        ("/login" ∈ navigations (run s (episode fs₁ r fs₂)).log ↔
          Router.onLoginScreen s.pathname = false) := by
  refine ⟨by decide, by decide, ?_⟩
  intro h
  have h2 := h { sampleState [("nc_refresh", "r0")] with pathname := "/login-help" }
    [(1, sampleError "A" "/auth/me")] [] .threw ⟨rfl, rfl, rfl⟩ (by decide) (by decide)
    (by decide) rfl
  revert h2
  decide

/-- Claim C22, amended: on refresh failure the calls
`window.location.replace("/login")` are the only navigations, and they are
made, once by each queued request, if and only if `location.pathname` does
not start with `/login`; when it does start with `/login` no navigation is
triggered. -/
theorem login_navigation_iff_not_startsWith (s : State)
    (fs₁ fs₂ : List (Nat × AxiosError)) (r : PostOutcome) (hidle : Idle s)
    (hne : fs₁ ≠ []) (he : ∀ g ∈ fs₁ ++ fs₂, eligible s.apiBase g.2 = true)
    (hfail : refreshResult s.stores r = none) :
    (startsWith s.pathname "/login" = false →
        navigations (run s (episode fs₁ r fs₂)).log
          = navigations s.log ++ List.replicate (fs₁ ++ fs₂).length "/login") ∧
      (startsWith s.pathname "/login" = true →
        navigations (run s (episode fs₁ r fs₂)).log = navigations s.log) ∧
      ((navigations (run s (episode fs₁ r fs₂)).log).length > (navigations s.log).length ↔
        startsWith s.pathname "/login" = false) := by
  have hnav := episode_fail_navigations s fs₁ fs₂ r hidle hne he hfail
  have hpos : 0 < (fs₁ ++ fs₂).length := by
    cases fs₁ with
    | nil => exact absurd rfl hne
    | cons f rest => simp
  cases hp : startsWith s.pathname "/login" with
  | true =>
      rw [hp] at hnav
      simp only [if_true, List.append_nil] at hnav
      refine ⟨(fun h => by cases h), fun _ => hnav, ?_⟩
      rw [hnav]
      simp
  | false =>
      rw [hp] at hnav
      simp only [Bool.false_eq_true, if_false] at hnav
      refine ⟨fun _ => hnav, (fun h => by cases h), ?_⟩
      rw [hnav, List.length_append, List.length_replicate]
      constructor
      · intro _; trivial
      · intro _; omega

/-- Claim C22, amended, on a failed episode with two queued requests on
`/discover` and on `/login`. -/
theorem login_navigation_iff_not_startsWith_witness :
    navigations (run (sampleState [("nc_refresh", "r0")])
        (episode [(1, sampleError "A" "/auth/me"), (2, sampleError "B" "/profiles")]
          .threw [])).log
      = navigations (sampleState [("nc_refresh", "r0")]).log ++
        List.replicate ([(1, sampleError "A" "/auth/me"), (2, sampleError "B" "/profiles")]
          ++ []).length "/login" ∧
    navigations (run { sampleState [("nc_refresh", "r0")] with pathname := "/login" }
        (episode [(1, sampleError "A" "/auth/me"), (2, sampleError "B" "/profiles")]
          .threw [])).log
      = navigations { sampleState [("nc_refresh", "r0")] with pathname := "/login" }.log :=
  ⟨(login_navigation_iff_not_startsWith (sampleState [("nc_refresh", "r0")])
      [(1, sampleError "A" "/auth/me"), (2, sampleError "B" "/profiles")] [] .threw
      ⟨rfl, rfl, rfl⟩ (by decide) (by decide) (by decide)).1 (by decide),
    (login_navigation_iff_not_startsWith
      { sampleState [("nc_refresh", "r0")] with pathname := "/login" }
      [(1, sampleError "A" "/auth/me"), (2, sampleError "B" "/profiles")] [] .threw
      ⟨rfl, rfl, rfl⟩ (by decide) (by decide) (by decide)).2.1 (by decide)⟩

end AxiosClient



namespace Router

/-! ## Route guard -/

theorem any_contains_iff (required roles : List String) :
    required.any (fun r => roles.contains r) = true ↔ ∃ r, r ∈ required ∧ r ∈ roles := by
  simp [List.any_eq_true]

theorem rolesOk_none (auth : AuthValue) : rolesOk none auth := by
  intro required h
  cases h

theorem rolesOk_some (required : List String) (auth : AuthValue) :
    rolesOk (some required) auth ↔
      required.any (fun r => ((auth.user.bind (fun u => u.roles)).getD []).contains r)
        = true := by
  rw [any_contains_iff]
  constructor
  · intro h
    exact h required rfl
  · intro h req hreq
    cases hreq
    exact h

/-- Claim C19, as stated, fails: while the session is loading the route
renders the loading placeholder, which is neither the protected content nor a
redirect. -/
theorem protected_route_redirect_counterexample :
    ProtectedRoute false none
        { isAuthenticated := true, currentProfile := some 1, loadingSession := true,
          user := some ⟨some ["admin"]⟩ } = .loading ∧
      ¬ ∀ (requireProfile : Bool) (requireRoles : Option (List String)) (auth : AuthValue),
        ProtectedRoute requireProfile requireRoles auth ≠ .outlet →
        ∃ target, ProtectedRoute requireProfile requireRoles auth = .navigate target := by
  refine ⟨by decide, ?_⟩
  intro h
  obtain ⟨target, ht⟩ := h false none
    { isAuthenticated := true, currentProfile := some 1, loadingSession := true,
      user := some ⟨some ["admin"]⟩ } (by decide)
  have hl : ProtectedRoute false none
      { isAuthenticated := true, currentProfile := some 1, loadingSession := true,
        user := some ⟨some ["admin"]⟩ } = .loading := by decide
  rw [hl] at ht
  cases ht

/-- Claim C19, amended: `ProtectedRoute` renders the protected content if and
only if the session is not loading, the user is authenticated,
`requireProfile` implies a current profile is selected, and `requireRoles`
(when given) shares at least one role with the user's roles; while the
session is loading it renders the loading placeholder and does not redirect;
when the session is loaded it redirects to `/login` if unauthenticated,
else to `/perfiles` if a required profile is missing, else to `/discover` if
a required role is missing. -/
theorem protected_route (requireProfile : Bool) (requireRoles : Option (List String))
    (auth : AuthValue) :
    (ProtectedRoute requireProfile requireRoles auth = .outlet ↔
        auth.loadingSession = false ∧ auth.isAuthenticated = true ∧
        (requireProfile = true → auth.currentProfile ≠ none) ∧
        rolesOk requireRoles auth) ∧
      (auth.loadingSession = true →
        ProtectedRoute requireProfile requireRoles auth = .loading) ∧
      (auth.loadingSession = false → auth.isAuthenticated = false →
        ProtectedRoute requireProfile requireRoles auth = .navigate "/login") ∧
      (auth.loadingSession = false → auth.isAuthenticated = true →
        requireProfile = true → auth.currentProfile = none →
        ProtectedRoute requireProfile requireRoles auth = .navigate "/perfiles") ∧
      (auth.loadingSession = false → auth.isAuthenticated = true →
        (requireProfile = true → auth.currentProfile ≠ none) →
        ¬ rolesOk requireRoles auth →
        ProtectedRoute requireProfile requireRoles auth = .navigate "/discover") := by
  obtain ⟨ia, cp, ls, u⟩ := auth
  cases ls with
  | true => simp [ProtectedRoute]
  | false =>
      cases ia with
      | false => simp [ProtectedRoute]
      | true =>
          by_cases hp : requireProfile = true ∧ cp = none
          · obtain ⟨hp1, hp2⟩ := hp
            subst hp1 hp2
            simp [ProtectedRoute]
          · have hp2 : requireProfile = true → cp ≠ none := fun h1 h2 => hp ⟨h1, h2⟩
            have hcond : (requireProfile && cp.isNone) = false := by
              cases requireProfile with
              | false => rfl
              | true =>
                  cases cp with
                  | none => exact absurd rfl (hp2 rfl)
                  | some x => rfl
            cases requireRoles with
            | none =>
                have hok := rolesOk_none ⟨true, cp, false, u⟩
                have hval : ProtectedRoute requireProfile none ⟨true, cp, false, u⟩
                    = .outlet := by
                  simp [ProtectedRoute, hcond]
                exact ⟨⟨fun _ => ⟨rfl, rfl, hp2, hok⟩, fun _ => hval⟩,
                  (fun h => by cases h), (fun _ h => by cases h),
                  fun _ _ h1 h2 => absurd h2 (hp2 h1), fun _ _ _ h => absurd hok h⟩
            | some required =>
                have hiff := rolesOk_some required ⟨true, cp, false, u⟩
                by_cases hany : required.any
                    (fun r => ((u.bind (fun u => u.roles)).getD []).contains r) = true
                · have hok := hiff.mpr hany
                  have hval : ProtectedRoute requireProfile (some required)
                      ⟨true, cp, false, u⟩ = .outlet := by
                    simp only [ProtectedRoute, hcond, hany]
                    simp
                  exact ⟨⟨fun _ => ⟨rfl, rfl, hp2, hok⟩, fun _ => hval⟩,
                    (fun h => by cases h), (fun _ h => by cases h),
                    fun _ _ h1 h2 => absurd h2 (hp2 h1), fun _ _ _ h => absurd hok h⟩
                · have hnok : ¬ rolesOk (some required) ⟨true, cp, false, u⟩ :=
                    fun h => hany (hiff.mp h)
                  have hval : ProtectedRoute requireProfile (some required)
                      ⟨true, cp, false, u⟩ = .navigate "/discover" := by
                    have hany2 := Bool.eq_false_iff.mpr hany
                    simp only [ProtectedRoute, hcond, hany2]
                    simp
                  refine ⟨⟨fun h => ?_, fun h => absurd h.2.2.2 hnok⟩,
                    (fun h => by cases h), (fun _ h => by cases h),
                    fun _ _ h1 h2 => absurd h2 (hp2 h1), fun _ _ _ _ => hval⟩
                  rw [hval] at h
                  cases h

/-- Claim C19, amended, on an admin route visited by an editor with a profile
and on a route that needs a profile visited without one. -/
theorem protected_route_witness :
    ProtectedRoute true (some ["admin"])
        { isAuthenticated := true, currentProfile := some 1, loadingSession := false,
          user := some ⟨some ["editor"]⟩ } = .navigate "/discover" ∧
      ProtectedRoute true none
        { isAuthenticated := true, currentProfile := none, loadingSession := false,
          user := none } = .navigate "/perfiles" :=
  ⟨(protected_route true (some ["admin"])
      { isAuthenticated := true, currentProfile := some 1, loadingSession := false,
        user := some ⟨some ["editor"]⟩ }).2.2.2.2 rfl rfl (by decide)
      (by
        intro h
        obtain ⟨r, hr1, hr2⟩ := h ["admin"] rfl
        simp at hr1 hr2
        rw [hr1] at hr2
        exact absurd hr2 (by decide)),
    (protected_route true none
      { isAuthenticated := true, currentProfile := none, loadingSession := false,
        user := none }).2.2.2.1 rfl rfl rfl rfl⟩

end Router

namespace TmdbService

/-! ## Kid search -/

/-- What a returning loop has collected: the matching items of the pages it
fetched, which all answered, appended to what it started with.  The pages
are the start page and those `++` gives in turn. -/
theorem searchLoop_returned {Num : Type} (ops : Js.NumberOps Num)
    (search : Num → Option (SearchData Num)) (fuel : Nat) :
    ∀ (collected : List MovieCard) (p tp : Num) (c : List MovieCard) (tp2 : Num),
      searchLoop ops search fuel collected p tp = .returned (c, tp2) →
      ∃ k : Nat, c = collected ++ matchingFrom ops search p k ∧
        (collected.length < perPage → 1 ≤ k) ∧
        (∀ i : Nat, i < k → search (ops.succ^[i] p) ≠ none) := by
  induction fuel with
  | zero =>
      intro collected p tp c tp2 h
      simp [searchLoop] at h
  | succ fuel ih =>
      intro collected p tp c tp2 h
      unfold searchLoop at h
      by_cases hlen : collected.length < perPage
      · simp only [hlen, if_true] at h
        cases hs : search p with
        | none => simp [hs] at h
        | some data =>
            have hone : ∀ c2 : List MovieCard, c2 = collected ++ chunkOf data →
                ∃ k : Nat, c2 = collected ++ matchingFrom ops search p k ∧
                  (collected.length < perPage → 1 ≤ k) ∧
                  (∀ i : Nat, i < k → search (ops.succ^[i] p) ≠ none) := by
              intro c2 hc2
              refine ⟨1, ?_, fun _ => Nat.le_refl 1, ?_⟩
              · simp [matchingFrom, hs, hc2]
              · intro i hi
                have : i = 0 := by omega
                subst this
                simp [hs]
            simp only [hs] at h
            split at h
            · injection h with h
              injection h with h1 h2
              exact hone c h1.symm
            · split at h
              · injection h with h
                injection h with h1 h2
                exact hone c h1.symm
              · split at h
                · injection h with h
                  injection h with h1 h2
                  exact hone c h1.symm
                · obtain ⟨k, hk, _, hpages⟩ := ih _ _ _ _ _ h
                  refine ⟨k + 1, ?_, fun _ => Nat.le_add_left 1 k, ?_⟩
                  · rw [hk]
                    simp [matchingFrom, hs, List.append_assoc]
                  · intro i hi
                    cases i with
                    | zero => simp [hs]
                    | succ n =>
                        have := hpages n (by omega)
                        rw [Function.iterate_succ_apply]
                        exact this
      · simp only [hlen, if_false] at h
        injection h with h
        injection h with h1 h2
        refine ⟨0, ?_, fun hc => absurd hc hlen, fun i hi => absurd hi (Nat.not_lt_zero i)⟩
        simp [matchingFrom, h1]

theorem allowed_spec (m : MovieCard) (h : allowed m = true) :
    16 ∈ m.genre_ids ∨ 14 ∈ m.genre_ids := by
  simp only [allowed, ALLOWED, List.any_eq_true] at h
  obtain ⟨id, hid, hc⟩ := h
  have hmem : id ∈ [16, 14] := by simpa using hc
  simp only [List.mem_cons, List.mem_singleton, List.not_mem_nil, or_false] at hmem
  rcases hmem with h16 | h14
  · left; rw [← h16]; exact hid
  · right; rw [← h14]; exact hid

theorem matchingFrom_allowed {Num : Type} (ops : Js.NumberOps Num)
    (search : Num → Option (SearchData Num)) (k : Nat) :
    ∀ (p : Num) (m : MovieCard), m ∈ matchingFrom ops search p k → allowed m = true := by
  induction k with
  | zero =>
      intro p m hm
      simp [matchingFrom] at hm
  | succ k ih =>
      intro p m hm
      simp only [matchingFrom, List.mem_append] at hm
      rcases hm with hm | hm
      · cases hs : search p with
        | none => simp [hs] at hm
        | some data =>
            simp only [hs, chunkOf, List.mem_filter] at hm
            exact hm.2
      · exact ih _ _ hm

/-- Whatever the numbers are, a returning call returns at most 20 results,
each with a `genre_ids` array containing 16 or 14: in order, the first (up
to 20) matching items of the `k ≥ 1` pages it fetched, which are the
requested page and the pages `tmdbPage++` gave in turn; and the `page` field
is the requested page. -/
theorem searchKid_returned {Num : Type} (ops : Js.NumberOps Num)
    (search : Num → Option (SearchData Num)) (page : Num) (fuel : Nat) (r : SearchResult Num)
    (h : searchKidFantasyAnimation ops search fuel page = .returned r) :
    r.results.length ≤ 20 ∧
      (∀ m ∈ r.results, 16 ∈ m.genre_ids ∨ 14 ∈ m.genre_ids) ∧
      (∃ k : Nat, 1 ≤ k ∧ (∀ i : Nat, i < k → search (ops.succ^[i] page) ≠ none) ∧
        r.results = (matchingFrom ops search page k).take 20) ∧
      r.page = page := by
  unfold searchKidFantasyAnimation at h
  cases hl : searchLoop ops search fuel [] page ops.one with
  | outOfFuel => simp [hl] at h
  | threw => simp [hl] at h
  | returned x =>
      obtain ⟨c, tp2⟩ := x
      simp only [hl] at h
      injection h with h
      subst h
      obtain ⟨k, hk, hk1, hpages⟩ := searchLoop_returned ops search fuel [] page ops.one c tp2 hl
      have hc : c = matchingFrom ops search page k := by simpa using hk
      refine ⟨?_, ?_, ⟨k, hk1 (by decide), hpages, ?_⟩, rfl⟩
      · simp only [perPage, List.length_take]
        omega
      · intro m hm
        have hm2 : m ∈ c := List.mem_of_mem_take hm
        rw [hc] at hm2
        exact allowed_spec m (matchingFrom_allowed ops search k page m hm2)
      · simp only [perPage, hc]

/-! ## The kid search on integer pages -/

/-- The value `data.total_pages || 1` is never NaN. -/
theorem totalPagesOf_safe (data : SearchData Js.SafeNumber) :
    ∃ t : Js.SafeInt, totalPagesOf Js.safeOps data = .int t := by
  unfold totalPagesOf
  cases data.total_pages with
  | none => exact ⟨_, rfl⟩
  | some n =>
      cases n with
      | nan => exact ⟨_, rfl⟩
      | int t =>
          by_cases h : t.val = 0
          · refine ⟨⟨1, by decide⟩, ?_⟩
            simp [Js.safeOps, Js.SafeNumber.falsy, h]
          · refine ⟨t, ?_⟩
            simp [Js.safeOps, Js.SafeNumber.falsy, h]

/-- Below another safe integer, `++` adds one. -/
theorem safe_succ_of_lt (q t : Js.SafeInt) (h : q.val < t.val) :
    ∃ h2 : (q.val + 1).natAbs ≤ 9007199254740992,
      Js.safeOps.succ (.int q) = .int ⟨q.val + 1, h2⟩ := by
  have hq := q.property
  have ht := t.property
  have hlt : q.val < 9007199254740992 := by omega
  refine ⟨by omega, ?_⟩
  show Js.SafeNumber.succ (.int q) = _
  simp only [Js.SafeNumber.succ, dif_pos hlt]

theorem safe_ge_int (q t : Js.SafeInt) :
    Js.safeOps.ge (.int q) (.int t) = decide (t.val ≤ q.val) := rfl

/-- From an integer page the pages requested are the consecutive integers. -/
theorem searchCalls_consecutive (search : Js.SafeNumber → Option (SearchData Js.SafeNumber))
    (fuel : Nat) :
    ∀ (collected : List MovieCard) (q : Js.SafeInt) (i : Nat),
      i < (searchCalls Js.safeOps search fuel collected (.int q)).length →
      ∃ r : Js.SafeInt,
        (searchCalls Js.safeOps search fuel collected (.int q)).get? i = some (.int r) ∧
        r.val = q.val + i := by
  induction fuel with
  | zero =>
      intro collected q i hi
      simp [searchCalls] at hi
  | succ fuel ih =>
      intro collected q i hi
      unfold searchCalls at hi ⊢
      have hsingle : ∀ j : Nat, j < ([Js.SafeNumber.int q] : List Js.SafeNumber).length →
          ∃ r : Js.SafeInt, [Js.SafeNumber.int q].get? j = some (.int r) ∧
            r.val = q.val + j := by
        intro j hj
        have : j = 0 := by simpa using hj
        subst this
        exact ⟨q, by simp, by simp⟩
      by_cases hlen : collected.length < perPage
      · simp only [hlen, if_true] at hi ⊢
        cases hs : search (.int q) with
        | none =>
            simp only [hs] at hi ⊢
            exact hsingle i hi
        | some data =>
            obtain ⟨t, ht⟩ := totalPagesOf_safe data
            simp only [hs, ht, safe_ge_int, decide_eq_true_eq] at hi ⊢
            split
            · next h1 => rw [if_pos h1] at hi; exact hsingle i hi
            · next h1 =>
                rw [if_neg h1] at hi
                split
                · next h2 => rw [if_pos h2] at hi; exact hsingle i hi
                · next h2 =>
                    rw [if_neg h2] at hi
                    split
                    · next h3 => rw [if_pos h3] at hi; exact hsingle i hi
                    · next h3 =>
                        rw [if_neg h3] at hi
                        obtain ⟨h4, hsucc⟩ := safe_succ_of_lt q t (by omega)
                        rw [hsucc] at hi ⊢
                        cases i with
                        | zero => exact ⟨q, by simp, by simp⟩
                        | succ n =>
                            have hn : n < (searchCalls Js.safeOps search fuel
                                (collected ++ chunkOf data) (.int ⟨q.val + 1, h4⟩)).length := by
                              simpa using hi
                            obtain ⟨r, hr, hrv⟩ := ih _ _ n hn
                            refine ⟨r, ?_, ?_⟩
                            · simp only [List.get?_cons_succ]
                              exact hr
                            · rw [hrv]
                              push_cast
                              ring
      · simp only [hlen, if_false] at hi
        simp at hi

/-- At most `max(1, T - q + 1)` pages are requested from the integer page
`q` when no answer makes the loop use more than `T` as `total_pages`. -/
theorem searchCalls_length_le (search : Js.SafeNumber → Option (SearchData Js.SafeNumber))
    (T : Int)
    (hT : ∀ p data (t : Js.SafeInt), search p = some data →
      totalPagesOf Js.safeOps data = .int t → t.val ≤ T) (fuel : Nat) :
    ∀ (collected : List MovieCard) (q : Js.SafeInt),
      (searchCalls Js.safeOps search fuel collected (.int q)).length
        ≤ max 1 (T - q.val + 1).toNat := by
  induction fuel with
  | zero =>
      intro collected q
      simp [searchCalls]
  | succ fuel ih =>
      intro collected q
      unfold searchCalls
      by_cases hlen : collected.length < perPage
      · simp only [hlen, if_true]
        cases hs : search (.int q) with
        | none => simp
        | some data =>
            obtain ⟨t, ht⟩ := totalPagesOf_safe data
            have hle := hT _ data t hs ht
            simp only [ht, safe_ge_int, decide_eq_true_eq]
            split
            · simp
            · split
              · simp
              · split
                · simp
                · next hge _ _ =>
                    obtain ⟨h4, hsucc⟩ := safe_succ_of_lt q t (by omega)
                    rw [hsucc]
                    have := ih (collected ++ chunkOf data) ⟨q.val + 1, h4⟩
                    simp only [List.length_cons]
                    simp only [] at this
                    omega
      · simp only [hlen, if_false]
        simp

/-- From the integer page `q` the loop ends, by returning or by rejecting,
within `(T - q).toNat + 1` iterations. -/
theorem searchLoop_terminates (search : Js.SafeNumber → Option (SearchData Js.SafeNumber))
    (T : Int)
    (hT : ∀ p data (t : Js.SafeInt), search p = some data →
      totalPagesOf Js.safeOps data = .int t → t.val ≤ T) (fuel : Nat) :
    ∀ (collected : List MovieCard) (q : Js.SafeInt) (tp : Js.SafeNumber),
      (T - q.val).toNat + 1 ≤ fuel →
      searchLoop Js.safeOps search fuel collected (.int q) tp ≠ .outOfFuel := by
  induction fuel with
  | zero =>
      intro collected q tp h
      omega
  | succ fuel ih =>
      intro collected q tp h
      unfold searchLoop
      by_cases hlen : collected.length < perPage
      · simp only [hlen, if_true]
        cases hsp : search (.int q) with
        | none => simp
        | some data =>
            obtain ⟨t, ht⟩ := totalPagesOf_safe data
            have hle := hT _ data t hsp ht
            simp only [ht, safe_ge_int, decide_eq_true_eq]
            split
            · simp
            · split
              · simp
              · split
                · simp
                · next hge _ _ =>
                    obtain ⟨h4, hsucc⟩ := safe_succ_of_lt q t (by omega)
                    rw [hsucc]
                    apply ih
                    simp only []
                    omega
      · simp only [hlen, if_false]
        simp

/-- From the integer page `q` the loop returns within `(T - q).toNat + 1`
iterations when every call answers. -/
theorem searchLoop_returns (search : Js.SafeNumber → Option (SearchData Js.SafeNumber))
    (T : Int) (hs : ∀ p, search p ≠ none)
    (hT : ∀ p data (t : Js.SafeInt), search p = some data →
      totalPagesOf Js.safeOps data = .int t → t.val ≤ T) (fuel : Nat) :
    ∀ (collected : List MovieCard) (q : Js.SafeInt) (tp : Js.SafeNumber),
      (T - q.val).toNat + 1 ≤ fuel →
      ∃ x, searchLoop Js.safeOps search fuel collected (.int q) tp = .returned x := by
  induction fuel with
  | zero =>
      intro collected q tp h
      omega
  | succ fuel ih =>
      intro collected q tp h
      unfold searchLoop
      by_cases hlen : collected.length < perPage
      · simp only [hlen, if_true]
        cases hsp : search (.int q) with
        | none => exact absurd hsp (hs _)
        | some data =>
            obtain ⟨t, ht⟩ := totalPagesOf_safe data
            have hle := hT _ data t hsp ht
            simp only [ht, safe_ge_int, decide_eq_true_eq]
            split
            · exact ⟨_, rfl⟩
            · split
              · exact ⟨_, rfl⟩
              · split
                · exact ⟨_, rfl⟩
                · next hge _ _ =>
                    obtain ⟨h4, hsucc⟩ := safe_succ_of_lt q t (by omega)
                    rw [hsucc]
                    apply ih
                    simp only []
                    omega
      · simp only [hlen, if_false]
        exact ⟨_, rfl⟩

theorem searchCalls_full {Num : Type} (ops : Js.NumberOps Num)
    (search : Num → Option (SearchData Num)) (fuel : Nat)
    (collected : List MovieCard) (p : Num) (h : ¬ collected.length < perPage) :
    searchCalls ops search (fuel + 1) collected p = [] := by
  unfold searchCalls
  simp only [h, if_false]

theorem searchLoop_full {Num : Type} (ops : Js.NumberOps Num)
    (search : Num → Option (SearchData Num)) (fuel : Nat)
    (collected : List MovieCard) (p tp : Num) (h : ¬ collected.length < perPage) :
    searchLoop ops search (fuel + 1) collected p tp = .returned (collected, tp) := by
  unfold searchLoop
  simp only [h, if_false]

/-- One iteration that meets a stop condition requests its page and nothing
more, whatever the numbers are. -/
theorem searchLoop_stops {Num : Type} (ops : Js.NumberOps Num)
    (search : Num → Option (SearchData Num)) (fuel : Nat)
    (collected : List MovieCard) (p tp : Num) (data : SearchData Num)
    (hlen : collected.length < perPage) (hs : search p = some data)
    (hstop : perPage ≤ (collected ++ chunkOf data).length ∨
      ops.ge p (totalPagesOf ops data) = true ∨ resultsOf data = []) :
    searchCalls ops search (fuel + 2) collected p = [p] ∧
      searchLoop ops search (fuel + 2) collected p tp
        = .returned (collected ++ chunkOf data, totalPagesOf ops data) := by
  unfold searchCalls searchLoop
  simp only [hlen, if_true, hs]
  by_cases h1 : ops.ge p (totalPagesOf ops data) = true
  · simp [h1]
  · by_cases h2 : (resultsOf data).length = 0
    · simp [h1, h2]
    · have h3 : perPage ≤ (collected ++ chunkOf data).length := by
        rcases hstop with h | h | h
        · exact h
        · exact absurd h h1
        · rw [h] at h2
          exact absurd rfl h2
      have h4 : ¬ (collected ++ chunkOf data).length < perPage := by omega
      have h5 : ¬ ((chunkOf data).length = 0 ∧ (resultsOf data).length = 0) :=
        fun h => h2 h.2
      rw [if_neg h1, if_neg h2, if_neg h5, if_neg h1, if_neg h2, if_neg h5]
      rw [searchCalls_full ops search fuel _ _ h4, searchLoop_full ops search fuel _ _ _ h4]
      exact ⟨rfl, rfl⟩

/-- With the start page NaN and a page without matching items the loop asks
for page NaN again at every iteration and is still running after any number
of them. -/
theorem searchLoop_nan (fuel : Nat) :
    ∀ tp : Js.SafeNumber,
      searchLoop Js.safeOps otherGenreSearch fuel [] .nan tp = .outOfFuel ∧
      searchCalls Js.safeOps otherGenreSearch fuel [] .nan = List.replicate fuel .nan := by
  induction fuel with
  | zero =>
      intro tp
      exact ⟨rfl, rfl⟩
  | succ fuel ih =>
      intro tp
      have h := ih (totalPagesOf Js.safeOps
        { total_pages := some (pageNumber 3), results := some [⟨1, some [99]⟩] })
      constructor
      · unfold searchLoop
        exact h.1
      · unfold searchCalls
        show Js.SafeNumber.nan :: searchCalls Js.safeOps otherGenreSearch fuel [] .nan = _
        rw [h.2]
        rfl

/-- From an integer start page the call returns, within
`(T - page).toNat + 1` iterations, when every search call answers and no
answer makes the loop use more than `T` as `total_pages`. -/
theorem searchKid_returns (search : Js.SafeNumber → Option (SearchData Js.SafeNumber))
    (page : Js.SafeInt) (T : Int) (hs : ∀ p, search p ≠ none)
    (hT : ∀ p data (t : Js.SafeInt), search p = some data →
      totalPagesOf Js.safeOps data = .int t → t.val ≤ T) :
    ∃ r, searchKidFantasyAnimation Js.safeOps search ((T - page.val).toNat + 1) (.int page)
      = .returned r := by
  obtain ⟨x, hx⟩ := searchLoop_returns search T hs hT ((T - page.val).toNat + 1) [] page
    Js.safeOps.one (Nat.le_refl _)
  obtain ⟨c, tp2⟩ := x
  exact ⟨{ page := .int page, total_pages := tp2, results := c.take perPage },
    by simp [searchKidFantasyAnimation, hx]⟩

/-- Claim C18, at the start page NaN, which `Discover.jsx` passes for a URL
such as `?page=abc`: `tmdbPage++` leaves NaN and `tmdbPage >= total_pages`
is false, so the loop never moves to another page.  On a backend whose page
holds one animation movie it requests page NaN twenty times and returns that
one movie twenty times; on a backend whose page holds one movie of another
genre it requests page NaN at every iteration and never returns.  From page
1 the same backend is asked for the pages 1, 2 and 3. -/
theorem kid_search_nan_page :
    searchCalls Js.safeOps animationSearch 25 [] .nan = List.replicate 20 .nan ∧
      searchKidFantasyAnimation Js.safeOps animationSearch 25 .nan
        = .returned { page := .nan, total_pages := pageNumber 3,
                      results := List.replicate 20 ⟨1, [16]⟩ } ∧
      (∀ fuel : Nat,
        searchKidFantasyAnimation Js.safeOps otherGenreSearch fuel .nan = .outOfFuel) ∧
      (∀ fuel : Nat,
        searchCalls Js.safeOps otherGenreSearch fuel [] .nan = List.replicate fuel .nan) ∧
      searchCalls Js.safeOps animationSearch 25 [] (pageNumber 1)
        = [pageNumber 1, pageNumber 2, pageNumber 3] ∧
      searchKidFantasyAnimation Js.safeOps animationSearch 25 (pageNumber 1)
        = .returned { page := pageNumber 1, total_pages := pageNumber 3,
                      results := List.replicate 3 ⟨1, [16]⟩ } := by
  refine ⟨by decide, by decide, ?_, fun fuel => (searchLoop_nan fuel Js.safeOps.one).2,
    by decide, by decide⟩
  intro fuel
  unfold searchKidFantasyAnimation
  rw [(searchLoop_nan fuel Js.safeOps.one).1]

/-! ## Termination of the kid search -/

/-- Claim C23, as stated, fails on an integer start page: a backend that
reports `total_pages: 0` (so `T = 0`) with a non-empty page makes the search
started at page 0 request pages 0 and 1, two calls where the bound
`max(1, T - page + 1)` is 1. -/
theorem kid_search_call_bound_counterexample :
    (∀ p data, zeroPagesSearch p = some data →
        ∃ n : Js.SafeInt, data.total_pages = some (.int n) ∧ n.val ≤ 0) ∧
      searchCalls Js.safeOps zeroPagesSearch 5 [] (pageNumber 0)
        = [pageNumber 0, pageNumber 1] ∧
      max 1 ((0 : Int) - 0 + 1).toNat = 1 ∧
      ¬ ∀ (search : Js.SafeNumber → Option (SearchData Js.SafeNumber)) (page : Js.SafeInt)
          (T : Int) (fuel : Nat),
        (∀ p data, search p = some data →
          ∃ n : Js.SafeInt, data.total_pages = some (.int n) ∧ n.val ≤ T) →
        (searchCalls Js.safeOps search fuel [] (.int page)).length
          ≤ max 1 (T - page.val + 1).toNat := by
  have hrep : ∀ p data, zeroPagesSearch p = some data →
      ∃ n : Js.SafeInt, data.total_pages = some (.int n) ∧ n.val ≤ 0 := by
    intro p data h
    simp only [zeroPagesSearch, Option.some.injEq] at h
    subst h
    exact ⟨⟨0, by decide⟩, rfl, le_refl 0⟩
  refine ⟨hrep, by decide, by decide, ?_⟩
  intro h
  have h2 := h zeroPagesSearch ⟨0, by decide⟩ 0 5 hrep
  revert h2
  decide

/-- Claim C23, amended: from an integer start page (of magnitude at most
2^53, where `tmdbPage++` adds one), if for every search response the value
`data.total_pages || 1` the loop uses is at most `T`, the loop requests the
consecutive integer pages starting at the start page, at most
`max(1, T - page + 1)` of them, and the function ends (it returns or
rejects) within `(T - page).toNat + 1` iterations; and from any page, NaN
included, an iteration is the last one to request a page as soon as 20
matching items are collected, `tmdbPage >= total_pages` holds, or the page
comes back empty. -/
theorem kid_search_terminates (search : Js.SafeNumber → Option (SearchData Js.SafeNumber))
    (page : Js.SafeInt) (T : Int)
    (hT : ∀ p data (t : Js.SafeInt), search p = some data →
      totalPagesOf Js.safeOps data = .int t → t.val ≤ T) :
    (∀ fuel : Nat, (searchCalls Js.safeOps search fuel [] (.int page)).length
        ≤ max 1 (T - page.val + 1).toNat) ∧
      (∀ (fuel i : Nat), i < (searchCalls Js.safeOps search fuel [] (.int page)).length →
        ∃ r : Js.SafeInt,
          (searchCalls Js.safeOps search fuel [] (.int page)).get? i = some (.int r) ∧
          r.val = page.val + i) ∧
      (∀ fuel : Nat, (T - page.val).toNat + 1 ≤ fuel →
        searchKidFantasyAnimation Js.safeOps search fuel (.int page) ≠ .outOfFuel) ∧
      (∀ (fuel : Nat) (collected : List MovieCard) (p tp : Js.SafeNumber)
          (data : SearchData Js.SafeNumber),
        collected.length < perPage → search p = some data →
        (perPage ≤ (collected ++ chunkOf data).length ∨
          Js.safeOps.ge p (totalPagesOf Js.safeOps data) = true ∨ resultsOf data = []) →
        searchCalls Js.safeOps search (fuel + 2) collected p = [p] ∧
        searchLoop Js.safeOps search (fuel + 2) collected p tp
          = .returned (collected ++ chunkOf data, totalPagesOf Js.safeOps data)) := by
  refine ⟨fun fuel => searchCalls_length_le search T hT fuel [] page,
    fun fuel i hi => searchCalls_consecutive search fuel [] page i hi, ?_,
    fun fuel collected p tp data hlen hs hstop =>
      searchLoop_stops Js.safeOps search fuel collected p tp data hlen hs hstop⟩
  intro fuel hfuel
  have h := searchLoop_terminates search T hT fuel [] page Js.safeOps.one hfuel
  unfold searchKidFantasyAnimation
  cases hl : searchLoop Js.safeOps search fuel [] (.int page) Js.safeOps.one with
  | outOfFuel => exact absurd hl h
  | threw => simp
  | returned x => simp

/-- Claim C23, amended, on the backend with two pages, searched from page 1
with `T = 2`: two calls, on pages 1 and 2, and the function has ended after
two iterations. -/
theorem kid_search_terminates_witness :
    (searchCalls Js.safeOps sampleSearch 7 [] (pageNumber 1)).length
        ≤ max 1 ((2 : Int) - 1 + 1).toNat ∧
      searchCalls Js.safeOps sampleSearch 7 [] (pageNumber 1) = [pageNumber 1, pageNumber 2] ∧
      searchKidFantasyAnimation Js.safeOps sampleSearch 2 (pageNumber 1) ≠ .outOfFuel := by
  have h := kid_search_terminates sampleSearch ⟨1, by decide⟩ 2 (by
    intro p data t h ht
    unfold sampleSearch at h
    split at h
    · injection h with h
      subst h
      injection ht with ht
      subst ht
      decide
    · split at h
      · injection h with h
        subst h
        injection ht with ht
        subst ht
        decide
      · injection h with h
        subst h
        injection ht with ht
        subst ht
        decide)
  exact ⟨h.1 7, by decide, h.2.2.1 2 (by decide)⟩

end TmdbService

namespace Components

/-! ## Pagination -/

theorem mem_range_map_iff (a : Int) (n : Nat) (p : Int) :
    p ∈ (List.range n).map (fun (i : Nat) => a + (i : Int)) ↔ a ≤ p ∧ p < a + n := by
  simp only [List.mem_map, List.mem_range]
  constructor
  · rintro ⟨i, hi, rfl⟩
    omega
  · intro h
    refine ⟨(p - a).toNat, ?_, ?_⟩ <;> omega

/-- Claim C29: for `total ≥ 2` and `1 ≤ page ≤ total` the page buttons are
the consecutive integers from `max(1, page - 2)` to
`min(total, max(1, page - 2) + 4)`: between 1 and 5 of them, all within
`[1, total]`, the current page among them; and `go(p)` hands `onChange` the
value of `p` clamped into `[1, total]`. -/
theorem pagination_window (page total : Int) (ht : 2 ≤ total) (h1 : 1 ≤ page)
    (h2 : page ≤ total) :
    ∃ pages : List Int, Pagination page total = some pages ∧
      pages.length
        = (min total (max 1 (page - 2) + 4) - max 1 (page - 2) + 1).toNat ∧
      (∀ i : Nat, i < pages.length → pages.get? i = some (max 1 (page - 2) + i)) ∧
      (∀ p : Int, p ∈ pages ↔
        max 1 (page - 2) ≤ p ∧ p ≤ min total (max 1 (page - 2) + 4)) ∧
      1 ≤ pages.length ∧ pages.length ≤ 5 ∧
      (∀ p ∈ pages, 1 ≤ p ∧ p ≤ total) ∧
      page ∈ pages ∧
      (∀ p : Int, 1 ≤ go total p ∧ go total p ≤ total ∧
        (1 ≤ p → p ≤ total → go total p = p) ∧
        (p < 1 → go total p = 1) ∧ (total < p → go total p = total)) := by
  have hguard : ¬ (total = 0 ∨ total ≤ 1) := by omega
  have hw : windowSize / 2 = 2 := by decide
  have hpag : Pagination page total
      = some ((List.range (min total (max 1 (page - 2) + 4)
            - max 1 (page - 2) + 1).toNat).map
          (fun (i : Nat) => max 1 (page - 2) + (i : Int))) := by
    unfold Pagination
    simp only [hguard, if_false, hw]
    have : max 1 (page - 2) + windowSize - 1 = max 1 (page - 2) + 4 := by
      unfold windowSize
      omega
    rw [this]
  have hmem : ∀ p : Int,
      p ∈ (List.range (min total (max 1 (page - 2) + 4)
            - max 1 (page - 2) + 1).toNat).map
          (fun (i : Nat) => max 1 (page - 2) + (i : Int)) ↔
        max 1 (page - 2) ≤ p ∧ p ≤ min total (max 1 (page - 2) + 4) := by
    intro p
    rw [mem_range_map_iff]
    omega
  refine ⟨_, hpag, by simp, ?_, hmem, ?_, ?_, ?_, ?_, ?_⟩
  · intro i hi
    simp only [List.length_map, List.length_range] at hi
    simp [List.get?_eq_getElem?, List.getElem?_map, List.getElem?_range, hi]
  · simp only [List.length_map, List.length_range]
    omega
  · simp only [List.length_map, List.length_range]
    omega
  · intro p hp
    have := (hmem p).mp hp
    omega
  · rw [hmem]
    omega
  · intro p
    unfold go
    refine ⟨?_, ?_, ?_, ?_, ?_⟩ <;> omega

/-- Claim C29, on page 9 of 10: the buttons are 7, 8, 9, 10. -/
theorem pagination_window_witness :
    Pagination 9 10 = some [7, 8, 9, 10] ∧
      ∃ pages : List Int, Pagination 9 10 = some pages ∧ 1 ≤ pages.length ∧
        pages.length ≤ 5 ∧ (9 : Int) ∈ pages ∧ go 10 11 = 10 :=
  ⟨by decide,
    (pagination_window 9 10 (by decide) (by decide) (by decide)).imp
      (fun _ h => ⟨h.1, h.2.2.2.2.1, h.2.2.2.2.2.1, h.2.2.2.2.2.2.2.1,
        (h.2.2.2.2.2.2.2.2 11).2.2.2.2 (by decide)⟩)⟩

end Components


namespace MovieForm

/-! ## Schedule fields of the submitted payload -/

theorem string_mk_toList (s : String) : String.mk s.toList = s := by
  cases s
  rfl

theorem testYMD_elim (cs : List Char) (h : testYMD cs = true) : IsYMD (String.mk cs) := by
  unfold testYMD at h
  split at h
  · next y1 y2 y3 y4 a m1 m2 b d1 d2 =>
      simp only [Bool.and_eq_true, beq_iff_eq] at h
      obtain ⟨⟨⟨⟨⟨⟨⟨⟨⟨h1, h2⟩, h3⟩, h4⟩, ha⟩, h5⟩, h6⟩, hb⟩, h7⟩, h8⟩ := h
      subst ha hb
      exact ⟨y1, y2, y3, y4, m1, m2, d1, d2, rfl, h1, h2, h3, h4, h5, h6, h7, h8⟩
  · cases h

theorem matchDMY_elim (cs g1 g2 g3 : List Char) (h : matchDMY cs = some (g1, g2, g3)) :
    IsYMD (String.mk (g3 ++ ['-'] ++ g2 ++ ['-'] ++ g1)) := by
  unfold matchDMY at h
  split at h
  · next d1 d2 a m1 m2 b y1 y2 y3 y4 =>
      split at h
      · next hc =>
          simp only [Bool.and_eq_true] at hc
          obtain ⟨⟨⟨⟨⟨⟨⟨⟨⟨h1, h2⟩, _⟩, h3⟩, h4⟩, _⟩, h5⟩, h6⟩, h7⟩, h8⟩ := hc
          simp only [Option.some.injEq, Prod.mk.injEq] at h
          obtain ⟨e1, e2, e3⟩ := h
          subst e1 e2 e3
          exact ⟨y1, y2, y3, y4, m1, m2, d1, d2, rfl, h5, h6, h7, h8, h3, h4, h1, h2⟩
      · cases h
  · cases h

/-- What `toYMD` answers is empty or of the form `YYYY-MM-DD`. -/
theorem toYMD_form (v : Option String) : toYMD v = "" ∨ IsYMD (toYMD v) := by
  unfold toYMD
  by_cases hv : AxiosClient.truthy v = true
  · simp only [hv, Bool.not_true, Bool.false_eq_true, if_false]
    by_cases ht : testYMD (Js.trim (v.getD "")).toList = true
    · right
      simp only [ht, if_true]
      have := testYMD_elim _ ht
      rwa [string_mk_toList] at this
    · simp only [ht, if_false]
      cases hm : matchDMY (Js.trim (v.getD "")).toList with
      | none => left; rfl
      | some g =>
          obtain ⟨g1, g2, g3⟩ := g
          right
          exact matchDMY_elim _ g1 g2 g3 hm
  · left
    simp [hv]

theorem char_toNat_of_eq (c d : Char) (h : c = d) : c.toNat = d.toNat := by rw [h]

theorem testHour_elim (h1 h2 : Char) (h : testHour h1 h2 = true) :
    Js.isDigit h1 = true ∧ Js.isDigit h2 = true ∧
      10 * Js.digitValue h1 + Js.digitValue h2 ≤ 23 := by
  simp only [testHour, Js.isDigit, Bool.or_eq_true, Bool.and_eq_true, beq_iff_eq,
    decide_eq_true_eq] at h
  simp only [Js.isDigit, Js.digitValue, Bool.and_eq_true, decide_eq_true_eq]
  rcases h with ⟨h0 | h0, hd⟩ | ⟨h0, hd⟩
  · have := char_toNat_of_eq _ _ h0
    have e : ('0' : Char).toNat = 48 := rfl
    omega
  · have := char_toNat_of_eq _ _ h0
    have e : ('1' : Char).toNat = 49 := rfl
    omega
  · have := char_toNat_of_eq _ _ h0
    have e : ('2' : Char).toNat = 50 := rfl
    omega

theorem testSixty_elim (m1 m2 : Char) (h : testSixty m1 m2 = true) :
    Js.isDigit m1 = true ∧ Js.isDigit m2 = true ∧
      10 * Js.digitValue m1 + Js.digitValue m2 ≤ 59 := by
  simp only [testSixty, Js.isDigit, Bool.and_eq_true, decide_eq_true_eq] at h
  simp only [Js.isDigit, Js.digitValue, Bool.and_eq_true, decide_eq_true_eq]
  omega

theorem testTime_elim (cs : List Char) (h : testTime cs = true) :
    IsHHmm (String.mk (cs.take 5)) := by
  unfold testTime at h
  split at h
  · next h1 h2 a m1 m2 =>
      simp only [Bool.and_eq_true, beq_iff_eq] at h
      obtain ⟨⟨hh, ha⟩, hm⟩ := h
      subst ha
      obtain ⟨a1, a2, a3⟩ := testHour_elim h1 h2 hh
      obtain ⟨b1, b2, b3⟩ := testSixty_elim m1 m2 hm
      exact ⟨h1, h2, m1, m2, rfl, a1, a2, b1, b2, a3, b3⟩
  · next h1 h2 a m1 m2 b s1 s2 =>
      simp only [Bool.and_eq_true, beq_iff_eq] at h
      obtain ⟨⟨⟨⟨hh, ha⟩, hm⟩, _⟩, _⟩ := h
      subst ha
      obtain ⟨a1, a2, a3⟩ := testHour_elim h1 h2 hh
      obtain ⟨b1, b2, b3⟩ := testSixty_elim m1 m2 hm
      exact ⟨h1, h2, m1, m2, rfl, a1, a2, b1, b2, a3, b3⟩
  · cases h

/-- What `toHHmm` answers is empty or of the form `HH:mm`. -/
theorem toHHmm_form (v : Option String) : toHHmm v = "" ∨ IsHHmm (toHHmm v) := by
  unfold toHHmm
  by_cases hv : AxiosClient.truthy v = true
  · simp only [hv, Bool.not_true, Bool.false_eq_true, if_false]
    by_cases ht : testTime (Js.trim (v.getD "")).toList = true
    · right
      simp only [ht, if_true]
      exact testTime_elim _ ht
    · left
      rw [if_neg ht]
  · left
    simp [hv]

theorem truthy_some_iff (s : String) : AxiosClient.truthy (some s) = true ↔ s ≠ "" := by
  simp [AxiosClient.truthy]

/-- Claim C24: the payload `submit` passes to `onSubmit` contains `showDate`
if and only if it contains `showTime`, and when both are present `showDate`
has the form `YYYY-MM-DD` and `showTime` the form `HH:mm` with the hour in
00-23 and the minute in 00-59. -/
theorem schedule_never_half_filled (values : Values) :
    ((submit values).showDate.isSome ↔ (submit values).showTime.isSome) ∧
      ∀ d t : String, (submit values).showDate = some d →
        (submit values).showTime = some t → IsYMD d ∧ IsHHmm t := by
  unfold submit
  by_cases hkeep :
      (!AxiosClient.truthy
            (if AxiosClient.truthy values.showDate = true
              then some (toYMD values.showDate) else none) ||
          !AxiosClient.truthy
            (if AxiosClient.truthy values.showTime = true
              then some (toHHmm values.showTime) else none)) = true
  · rw [if_pos hkeep]
    exact ⟨Iff.rfl, fun d t hd => by cases hd⟩
  · rw [if_neg hkeep]
    simp only [Bool.or_eq_true, Bool.not_eq_true', not_or, Bool.not_eq_false] at hkeep
    obtain ⟨hd, ht⟩ := hkeep
    by_cases h1 : AxiosClient.truthy values.showDate = true
    · by_cases h2 : AxiosClient.truthy values.showTime = true
      · simp only [h1, h2, if_true] at hd ht ⊢
        refine ⟨by simp, ?_⟩
        intro d t ed et
        injection ed with ed
        injection et with et
        subst ed et
        rcases toYMD_form values.showDate with h | h
        · rw [h] at hd
          exact absurd hd (by decide)
        · rcases toHHmm_form values.showTime with g | g
          · rw [g] at ht
            exact absurd ht (by decide)
          · exact ⟨h, g⟩
      · rw [if_neg h2] at ht
        exact absurd ht (by decide)
    · rw [if_neg h1] at hd
      exact absurd hd (by decide)

/-- Claim C24, on a date typed as `DD/MM/YYYY` with a time, and on a date
with a time that passes validation but is out of range. -/
theorem schedule_never_half_filled_witness :
    submit ⟨some " 24/12/2024 ", some "09:30"⟩ = ⟨some "2024-12-24", some "09:30"⟩ ∧
      submit ⟨some "2024-12-24", some "99:30"⟩ = ⟨none, none⟩ ∧
      ((submit ⟨some " 24/12/2024 ", some "09:30"⟩).showDate.isSome ↔
        (submit ⟨some " 24/12/2024 ", some "09:30"⟩).showTime.isSome) ∧
      (IsYMD "2024-12-24" ∧ IsHHmm "09:30") :=
  ⟨by decide, by decide,
    (schedule_never_half_filled ⟨some " 24/12/2024 ", some "09:30"⟩).1,
    (schedule_never_half_filled ⟨some " 24/12/2024 ", some "09:30"⟩).2
      "2024-12-24" "09:30" (by decide) (by decide)⟩

end MovieForm


namespace Js

/-! ## Trimming -/

theorem dropWhile_rdropWhile_of_self {α : Type} (p : α → Bool) (l : List α)
    (h : l.dropWhile p = l) : (l.rdropWhile p).dropWhile p = l.rdropWhile p := by
  induction l using List.reverseRecOn with
  | nil => simp
  | append_singleton l x ih =>
      by_cases hx : p x = true
      · rw [List.rdropWhile_concat_pos _ _ _ hx]
        apply ih
        cases l with
        | nil => rfl
        | cons a t =>
            rw [List.dropWhile_eq_self_iff] at h ⊢
            intro hl
            have := h (by simp)
            simpa using this
      · rw [List.rdropWhile_concat_neg _ _ _ hx]
        exact h

theorem trimChars_idempotent (cs : List Char) : trimChars (trimChars cs) = trimChars cs := by
  unfold trimChars
  rw [dropWhile_rdropWhile_of_self _ _ (List.dropWhile_idempotent _ _),
    List.rdropWhile_idempotent]

/-- Trimming a trimmed string changes nothing. -/
theorem trim_idempotent (s : String) : trim (trim s) = trim s := by
  unfold trim
  show String.mk (trimChars (trimChars s.toList)) = _
  rw [trimChars_idempotent]

end Js

namespace Watchlist

/-! ## Normalising a movie for the watchlist -/

theorem candidate_eq_first {Num : Type} (m : Movie Num) :
    candidate m
      = (firstNonNullish [m.movieId, m.id, m.tmdbId, m.tmdb_id]).getD (.str "") := by
  unfold candidate nullishOr firstNonNullish firstNonNullish firstNonNullish
    firstNonNullish firstNonNullish
  cases h1 : isNullish m.movieId <;> cases h2 : isNullish m.id <;>
    cases h3 : isNullish m.tmdbId <;> cases h4 : isNullish m.tmdb_id <;>
    simp [h1, h2, h3, h4]

theorem isNullish_nullishOr {Num : Type} (a b : Value Num) :
    isNullish (nullishOr a b) = (isNullish a && isNullish b) := by
  unfold nullishOr
  cases h : isNullish a <;> simp [h]

theorem candidate_not_nullish {Num : Type} (m : Movie Num) :
    isNullish (candidate m) = false := by
  unfold candidate
  rw [isNullish_nullishOr]
  simp [isNullish]

theorem toStr_candidate {Num : Type} (numberToString : Num → String) (m : Movie Num) :
    toStr numberToString (candidate m)
      = Js.trim (toJsString numberToString (candidate m)) := by
  unfold toStr
  simp [candidate_not_nullish m]

theorem isNumeric_iff (s : String) (hs : s ≠ "") :
    isNumeric s = true ↔ ∀ c ∈ s.toList, Js.isDigit c = true := by
  have hne : s.toList ≠ [] := by
    intro h
    apply hs
    apply String.ext
    simpa using h
  unfold isNumeric
  cases hl : s.toList with
  | nil => exact absurd hl hne
  | cons a t => simp

/-- Claim C25: `normalizeIn` answers `null` exactly when the movie is missing
or the first non-nullish of `movieId`, `id`, `tmdbId`, `tmdb_id` (the empty
string when all four are nullish) trims to the empty string; otherwise
`movieId` is that value converted to a string and trimmed, it is not empty
and trimming it again changes nothing, and when no source is given `source`
is `"tmdb"` if `movieId` consists only of decimal digits and `"local"`
otherwise.  This holds whatever the numbers are and whatever string
JavaScript gives for each. -/
theorem normalizeIn_movieId {Num : Type} (numberToString : Num → String)
    (movie : Option (Movie Num)) :
    (normalizeIn numberToString movie = none ↔
        movie = none ∨
        ∃ m, movie = some m ∧
          Js.trim (toJsString numberToString
            ((firstNonNullish [m.movieId, m.id, m.tmdbId, m.tmdb_id]).getD (.str ""))) = "") ∧
      (∀ m r, movie = some m → normalizeIn numberToString movie = some r →
        r.movieId = Js.trim (toJsString numberToString
            ((firstNonNullish [m.movieId, m.id, m.tmdbId, m.tmdb_id]).getD (.str ""))) ∧
        r.movieId ≠ "" ∧ Js.trim r.movieId = r.movieId ∧
        (AxiosClient.truthy m.source = false →
          ((∀ c ∈ r.movieId.toList, Js.isDigit c = true) → r.source = "tmdb") ∧
          (¬ (∀ c ∈ r.movieId.toList, Js.isDigit c = true) → r.source = "local"))) := by
  cases movie with
  | none =>
      refine ⟨⟨fun _ => Or.inl rfl, fun _ => rfl⟩, ?_⟩
      intro m r hm
      cases hm
  | some m =>
      have hid := toStr_candidate numberToString m
      rw [candidate_eq_first] at hid
      by_cases he : toStr numberToString (candidate m) = ""
      · have hnone : normalizeIn numberToString (some m) = none := by
          simp [normalizeIn, he]
        refine ⟨⟨fun _ => Or.inr ⟨m, rfl, ?_⟩, fun _ => hnone⟩, ?_⟩
        · rw [← hid, ← candidate_eq_first]
          exact he
        · intro m2 r _ hr
          rw [hnone] at hr
          cases hr
      · have hsome : normalizeIn numberToString (some m) = some
            { movieId := toStr numberToString (candidate m)
              source := Js.trim (AxiosClient.orEmpty
                (AxiosClient.jsOr m.source
                  (some (if isNumeric (toStr numberToString (candidate m)) then "tmdb"
                    else "local"))))
              title := AxiosClient.orEmpty (AxiosClient.jsOr m.title m.name)
              posterUrl := AxiosClient.orEmpty (AxiosClient.jsOr m.posterUrl m.poster_path) } := by
          simp [normalizeIn, he]
        refine ⟨⟨fun h => ?_, fun h => ?_⟩, ?_⟩
        · rw [hsome] at h
          cases h
        · rcases h with h | ⟨m2, hm2, ht⟩
          · cases h
          · injection hm2 with hm2
            subst hm2
            rw [← hid, ← candidate_eq_first] at ht
            exact absurd ht he
        · intro m2 r hm2 hr
          injection hm2 with hm2
          subst hm2
          rw [hsome] at hr
          injection hr with hr
          subst hr
          refine ⟨?_, he, ?_, ?_⟩
          · show toStr numberToString (candidate m) = _
            rw [← candidate_eq_first] at hid
            rw [hid, candidate_eq_first]
          · show Js.trim (toStr numberToString (candidate m))
              = toStr numberToString (candidate m)
            rw [toStr_candidate, Js.trim_idempotent]
          · intro hsrc
            have hjs : AxiosClient.jsOr m.source
                (some (if isNumeric (toStr numberToString (candidate m)) then "tmdb"
                  else "local"))
                = some (if isNumeric (toStr numberToString (candidate m)) then "tmdb"
                  else "local") := by
              simp [AxiosClient.jsOr, hsrc]
            have hnum := isNumeric_iff (toStr numberToString (candidate m)) he
            constructor
            · intro hall
              have hn := hnum.mpr hall
              show Js.trim _ = "tmdb"
              rw [hjs, hn]
              decide
            · intro hall
              have hn : isNumeric (toStr numberToString (candidate m)) = false := by
                cases hb : isNumeric (toStr numberToString (candidate m)) with
                | false => rfl
                | true => exact absurd (hnum.mp hb) hall
              show Js.trim _ = "local"
              rw [hjs, hn]
              decide

/-- Claim C25, on a movie whose only id is blank, on one whose id is
`" 603 "`, and on one whose id is the number 603. -/
theorem normalizeIn_movieId_witness :
    normalizeIn Js.SafeInt.toJsString (some (sampleMovie (.str "  "))) = none ∧
      normalizeIn Js.SafeInt.toJsString (some (sampleMovie (.str " 603 ")))
        = some { movieId := "603", source := "tmdb", title := "Coco", posterUrl := "" } ∧
      normalizeIn Js.SafeInt.toJsString (some (sampleMovie (.num ⟨603, by decide⟩)))
        = some { movieId := "603", source := "tmdb", title := "Coco", posterUrl := "" } ∧
      (("603" : String) ≠ "" ∧ Js.trim "603" = "603") :=
  ⟨(normalizeIn_movieId Js.SafeInt.toJsString (some (sampleMovie (.str "  ")))).1.mpr
      (Or.inr ⟨sampleMovie (.str "  "), rfl, by decide⟩),
    by decide,
    by decide,
    ((normalizeIn_movieId Js.SafeInt.toJsString (some (sampleMovie (.str " 603 ")))).2
      (sampleMovie (.str " 603 "))
      { movieId := "603", source := "tmdb", title := "Coco", posterUrl := "" } rfl
      (by decide)).2.1,
    ((normalizeIn_movieId Js.SafeInt.toJsString (some (sampleMovie (.str " 603 ")))).2
      (sampleMovie (.str " 603 "))
      { movieId := "603", source := "tmdb", title := "Coco", posterUrl := "" } rfl
      (by decide)).2.2.1⟩

end Watchlist
